import Mathlib

/-! # x86 cache information (`arch/x86/kernel/cpu/cacheinfo.c`)

A shallow embedding of the cache-leaf decoding, the legacy AMD emulation of
CPUID leaf 4, the cache-leaf count discovery, the shared-cpu-map construction
and the Intel cache size selection, together with the properties proved about
them.

Conventions of the embedding:

* a 32-bit register (`u32`, `unsigned int`) is a natural number below `2 ^ 32`;
  every C operation that can wrap carries an explicit `% 2 ^ 32`;
* a C bit-field is read with `bitfield` and written with `bitfield_set`
  (first declared field in the least significant bits, as on x86);
* a `cpumask` is the characteristic function of the set of processor numbers;
* behaviour that C leaves undefined (a read beyond the end of a table, a
  division by zero) is an explicit `Fault`.
-/

namespace Cacheinfo

/-! ## Machine integers and bit-fields -/

/-- Truncation of a value to an unsigned 32-bit integer. -/
def u32 (x : Nat) : Nat := x % 2 ^ 32

/-- Unsigned 32-bit subtraction `a - b` of two 32-bit values (wraps below zero). -/
def usub32 (a b : Nat) : Nat := (u32 a + 2 ^ 32 - u32 b) % 2 ^ 32

/-- Read of the bit-field of width `w` whose lowest bit is bit `lo`. -/
def bitfield (x lo w : Nat) : Nat := (x / 2 ^ lo) % 2 ^ w

/-- Write of `v` (truncated to `w` bits) into the bit-field of width `w` whose
lowest bit is bit `lo`; the other bits of `x` are kept. -/
def bitfield_set (x lo w v : Nat) : Nat :=
  x % 2 ^ lo + (v % 2 ^ w) * 2 ^ lo + (x / 2 ^ (lo + w)) * 2 ^ (lo + w)

/-- Undefined behaviour of the C code made explicit. -/
inductive Fault where
  | out_of_bounds
  | divide_by_zero
  deriving DecidableEq, Repr

/-- Error number `EIO`. -/
def EIO : Int := 5

/-! ## `enum _cache_type` and the CPUID(4) register unions -/

def CTYPE_NULL : Nat := 0
def CTYPE_DATA : Nat := 1
def CTYPE_INST : Nat := 2
def CTYPE_UNIFIED : Nat := 3

/-- Field `type:5` of `union _cpuid4_leaf_eax`. -/
def eax_type (eax : Nat) : Nat := bitfield eax 0 5
/-- Field `level:3` of `union _cpuid4_leaf_eax`. -/
def eax_level (eax : Nat) : Nat := bitfield eax 5 3
/-- Field `is_self_initializing:1` of `union _cpuid4_leaf_eax`. -/
def eax_is_self_initializing (eax : Nat) : Nat := bitfield eax 8 1
/-- Field `is_fully_associative:1` of `union _cpuid4_leaf_eax`. -/
def eax_is_fully_associative (eax : Nat) : Nat := bitfield eax 9 1
/-- Field `num_threads_sharing:12` of `union _cpuid4_leaf_eax`. -/
def eax_num_threads_sharing (eax : Nat) : Nat := bitfield eax 14 12
/-- Field `num_cores_on_die:6` of `union _cpuid4_leaf_eax`. -/
def eax_num_cores_on_die (eax : Nat) : Nat := bitfield eax 26 6

/-- Field `coherency_line_size:12` of `union _cpuid4_leaf_ebx`. -/
def ebx_coherency_line_size (ebx : Nat) : Nat := bitfield ebx 0 12
/-- Field `physical_line_partition:10` of `union _cpuid4_leaf_ebx`. -/
def ebx_physical_line_partition (ebx : Nat) : Nat := bitfield ebx 12 10
/-- Field `ways_of_associativity:10` of `union _cpuid4_leaf_ebx`. -/
def ebx_ways_of_associativity (ebx : Nat) : Nat := bitfield ebx 22 10

/-- Field `number_of_sets:32` of `union _cpuid4_leaf_ecx`. -/
def ecx_number_of_sets (ecx : Nat) : Nat := bitfield ecx 0 32

/-- The record `struct _cpuid4_info_regs`; `nb` is the north bridge the
pointer refers to, `none` for a null pointer. -/
structure _cpuid4_info_regs where
  eax : Nat
  ebx : Nat
  ecx : Nat
  id : Nat
  size : Nat
  nb : Option Nat
  deriving DecidableEq, Repr

/-- The zero-initialised snapshot `struct _cpuid4_info_regs x = {}`. -/
def _cpuid4_info_regs.zero : _cpuid4_info_regs :=
  { eax := 0, ebx := 0, ecx := 0, id := 0, size := 0, nb := none }

/-! ## The hardware seen by the code -/

/-- Values of `x86_vendor` the code distinguishes. -/
inductive Vendor where
  | X86_VENDOR_INTEL
  | X86_VENDOR_AMD
  | X86_VENDOR_HYGON
  | X86_VENDOR_OTHER
  deriving DecidableEq, Repr

/-- What the executing processor and the boot configuration answer to the
queries of the cache-leaf decoding. -/
structure Hw where
  /-- Value of `boot_cpu_data.x86_vendor`. -/
  x86_vendor : Vendor
  /-- Value of `boot_cpu_has(X86_FEATURE_TOPOEXT)`. -/
  has_topoext : Bool
  /-- Value of `boot_cpu_has(X86_FEATURE_AMD_DCM)`. -/
  has_amd_dcm : Bool
  /-- The instruction `cpuid` with `eax = op`, `ecx = count`:
  the registers `(eax, ebx, ecx, edx)` it leaves. -/
  cpuid : Nat → Nat → Nat × Nat × Nat × Nat
  /-- Value of `__this_cpu_read(cpu_info.x86_cache_size)`. -/
  x86_cache_size : Nat
  /-- Value of `topology_num_cores_per_package()`. -/
  num_cores_per_package : Nat
  /-- Whether `CONFIG_AMD_NB && CONFIG_SYSFS` holds. -/
  config_amd_nb : Bool
  /-- Value of `node_to_amd_nb(topology_amd_node_id(smp_processor_id()))`. -/
  node_amd_nb : Option Nat

/-- The helper `cpuid_count(op, count, &eax, &ebx, &ecx, &edx)`: four 32-bit
registers. -/
def cpuid_count (hw : Hw) (op count : Nat) : Nat × Nat × Nat × Nat :=
  let r := hw.cpuid op count
  (u32 r.1, u32 r.2.1, u32 r.2.2.1, u32 r.2.2.2)

/-! ## Legacy emulation of CPUID(4) on AMD: `amd_cpuid4` -/

/-- The table `assocs[]`: entries without an initialiser are zero. -/
def assocs_table : List Nat :=
  [0, 1, 2, 0, 4, 0, 8, 0, 16, 0, 32, 48, 64, 96, 128, 0xffff]

/-- The read `assocs[i]`; a read beyond the sixteen entries is a fault. -/
def assocs (i : Nat) : Except Fault Nat :=
  match assocs_table[i]? with
  | some v => .ok v
  | none => .error .out_of_bounds

/-- The table `levels[]`. -/
def levels : List Nat := [1, 1, 2, 3]
/-- The table `types[]`. -/
def types : List Nat := [1, 2, 3, 3]

/-- The locals `assoc`, `line_size`, `lines_per_tag`, `size_in_kb` of
`amd_cpuid4` after its `switch`. -/
structure amd_geometry where
  assoc : Nat
  line_size : Nat
  lines_per_tag : Nat
  size_in_kb : Nat
  deriving DecidableEq, Repr

/-- The `switch (leaf)` of `amd_cpuid4`: `.ok none` is an early `return`
(registers left zero), `.ok (some g)` a `break` with the locals `g`. -/
def amd_cpuid4_switch (hw : Hw) (leaf : Nat) : Except Fault (Option amd_geometry) :=
  let l1d := (cpuid_count hw 0x80000005 0).2.2.1
  let l1i := (cpuid_count hw 0x80000005 0).2.2.2
  let l2 := (cpuid_count hw 0x80000006 0).2.2.1
  let l3 := (cpuid_count hw 0x80000006 0).2.2.2
  match leaf with
  | 0 | 1 =>
    let l1 := if leaf = 1 then l1i else l1d
    if l1 = 0 then .ok none
    else
      match assocs (bitfield l1 16 8) with
      | .error f => .error f
      | .ok assoc =>
        .ok (some { assoc := assoc, line_size := bitfield l1 0 8,
                    lines_per_tag := bitfield l1 8 8, size_in_kb := bitfield l1 24 8 })
  | 2 =>
    if l2 = 0 then .ok none
    else
      match assocs (bitfield l2 12 4) with
      | .error f => .error f
      | .ok assoc =>
        .ok (some { assoc := assoc, line_size := bitfield l2 0 8,
                    lines_per_tag := bitfield l2 8 4, size_in_kb := u32 hw.x86_cache_size })
  | 3 =>
    if l3 = 0 then .ok none
    else
      match assocs (bitfield l3 12 4) with
      | .error f => .error f
      | .ok assoc =>
        let size_in_kb := bitfield l3 18 14 * 512
        if hw.has_amd_dcm then
          .ok (some { assoc := assoc / 2, line_size := bitfield l3 0 8,
                      lines_per_tag := bitfield l3 8 4, size_in_kb := size_in_kb / 2 })
        else
          .ok (some { assoc := assoc, line_size := bitfield l3 0 8,
                      lines_per_tag := bitfield l3 8 4, size_in_kb := size_in_kb })
  | _ => .ok none

/-- The function `amd_cpuid4(leaf, &eax, &ebx, &ecx)`: the three registers
it leaves. -/
def amd_cpuid4 (hw : Hw) (leaf : Nat) : Except Fault (Nat × Nat × Nat) :=
  match amd_cpuid4_switch hw leaf with
  | .error f => .error f
  | .ok none => .ok (0, 0, 0)
  | .ok (some g) =>
    let eax := bitfield_set 0 8 1 1
    let eax := bitfield_set eax 0 5 (types.getD leaf 0)
    let eax := bitfield_set eax 5 3 (levels.getD leaf 0)
    let eax := bitfield_set eax 14 12 0
    let eax := bitfield_set eax 26 6 hw.num_cores_per_package
    let eax := if g.assoc = 0xffff then bitfield_set eax 9 1 1 else eax
    let ebx := bitfield_set 0 0 12 (usub32 g.line_size 1)
    let ebx := bitfield_set ebx 22 10 (usub32 g.assoc 1)
    let ebx := bitfield_set ebx 12 10 (usub32 g.lines_per_tag 1)
    if g.line_size = 0 then .error .divide_by_zero
    else
      let ecx := bitfield_set 0 0 32
        (usub32 (u32 (g.size_in_kb * 1024) / g.line_size / (ebx_ways_of_associativity ebx + 1)) 1)
      .ok (eax, ebx, ecx)

/-! ## `cpuid4_cache_lookup_regs` and `ci_leaf_init` -/

/-- The macro/function `amd_init_l3_cache(this_leaf, index)`: the effect on
the snapshot. (The lazily computed `l3_cache` descriptor lives in the north
bridge, not in the snapshot.) -/
def amd_init_l3_cache (hw : Hw) (this_leaf : _cpuid4_info_regs) (index : Nat) :
    _cpuid4_info_regs :=
  if !hw.config_amd_nb then this_leaf
  else if index < 3 then this_leaf
  else { this_leaf with nb := hw.node_amd_nb }

/-- The register probe of `cpuid4_cache_lookup_regs`: the vendor dispatch that
fills the locals `eax`, `ebx`, `ecx`. -/
def cpuid4_probe (hw : Hw) (index : Nat) : Except Fault (Nat × Nat × Nat) :=
  if hw.x86_vendor = Vendor.X86_VENDOR_AMD then
    if hw.has_topoext then
      let r := cpuid_count hw 0x8000001d index
      .ok (r.1, r.2.1, r.2.2.1)
    else amd_cpuid4 hw index
  else if hw.x86_vendor = Vendor.X86_VENDOR_HYGON then
    let r := cpuid_count hw 0x8000001d index
    .ok (r.1, r.2.1, r.2.2.1)
  else
    let r := cpuid_count hw 4 index
    .ok (r.1, r.2.1, r.2.2.1)

/-- The function `cpuid4_cache_lookup_regs(index, this_leaf)`: return value
and the snapshot it leaves. -/
def cpuid4_cache_lookup_regs (hw : Hw) (index : Nat) (this_leaf : _cpuid4_info_regs) :
    Except Fault (Int × _cpuid4_info_regs) :=
  match cpuid4_probe hw index with
  | .error f => .error f
  | .ok (eax, ebx, ecx) =>
    let this_leaf :=
      if hw.x86_vendor = Vendor.X86_VENDOR_AMD ∨ hw.x86_vendor = Vendor.X86_VENDOR_HYGON then
        amd_init_l3_cache hw this_leaf index
      else this_leaf
    if eax_type eax = CTYPE_NULL then .ok (- EIO, this_leaf)
    else
      .ok (0, { this_leaf with
                eax := eax, ebx := ebx, ecx := ecx,
                size := (u32 (ecx_number_of_sets ecx + 1) *
                          (ebx_coherency_line_size ebx + 1) *
                          (ebx_physical_line_partition ebx + 1) *
                          (ebx_ways_of_associativity ebx + 1)) % 2 ^ 32 })

/-- The values of `enum cache_type` (`linux/cacheinfo.h`). -/
inductive cache_type where
  | CACHE_TYPE_NOCACHE
  | CACHE_TYPE_INST
  | CACHE_TYPE_DATA
  | CACHE_TYPE_UNIFIED
  deriving DecidableEq, Repr

/-- The table `cache_type_map[]`; `none` stands for the unspecified value of
a read beyond its four entries. -/
def cache_type_map (t : Nat) : Option cache_type :=
  match t with
  | 0 => some .CACHE_TYPE_NOCACHE
  | 1 => some .CACHE_TYPE_DATA
  | 2 => some .CACHE_TYPE_INST
  | 3 => some .CACHE_TYPE_UNIFIED
  | _ => none

/-- The fields of `struct cacheinfo` written by `ci_leaf_init` (all
`unsigned int`), and its `shared_cpu_map` kept apart (see `ci_state`). -/
structure cacheinfo where
  id : Nat
  level : Nat
  type : Option cache_type
  coherency_line_size : Nat
  ways_of_associativity : Nat
  size : Nat
  number_of_sets : Nat
  physical_line_partition : Nat
  priv : Option Nat
  deriving DecidableEq, Repr

/-- The function `ci_leaf_init(this_leaf, base)`: the fields it stores (the
constant `attributes = CACHE_ID` is left out). -/
def ci_leaf_init (base : _cpuid4_info_regs) : cacheinfo :=
  { id := base.id
    level := eax_level base.eax
    type := cache_type_map (eax_type base.eax)
    coherency_line_size := ebx_coherency_line_size base.ebx + 1
    ways_of_associativity := ebx_ways_of_associativity base.ebx + 1
    size := u32 base.size
    number_of_sets := u32 (ecx_number_of_sets base.ecx + 1)
    physical_line_partition := ebx_physical_line_partition base.ebx + 1
    priv := base.nb }

/-! ## Topology inputs and the sharing identifier (`get_cache_id`) -/

/-- The loop behind `get_count_order_model`: the least `k' ≥ k` within
`fuel` steps with `count ≤ 2 ^ k'`. -/
def count_order_loop : Nat → Nat → Nat → Nat
  | 0, k, _ => k
  | fuel + 1, k, count => if count ≤ 2 ^ k then k else count_order_loop fuel (k + 1) count

/-- Modelled from the spec: the helper `get_count_order` (`linux/bitops.h`) is
not among the sources; the spec gives `index_msb = ceiling(log2(threads_sharing))`.
For a 32-bit `count ≥ 1` this is the least `k ≤ 32` with `count ≤ 2 ^ k`. -/
def get_count_order (count : Nat) : Nat := count_order_loop 32 0 count

/-- The topology data the code reads about the processors of the machine. -/
structure Topo where
  /-- Value of `nr_cpu_ids`: processor numbers are `0 .. nr_cpu_ids - 1`. -/
  nr_cpu_ids : Nat
  /-- The mask `cpu_online_mask`. -/
  cpu_online : Nat → Bool
  /-- Value of `cpu_data(cpu).topo.apicid`. -/
  apicid : Nat → Nat
  /-- Value of `cpu_data(cpu).x86_vendor`. -/
  x86_vendor : Nat → Vendor
  /-- The mask `cpu_llc_shared_mask(cpu)`. -/
  cpu_llc_shared_mask : Nat → Nat → Bool

/-- The read `cpu_data(cpu).topo.apicid` (a `u32`). -/
def topo_apicid (t : Topo) (cpu : Nat) : Nat := u32 (t.apicid cpu)

/-- The function `get_cache_id(cpu, id4_regs)`: the snapshot with its `id`. -/
def get_cache_id (t : Topo) (cpu : Nat) (id4_regs : _cpuid4_info_regs) : _cpuid4_info_regs :=
  let num_threads_sharing := 1 + eax_num_threads_sharing id4_regs.eax
  let index_msb := get_count_order num_threads_sharing
  { id4_regs with id := topo_apicid t cpu >>> index_msb }

/-! ## Counting the cache leaves (`find_num_cache_leaves`) -/

/-- The value an `int` holds after a computation whose mathematical result
is `x` (two's complement wrap-around, as the kernel is compiled). -/
def wrap_int (x : Int) : Int := (x + 2147483648) % 4294967296 - 2147483648

/-- The value of an `int` passed as an `unsigned int` argument. -/
def int_to_u32 (x : Int) : Nat := (x % 4294967296).toNat

/-- The `do { ... } while (...)` loop of `find_num_cache_leaves`, started with
the local `i`; `fuel` bounds the number of iterations, `none` means the bound
was reached before the loop ended. -/
def find_num_cache_leaves_loop (hw : Hw) (op : Nat) : Nat → Int → Option Int
  | 0, _ => none
  | fuel + 1, i =>
    let i := wrap_int (i + 1)
    let eax := (cpuid_count hw op (int_to_u32 i)).1
    if eax_type eax ≠ CTYPE_NULL then find_num_cache_leaves_loop hw op fuel i
    else some i

/-- The CPUID leaf `op` chosen by `find_num_cache_leaves` from `c->x86_vendor`. -/
def find_num_cache_leaves_op (c_x86_vendor : Vendor) : Nat :=
  if c_x86_vendor = Vendor.X86_VENDOR_AMD ∨ c_x86_vendor = Vendor.X86_VENDOR_HYGON then
    0x8000001d
  else 4

/-- The function `find_num_cache_leaves(c)`, with a bound on the iterations. -/
def find_num_cache_leaves (hw : Hw) (c_x86_vendor : Vendor) (fuel : Nat) : Option Int :=
  find_num_cache_leaves_loop hw (find_num_cache_leaves_op c_x86_vendor) fuel (-1)

/-! ## Shared-cpu maps (`__cache_amd_cpumap_setup`, `__cache_cpumap_setup`) -/

/-- Modelled from the spec: a `struct cpumask` (`linux/cpumask.h`), the spec's
"set of logical-processor identifiers", as the characteristic function of a
set of processor numbers. -/
def cpumask : Type := Nat → Bool

/-- Modelled from the spec: the operation `cpumask_set_cpu(cpu, mask)`
(`linux/cpumask.h`), by which "a processor joins" the set. -/
def cpumask_set_cpu (cpu : Nat) (mask : cpumask) : cpumask :=
  fun x => if x = cpu then true else mask x

/-- The per-processor cache information the sharing-map code reads and
writes: whether `get_cpu_cacheinfo(cpu)->info_list` is allocated, and the
`shared_cpu_map` of leaf `index` of processor `cpu`. -/
structure ci_state where
  info_list : Nat → Bool
  shared_cpu_map : Nat → Nat → cpumask

/-- The statement `cpumask_set_cpu(sibling, &this_leaf->shared_cpu_map)` with
`this_leaf = get_cpu_cacheinfo(i)->info_list + index`. -/
def shared_set (st : ci_state) (i index sibling : Nat) : ci_state :=
  { st with
    shared_cpu_map := fun c l =>
      if c = i ∧ l = index then cpumask_set_cpu sibling (st.shared_cpu_map c l)
      else st.shared_cpu_map c l }

/-- Modelled from the spec: the iteration `for_each_cpu(i, mask)`
(`linux/cpumask.h`) over "all processors" of a mask: the processors below
`nr_cpu_ids` in the mask, in increasing order. -/
def for_each_cpu (t : Topo) (mask : Nat → Bool) : List Nat :=
  (List.range t.nr_cpu_ids).filter mask

/-- The local `first` of the TOPOEXT branch: `apicid - (apicid % nshared)`. -/
def amd_first (apicid nshared : Nat) : Nat := apicid - apicid % nshared

/-- The local `last` of the TOPOEXT branch: `first + nshared - 1` as an
`unsigned int`. -/
def amd_last (apicid nshared : Nat) : Nat := (amd_first apicid nshared + nshared - 1) % 2 ^ 32

/-- The function `__cache_amd_cpumap_setup(cpu, index, base)`: return value
and resulting state. -/
def __cache_amd_cpumap_setup (hw : Hw) (t : Topo) (st : ci_state) (cpu index : Nat)
    (base : _cpuid4_info_regs) : Int × ci_state :=
  if index = 3 then
    (1, (for_each_cpu t (t.cpu_llc_shared_mask cpu)).foldl (fun st i =>
      if !st.info_list i then st
      else
        (for_each_cpu t (t.cpu_llc_shared_mask cpu)).foldl (fun st sibling =>
          if !t.cpu_online sibling then st
          else shared_set st i index sibling) st) st)
  else if hw.has_topoext then
    let nshared := eax_num_threads_sharing base.eax + 1
    let apicid := topo_apicid t cpu
    let first := amd_first apicid nshared
    let last := amd_last apicid nshared
    (1, (for_each_cpu t t.cpu_online).foldl (fun st i =>
      if !st.info_list i then st
      else if topo_apicid t i < first ∨ topo_apicid t i > last then st
      else
        (for_each_cpu t t.cpu_online).foldl (fun st sibling =>
          if topo_apicid t sibling < first ∨ topo_apicid t sibling > last then st
          else shared_set st i index sibling) st) st)
  else (0, st)

/-- The function `__cache_cpumap_setup(cpu, index, base)`: resulting state. -/
def __cache_cpumap_setup (hw : Hw) (t : Topo) (st : ci_state) (cpu index : Nat)
    (base : _cpuid4_info_regs) : ci_state :=
  let r :=
    if t.x86_vendor cpu = Vendor.X86_VENDOR_AMD ∨ t.x86_vendor cpu = Vendor.X86_VENDOR_HYGON then
      __cache_amd_cpumap_setup hw t st cpu index base
    else (0, st)
  if r.1 ≠ 0 then r.2
  else
    let st := r.2
    let num_threads_sharing := 1 + eax_num_threads_sharing base.eax
    let st := shared_set st cpu index cpu
    if num_threads_sharing = 1 then st
    else
      let index_msb := get_count_order num_threads_sharing
      (for_each_cpu t t.cpu_online).foldl (fun st i =>
        if topo_apicid t i >>> index_msb = topo_apicid t cpu >>> index_msb then
          if i = cpu ∨ !st.info_list i then st
          else shared_set (shared_set st cpu index i) i index cpu
        else st) st

/-- Every sharing set of `st` is contained in the corresponding one of `st'`. -/
def shared_le (st st' : ci_state) : Prop :=
  ∀ c l x, st.shared_cpu_map c l x = true → st'.shared_cpu_map c l x = true

/-- Processor `i` is visited by `for_each_online_cpu`. -/
def is_online (t : Topo) (i : Nat) : Prop := i < t.nr_cpu_ids ∧ t.cpu_online i = true

instance is_online_decidable (t : Topo) (i : Nat) : Decidable (is_online t i) :=
  inferInstanceAs (Decidable (i < t.nr_cpu_ids ∧ t.cpu_online i = true))

/-! ## Intel cache sizes (`cache_table`, `init_intel_cacheinfo`) -/

def LVL_1_INST : Nat := 1
def LVL_1_DATA : Nat := 2
def LVL_2 : Nat := 3
def LVL_3 : Nat := 4

/-- An entry of `struct _cache_table`. -/
structure _cache_table where
  descriptor : Nat
  cache_type : Nat
  size : Nat
  deriving DecidableEq, Repr

/-- The table `cache_table[]` up to its terminating `{ 0x00, 0, 0 }` entry;
`MB(x)` is written out as `x * 1024`. -/
def cache_table : List _cache_table :=
  [
    ⟨0x06, LVL_1_INST, 8⟩,
    ⟨0x08, LVL_1_INST, 16⟩,
    ⟨0x09, LVL_1_INST, 32⟩,
    ⟨0x0a, LVL_1_DATA, 8⟩,
    ⟨0x0c, LVL_1_DATA, 16⟩,
    ⟨0x0d, LVL_1_DATA, 16⟩,
    ⟨0x0e, LVL_1_DATA, 24⟩,
    ⟨0x21, LVL_2, 256⟩,
    ⟨0x22, LVL_3, 512⟩,
    ⟨0x23, LVL_3, 1024⟩,
    ⟨0x25, LVL_3, 2048⟩,
    ⟨0x29, LVL_3, 4096⟩,
    ⟨0x2c, LVL_1_DATA, 32⟩,
    ⟨0x30, LVL_1_INST, 32⟩,
    ⟨0x39, LVL_2, 128⟩,
    ⟨0x3a, LVL_2, 192⟩,
    ⟨0x3b, LVL_2, 128⟩,
    ⟨0x3c, LVL_2, 256⟩,
    ⟨0x3d, LVL_2, 384⟩,
    ⟨0x3e, LVL_2, 512⟩,
    ⟨0x3f, LVL_2, 256⟩,
    ⟨0x41, LVL_2, 128⟩,
    ⟨0x42, LVL_2, 256⟩,
    ⟨0x43, LVL_2, 512⟩,
    ⟨0x44, LVL_2, 1024⟩,
    ⟨0x45, LVL_2, 2048⟩,
    ⟨0x46, LVL_3, 4096⟩,
    ⟨0x47, LVL_3, 8192⟩,
    ⟨0x48, LVL_2, 3072⟩,
    ⟨0x49, LVL_3, 4096⟩,
    ⟨0x4a, LVL_3, 6144⟩,
    ⟨0x4b, LVL_3, 8192⟩,
    ⟨0x4c, LVL_3, 12288⟩,
    ⟨0x4d, LVL_3, 16384⟩,
    ⟨0x4e, LVL_2, 6144⟩,
    ⟨0x60, LVL_1_DATA, 16⟩,
    ⟨0x66, LVL_1_DATA, 8⟩,
    ⟨0x67, LVL_1_DATA, 16⟩,
    ⟨0x68, LVL_1_DATA, 32⟩,
    ⟨0x78, LVL_2, 1024⟩,
    ⟨0x79, LVL_2, 128⟩,
    ⟨0x7a, LVL_2, 256⟩,
    ⟨0x7b, LVL_2, 512⟩,
    ⟨0x7c, LVL_2, 1024⟩,
    ⟨0x7d, LVL_2, 2048⟩,
    ⟨0x7f, LVL_2, 512⟩,
    ⟨0x80, LVL_2, 512⟩,
    ⟨0x82, LVL_2, 256⟩,
    ⟨0x83, LVL_2, 512⟩,
    ⟨0x84, LVL_2, 1024⟩,
    ⟨0x85, LVL_2, 2048⟩,
    ⟨0x86, LVL_2, 512⟩,
    ⟨0x87, LVL_2, 1024⟩,
    ⟨0xd0, LVL_3, 512⟩,
    ⟨0xd1, LVL_3, 1024⟩,
    ⟨0xd2, LVL_3, 2048⟩,
    ⟨0xd6, LVL_3, 1024⟩,
    ⟨0xd7, LVL_3, 2048⟩,
    ⟨0xd8, LVL_3, 4096⟩,
    ⟨0xdc, LVL_3, 2048⟩,
    ⟨0xdd, LVL_3, 4096⟩,
    ⟨0xde, LVL_3, 8192⟩,
    ⟨0xe2, LVL_3, 2048⟩,
    ⟨0xe3, LVL_3, 4096⟩,
    ⟨0xe4, LVL_3, 8192⟩,
    ⟨0xea, LVL_3, 12288⟩,
    ⟨0xeb, LVL_3, 18432⟩,
    ⟨0xec, LVL_3, 24576⟩
  ]

/-- The four accumulators `l1i`, `l1d`, `l2`, `l3` (each an `unsigned int`). -/
structure cache_sizes where
  l1i : Nat
  l1d : Nat
  l2 : Nat
  l3 : Nat
  deriving DecidableEq, Repr

/-- The initial accumulators `l1i = 0, l1d = 0, l2 = 0, l3 = 0`. -/
def cache_sizes.zero : cache_sizes := { l1i := 0, l1d := 0, l2 := 0, l3 := 0 }

/-- The `while (cache_table[k].descriptor != 0)` search: the first entry
whose descriptor is `des`, if there is one before the terminator. -/
def cache_table_lookup (des : Nat) : Option _cache_table :=
  cache_table.find? (fun e => e.descriptor == des)

/-- The body of the loop over `j` for one descriptor byte `des`: the table
search and the `switch (cache_table[k].cache_type)`. -/
def legacy_add (tot : cache_sizes) (des : Nat) : cache_sizes :=
  match cache_table_lookup des with
  | none => tot
  | some e =>
    if e.cache_type = LVL_1_INST then { tot with l1i := u32 (tot.l1i + e.size) }
    else if e.cache_type = LVL_1_DATA then { tot with l1d := u32 (tot.l1d + e.size) }
    else if e.cache_type = LVL_2 then { tot with l2 := u32 (tot.l2 + e.size) }
    else if e.cache_type = LVL_3 then { tot with l3 := u32 (tot.l3 + e.size) }
    else tot

/-- The loop `for (j = 0; j < 4; j++) if (regs[j] & (1 << 31)) regs[j] = 0;`
on the four registers of one `cpuid(2)`. -/
def legacy_clear_unknown (r : Nat × Nat × Nat × Nat) : List Nat :=
  [u32 r.1, u32 r.2.1, u32 r.2.2.1, u32 r.2.2.2].map
    (fun x => if bitfield x 31 1 ≠ 0 then 0 else x)

/-- The byte `dp[j]` of the register array `regs` (little endian). -/
def legacy_dp (regs : List Nat) (j : Nat) : Nat :=
  bitfield (regs.getD (j / 4) 0) (8 * (j % 4)) 8

/-- The descriptor bytes `dp[1] .. dp[15]` one `cpuid(2)` result contributes,
in processing order. -/
def legacy_descriptor_bytes (r : Nat × Nat × Nat × Nat) : List Nat :=
  (List.range' 1 15).map (legacy_dp (legacy_clear_unknown r))

/-- The legacy descriptor pass of `init_intel_cacheinfo` (the block under
`if (!ci->num_leaves && c->cpuid_level > 1)`); `cpuid2 k` is the result of the
`k`-th execution of `cpuid(2)`, the first one being `cpuid_eax(2)`. -/
def intel_legacy_pass (cpuid2 : Nat → Nat × Nat × Nat × Nat) (tot : cache_sizes) :
    cache_sizes :=
  let n := bitfield (u32 (cpuid2 0).1) 0 8
  (List.range n).foldl (fun tot i =>
    (legacy_descriptor_bytes (cpuid2 (i + 1))).foldl legacy_add tot) tot

/-- The sequence of all descriptor bytes the legacy pass processes. -/
def intel_legacy_descriptors (cpuid2 : Nat → Nat × Nat × Nat × Nat) : List Nat :=
  ((List.range (bitfield (u32 (cpuid2 0).1) 0 8)).map
    (fun i => legacy_descriptor_bytes (cpuid2 (i + 1)))).flatten

/-- The `cache_table` size of descriptor `des` when its entry has cache type
`ty`, and 0 otherwise. -/
def descriptor_size (ty des : Nat) : Nat :=
  match cache_table_lookup des with
  | none => 0
  | some e => if e.cache_type = ty then e.size else 0

/-- The accumulator of cache type `ty` (`LVL_1_INST` .. `LVL_3`). -/
def cache_sizes.total (tot : cache_sizes) (ty : Nat) : Nat :=
  if ty = LVL_1_INST then tot.l1i
  else if ty = LVL_1_DATA then tot.l1d
  else if ty = LVL_2 then tot.l2
  else if ty = LVL_3 then tot.l3
  else 0

/-- The sum of the `cache_table` sizes of the descriptors of type `ty` in `ds`. -/
def descriptor_sum (ty : Nat) (ds : List Nat) : Nat := (ds.map (descriptor_size ty)).sum

/-- The fields of `struct cpuinfo_x86` that `init_intel_cacheinfo` uses. -/
structure cpuinfo_x86 where
  cpuid_level : Int
  x86_vendor : Vendor
  apicid : Nat
  pkg_id : Nat
  llc_id : Nat
  l2c_id : Nat
  x86_cache_size : Nat
  deriving DecidableEq, Repr

/-- The locals `new_l1d`, `new_l1i`, `new_l2`, `new_l3`, `l2_id`, `l3_id`. -/
structure cpuid4_sizes where
  new_l1d : Nat
  new_l1i : Nat
  new_l2 : Nat
  new_l3 : Nat
  l2_id : Nat
  l3_id : Nat
  deriving DecidableEq, Repr

/-- The initial values of the locals of the per-leaf pass. -/
def cpuid4_sizes.zero : cpuid4_sizes :=
  { new_l1d := 0, new_l1i := 0, new_l2 := 0, new_l3 := 0, l2_id := 0, l3_id := 0 }

/-- The `switch (this_leaf.eax.split.level)` of the per-leaf pass. -/
def intel_cpuid4_switch (apicid : Nat) (acc : cpuid4_sizes) (this_leaf : _cpuid4_info_regs) :
    cpuid4_sizes :=
  let level := eax_level this_leaf.eax
  if level = 1 then
    if eax_type this_leaf.eax = CTYPE_DATA then
      { acc with new_l1d := u32 (this_leaf.size / 1024) }
    else if eax_type this_leaf.eax = CTYPE_INST then
      { acc with new_l1i := u32 (this_leaf.size / 1024) }
    else acc
  else if level = 2 then
    let num_threads_sharing := 1 + eax_num_threads_sharing this_leaf.eax
    let index_msb := get_count_order num_threads_sharing
    { acc with new_l2 := u32 (this_leaf.size / 1024),
               l2_id := u32 apicid - u32 apicid % 2 ^ index_msb }
  else if level = 3 then
    let num_threads_sharing := 1 + eax_num_threads_sharing this_leaf.eax
    let index_msb := get_count_order num_threads_sharing
    { acc with new_l3 := u32 (this_leaf.size / 1024),
               l3_id := u32 apicid - u32 apicid % 2 ^ index_msb }
  else acc

/-- The loop `for (i = 0; i < ci->num_leaves; i++)` of the per-leaf pass over
the leaf indices still to visit. -/
def intel_cpuid4_loop (hw : Hw) (apicid : Nat) :
    List Nat → cpuid4_sizes → Except Fault cpuid4_sizes
  | [], acc => .ok acc
  | i :: rest, acc =>
    match cpuid4_cache_lookup_regs hw i _cpuid4_info_regs.zero with
    | .error f => .error f
    | .ok (retval, this_leaf) =>
      if retval < 0 then intel_cpuid4_loop hw apicid rest acc
      else intel_cpuid4_loop hw apicid rest (intel_cpuid4_switch apicid acc this_leaf)

/-- The outcome of `init_intel_cacheinfo`: the processor record and
`ci->num_leaves` it leaves, the final values of the locals `l1i`, `l1d`, `l2`,
`l3`, and whether `cpu_detect_cache_sizes(c)` is invoked. -/
structure intel_result where
  c : cpuinfo_x86
  num_leaves : Nat
  sizes : cache_sizes
  cpu_detect_cache_sizes_called : Bool
  deriving DecidableEq, Repr

/-- The tail of `init_intel_cacheinfo` after the two passes (from
`if (new_l1d)` to the end); `bad_apicid` is the constant `BAD_APICID`. -/
def intel_finish (bad_apicid : Nat) (c : cpuinfo_x86) (num_leaves : Nat)
    (new : cpuid4_sizes) (legacy : cache_sizes) : intel_result :=
  let l1d := if new.new_l1d ≠ 0 then new.new_l1d else legacy.l1d
  let l1i := if new.new_l1i ≠ 0 then new.new_l1i else legacy.l1i
  let l2 := if new.new_l2 ≠ 0 then new.new_l2 else legacy.l2
  let c := if new.new_l2 ≠ 0 then { c with llc_id := new.l2_id, l2c_id := new.l2_id } else c
  let l3 := if new.new_l3 ≠ 0 then new.new_l3 else legacy.l3
  let c := if new.new_l3 ≠ 0 then { c with llc_id := new.l3_id } else c
  let c := if c.llc_id = bad_apicid then { c with llc_id := c.pkg_id } else c
  let c := { c with
    x86_cache_size := if l3 ≠ 0 then l3 else (if l2 ≠ 0 then l2 else u32 (l1i + l1d)) }
  { c := c, num_leaves := num_leaves,
    sizes := { l1i := l1i, l1d := l1d, l2 := l2, l3 := l3 },
    cpu_detect_cache_sizes_called := decide (l2 = 0) }

/-- The value of `ci->num_leaves` after the initialisation at the head of
`init_intel_cacheinfo`; `none` when the iteration bound of the leaf count loop
is reached. -/
def intel_num_leaves (hw : Hw) (c : cpuinfo_x86) (num_leaves fuel : Nat) : Option Nat :=
  if c.cpuid_level > 3 then
    if num_leaves = 0 then (find_num_cache_leaves hw c.x86_vendor fuel).map int_to_u32
    else some num_leaves
  else some num_leaves

/-- The per-leaf (cpuid 4) pass of `init_intel_cacheinfo` for the leaf count
`num_leaves`. -/
def intel_cpuid4_pass (hw : Hw) (c : cpuinfo_x86) (num_leaves : Nat) :
    Except Fault cpuid4_sizes :=
  if c.cpuid_level > 3 then
    intel_cpuid4_loop hw c.apicid (List.range num_leaves) cpuid4_sizes.zero
  else .ok cpuid4_sizes.zero

/-- The legacy accumulators when the two passes are over: the legacy pass
runs only under `!ci->num_leaves && c->cpuid_level > 1`. -/
def intel_legacy_sizes (cpuid2 : Nat → Nat × Nat × Nat × Nat) (c : cpuinfo_x86)
    (num_leaves : Nat) : cache_sizes :=
  if num_leaves = 0 ∧ c.cpuid_level > 1 then intel_legacy_pass cpuid2 cache_sizes.zero
  else cache_sizes.zero

/-- The function `init_intel_cacheinfo(c)`, for the initial `ci->num_leaves`;
`none` when the iteration bound `fuel` of the leaf count loop is reached. -/
def init_intel_cacheinfo (hw : Hw) (cpuid2 : Nat → Nat × Nat × Nat × Nat) (bad_apicid : Nat)
    (c : cpuinfo_x86) (num_leaves fuel : Nat) : Option (Except Fault intel_result) :=
  match intel_num_leaves hw c num_leaves fuel with
  | none => none
  | some nl =>
    match intel_cpuid4_pass hw c nl with
    | .error f => some (.error f)
    | .ok new => some (.ok (intel_finish bad_apicid c nl new (intel_legacy_sizes cpuid2 c nl)))

/-! ## Geometry registers of the legacy emulation -/

/-- The geometry register `amd_cpuid4` tests for leaf `leaf`: `l1d.val`,
`l1i.val`, `l2.val`, `l3.val` for leaves 0 to 3 (no register for other
leaves). -/
def amd_geometry_reg (hw : Hw) (leaf : Nat) : Nat :=
  match leaf with
  | 0 => (cpuid_count hw 0x80000005 0).2.2.1
  | 1 => (cpuid_count hw 0x80000005 0).2.2.2
  | 2 => (cpuid_count hw 0x80000006 0).2.2.1
  | 3 => (cpuid_count hw 0x80000006 0).2.2.2
  | _ => 0

/-! ## L3 index disable on the AMD north bridge (`amd_calc_l3_indices` ..
`subcaches_store`) -/

/-- Error number `EPERM`. -/
def EPERM : Int := 1
/-- Error number `EEXIST`. -/
def EEXIST : Int := 17
/-- Error number `EINVAL`. -/
def EINVAL : Int := 22

/-- The macro `BIT(nr)`. -/
def BIT (nr : Nat) : Nat := 1 <<< nr

/-- The value of an `int` converted to an `unsigned long` of `bits` bits. -/
def int_to_ulong (bits : Nat) (x : Int) : Nat := (x % 2 ^ bits).toNat

/-- The value of a `size_t` converted to an `ssize_t` of `bits` bits. -/
def ulong_to_long (bits : Nat) (x : Nat) : Int :=
  if x % 2 ^ bits < 2 ^ (bits - 1) then ((x % 2 ^ bits : Nat) : Int)
  else ((x % 2 ^ bits : Nat) : Int) - 2 ^ bits

/-- What the L3 index-disable code does to the outside: accesses to the
configuration space of `nb->misc` and cache flushes. -/
inductive nb_event where
  | pci_read_config_dword (offset : Nat)
  | pci_write_config_dword (offset val : Nat)
  | wbinvd_on_cpu (cpu : Int)
  deriving DecidableEq, Repr

/-- Modelled from the spec: a `struct amd_northbridge` (`asm/amd_nb.h`) with
the configuration space of its `misc` device as "a narrow read/write-register
capability": `misc offset` is the dword last written at `offset`; `subcaches`
and `indices` are the fields of its `l3_cache`; `trace` lists the accesses
made so far, oldest first. -/
structure amd_northbridge where
  misc : Nat → Nat
  subcaches : Nat → Nat
  indices : Nat
  trace : List nb_event

/-- Modelled from the spec: the helper `pci_read_config_dword(nb->misc, offset, &val)`
(`linux/pci.h`): the dword read and the recorded access. -/
def pci_read_config_dword (nb : amd_northbridge) (offset : Nat) : Nat × amd_northbridge :=
  (u32 (nb.misc offset),
   { nb with trace := nb.trace ++ [nb_event.pci_read_config_dword offset] })

/-- Modelled from the spec: the helper `pci_write_config_dword(nb->misc, offset, val)`
(`linux/pci.h`): the register then holds `val`. -/
def pci_write_config_dword (nb : amd_northbridge) (offset val : Nat) : amd_northbridge :=
  { nb with
    misc := fun o => if o = offset then u32 val else nb.misc o,
    trace := nb.trace ++ [nb_event.pci_write_config_dword offset (u32 val)] }

/-- The call `wbinvd_on_cpu(cpu)`, recorded. -/
def wbinvd_on_cpu (nb : amd_northbridge) (cpu : Int) : amd_northbridge :=
  { nb with trace := nb.trace ++ [nb_event.wbinvd_on_cpu cpu] }

/-- The C negation `!x` of an integer, as 0 or 1. -/
def lnot (x : Nat) : Nat := if x = 0 then 1 else 0

/-- The function `amd_calc_l3_indices(nb)`; `x86` is `boot_cpu_data.x86`. -/
def amd_calc_l3_indices (x86 : Nat) (nb : amd_northbridge) : amd_northbridge :=
  let r := pci_read_config_dword nb 0x1C4
  let val := r.1
  let nb := r.2
  let sc0 := lnot (val &&& BIT 0)
  let sc1 := lnot (val &&& BIT 4)
  let sc0 := if x86 = 0x15 then sc0 + lnot (val &&& BIT 1) else sc0
  let sc1 := if x86 = 0x15 then sc1 + lnot (val &&& BIT 5) else sc1
  let sc2 := lnot (val &&& BIT 8) + lnot (val &&& BIT 9)
  let sc3 := lnot (val &&& BIT 12) + lnot (val &&& BIT 13)
  { nb with
    subcaches := fun i =>
      if i = 0 then sc0 else if i = 1 then sc1 else if i = 2 then sc2
      else if i = 3 then sc3 else nb.subcaches i,
    indices := usub32 (max (max (max sc0 sc1) sc2) sc3 <<< 10) 1 }

/-- The function `amd_get_l3_disable_slot(nb, slot)`. -/
def amd_get_l3_disable_slot (nb : amd_northbridge) (slot : Nat) : Int × amd_northbridge :=
  let r := pci_read_config_dword nb (0x1BC + slot * 4)
  let reg := r.1
  if reg &&& (3 <<< 30) ≠ 0 then (((reg &&& 0xfff : Nat) : Int), r.2)
  else (-1, r.2)

/-- The function `show_cache_disable(this_leaf, buf, slot)` with
`nb = this_leaf->priv`: the text written to `buf`. -/
def show_cache_disable (nb : amd_northbridge) (slot : Nat) : String × amd_northbridge :=
  let r := amd_get_l3_disable_slot nb slot
  let index := r.1
  if index ≥ 0 then (toString index ++ "\n", r.2)
  else ("FREE\n", r.2)

/-- The body of the loop `for (i = 0; i < 4; i++)` of `amd_l3_disable_index`,
for the local `idx` (already holding `BIT(30)`). -/
def amd_l3_disable_index_body (cpu : Int) (slot idx : Nat) (nb : amd_northbridge) (i : Nat) :
    amd_northbridge :=
  let reg := u32 (idx ||| (i <<< 20))
  if nb.subcaches i = 0 then nb
  else
    let nb := pci_write_config_dword nb (0x1BC + slot * 4) reg
    let nb := wbinvd_on_cpu nb cpu
    let reg := u32 (reg ||| BIT 31)
    pci_write_config_dword nb (0x1BC + slot * 4) reg

/-- The function `amd_l3_disable_index(nb, cpu, slot, idx)`. -/
def amd_l3_disable_index (nb : amd_northbridge) (cpu : Int) (slot idx : Nat) :
    amd_northbridge :=
  let idx := idx ||| BIT 30
  (List.range 4).foldl (amd_l3_disable_index_body cpu slot idx) nb

/-- The function `amd_set_l3_disable_slot(nb, cpu, slot, index)`; `bits` is
the width of `unsigned long`. -/
def amd_set_l3_disable_slot (bits : Nat) (nb : amd_northbridge) (cpu : Int) (slot index : Nat) :
    Int × amd_northbridge :=
  let r := amd_get_l3_disable_slot nb slot
  let ret := r.1
  let nb := r.2
  if ret ≥ 0 then (- EEXIST, nb)
  else if index > nb.indices then (- EINVAL, nb)
  else
    let r := amd_get_l3_disable_slot nb (lnot slot)
    let nb := r.2
    if index = int_to_ulong bits r.1 then (- EEXIST, nb)
    else (0, amd_l3_disable_index nb cpu slot index)

/-- Modelled from the spec: the helper `cpumask_first(mask)` (`linux/cpumask.h`):
the least processor of the mask, `nr_cpu_ids` for an empty mask. -/
def cpumask_first (nr_cpu_ids : Nat) (mask : cpumask) : Nat :=
  ((List.range nr_cpu_ids).find? mask).getD nr_cpu_ids

/-- The function `store_cache_disable(this_leaf, buf, count, slot)` with
`nb = this_leaf->priv` and `shared_cpu_map = this_leaf->shared_cpu_map`;
`capable` is the value of `capable(CAP_SYS_ADMIN)`, `kstrtoul buf base` the
number `kstrtoul` parses (`none` for a negative return); the `pr_warn` is not
recorded. -/
def store_cache_disable (bits : Nat) (capable : Bool) (kstrtoul : String → Nat → Option Nat)
    (nr_cpu_ids : Nat) (shared_cpu_map : cpumask) (nb : amd_northbridge)
    (buf : String) (count slot : Nat) : Int × amd_northbridge :=
  if !capable then (- EPERM, nb)
  else
    let cpu := (cpumask_first nr_cpu_ids shared_cpu_map : Int)
    match kstrtoul buf 10 with
    | none => (- EINVAL, nb)
    | some val =>
      let r := amd_set_l3_disable_slot bits nb cpu slot val
      let err := r.1
      if err ≠ 0 then (err, r.2)
      else (ulong_to_long bits count, r.2)

/-- The function `subcaches_store(dev, attr, buf, count)`; `amd_set_subcaches`
is the external function of that name acting on the north bridge. -/
def subcaches_store (bits : Nat) (capable : Bool) (kstrtoul : String → Nat → Option Nat)
    (amd_set_subcaches : Int → Nat → amd_northbridge → Int × amd_northbridge)
    (nr_cpu_ids : Nat) (shared_cpu_map : cpumask) (nb : amd_northbridge)
    (buf : String) (count : Nat) : Int × amd_northbridge :=
  let cpu := (cpumask_first nr_cpu_ids shared_cpu_map : Int)
  if !capable then (- EPERM, nb)
  else
    match kstrtoul buf 16 with
    | none => (- EINVAL, nb)
    | some val =>
      let r := amd_set_subcaches cpu val nb
      if r.1 ≠ 0 then (- EINVAL, r.2)
      else (ulong_to_long bits count, r.2)

/-- The dword of disable slot `slot` (register `0x1BC + slot * 4`). -/
def l3_slot_reg (nb : amd_northbridge) (slot : Nat) : Nat := u32 (nb.misc (0x1BC + slot * 4))

/-- Disable slot `slot` is occupied: bit 30 or bit 31 of its register is set. -/
def l3_slot_occupied (nb : amd_northbridge) (slot : Nat) : Prop :=
  (l3_slot_reg nb slot).testBit 30 = true ∨ (l3_slot_reg nb slot).testBit 31 = true

instance l3_slot_occupied_decidable (nb : amd_northbridge) (slot : Nat) :
    Decidable (l3_slot_occupied nb slot) :=
  inferInstanceAs (Decidable ((l3_slot_reg nb slot).testBit 30 = true ∨
    (l3_slot_reg nb slot).testBit 31 = true))

/-- The index stored in disable slot `slot`: the low twelve bits of its
register. -/
def l3_slot_index (nb : amd_northbridge) (slot : Nat) : Nat := l3_slot_reg nb slot &&& 0xfff

/-- The dword `amd_l3_disable_index` leaves in the slot register after the
second write for subcache `i` (bits 30 and 31 set, `i` in bits 20..21). -/
def l3_slot_final (idx i : Nat) : Nat := u32 (u32 ((idx ||| BIT 30) ||| (i <<< 20)) ||| BIT 31)

/-! ## Cache control: `cache_disable`, `cache_enable`, `cache_cpu_init` and the
rendezvous (`cache_rendezvous_handler`, `cache_ap_online`, `cache_aps_init`) -/

/-- The calls the cache-control code makes to the outside, in order, with the
processor they run on. -/
inductive cache_event where
  | raw_spin_lock (cpu : Nat)
  | raw_spin_unlock (cpu : Nat)
  | wbinvd (cpu : Nat)
  | flush_tlb_local (cpu : Nat)
  | mtrr_disable (cpu : Nat)
  | mtrr_enable (cpu : Nat)
  | mtrr_generic_set_state (cpu : Nat)
  | pat_cpu_init (cpu : Nat)
  | local_irq_save (cpu : Nat)
  | local_irq_restore (cpu : Nat)
  | stop_machine (cpus : List Nat)
  | stop_machine_from_inactive_cpu (cpus : List Nat)
  deriving DecidableEq, Repr

/-- The constants and features the cache-control code reads: the feature
tests, the masks `X86_CR0_CD`, `X86_CR4_PGE`, `CACHE_MTRR`, `CACHE_PAT` and
the variable `memory_caching_control` (read-only after init). -/
structure cache_ctl where
  has_selfsnoop : Bool
  has_pge : Bool
  has_mtrr : Bool
  X86_CR0_CD : Nat
  X86_CR4_PGE : Nat
  memory_caching_control : Nat
  CACHE_MTRR : Nat
  CACHE_PAT : Nat

/-- The state the cache-control code acts on: the control registers CR0 and
CR4 of each processor, the statics `saved_cr4`, `cache_disable_lock` (`true`
when held), `cache_aps_delayed_init` and `cpu_cacheinfo_mask`, and the record
of outside calls, oldest first. -/
structure cache_state where
  cr0 : Nat → Nat
  cr4 : Nat → Nat
  saved_cr4 : Nat
  cache_disable_lock : Bool
  cache_aps_delayed_init : Bool
  cpu_cacheinfo_mask : cpumask
  trace : List cache_event

/-- The operation `x & ~m` on unsigned values: `x` with the bits of `m`
cleared. -/
def and_not (x m : Nat) : Nat := x ^^^ (x &&& m)

/-- An outside call recorded in the trace. -/
def cache_log (st : cache_state) (e : cache_event) : cache_state :=
  { st with trace := st.trace ++ [e] }

/-- The write `write_cr0(val)` on processor `cpu`. -/
def write_cr0 (st : cache_state) (cpu val : Nat) : cache_state :=
  { st with cr0 := fun c => if c = cpu then val else st.cr0 c }

/-- The write `__write_cr4(val)` on processor `cpu`. -/
def write_cr4 (st : cache_state) (cpu val : Nat) : cache_state :=
  { st with cr4 := fun c => if c = cpu then val else st.cr4 c }

/-- The function `cache_disable()` run on processor `cpu`; `none` when
`cache_disable_lock` is already held (`raw_spin_lock` does not return in a
sequential run). The statistics call `count_vm_tlb_event` is left out. -/
def cache_disable (cfg : cache_ctl) (cpu : Nat) (st : cache_state) : Option cache_state :=
  if st.cache_disable_lock then none
  else
    let st := cache_log { st with cache_disable_lock := true } (.raw_spin_lock cpu)
    let cr0 := st.cr0 cpu ||| cfg.X86_CR0_CD
    let st := write_cr0 st cpu cr0
    let st := if !cfg.has_selfsnoop then cache_log st (.wbinvd cpu) else st
    let st :=
      if cfg.has_pge then
        let st := { st with saved_cr4 := st.cr4 cpu }
        write_cr4 st cpu (and_not st.saved_cr4 cfg.X86_CR4_PGE)
      else st
    let st := cache_log st (.flush_tlb_local cpu)
    let st := if cfg.has_mtrr then cache_log st (.mtrr_disable cpu) else st
    let st := if !cfg.has_selfsnoop then cache_log st (.wbinvd cpu) else st
    some st

/-- The function `cache_enable()` run on processor `cpu`. -/
def cache_enable (cfg : cache_ctl) (cpu : Nat) (st : cache_state) : cache_state :=
  let st := cache_log st (.flush_tlb_local cpu)
  let st := if cfg.has_mtrr then cache_log st (.mtrr_enable cpu) else st
  let st := write_cr0 st cpu (and_not (st.cr0 cpu) cfg.X86_CR0_CD)
  let st := if cfg.has_pge then write_cr4 st cpu st.saved_cr4 else st
  cache_log { st with cache_disable_lock := false } (.raw_spin_unlock cpu)

/-- The function `cache_cpu_init()` run on processor `cpu`. -/
def cache_cpu_init (cfg : cache_ctl) (cpu : Nat) (st : cache_state) : Option cache_state :=
  let st := cache_log st (.local_irq_save cpu)
  let r :=
    if cfg.memory_caching_control &&& cfg.CACHE_MTRR ≠ 0 then
      match cache_disable cfg cpu st with
      | none => none
      | some st =>
        let st := cache_log st (.mtrr_generic_set_state cpu)
        some (cache_enable cfg cpu st)
    else some st
  match r with
  | none => none
  | some st =>
    let st :=
      if cfg.memory_caching_control &&& cfg.CACHE_PAT ≠ 0 then cache_log st (.pat_cpu_init cpu)
      else st
    some (cache_log st (.local_irq_restore cpu))

/-- The function `set_cache_aps_delayed_init(val)`. -/
def set_cache_aps_delayed_init (val : Bool) (st : cache_state) : cache_state :=
  { st with cache_aps_delayed_init := val }

/-- The function `get_cache_aps_delayed_init()`. -/
def get_cache_aps_delayed_init (st : cache_state) : Bool := st.cache_aps_delayed_init

/-- The function `cache_rendezvous_handler(unused)` run on processor `cpu`
(`smp_processor_id()`): return value and resulting state. -/
def cache_rendezvous_handler (cfg : cache_ctl) (t : Topo) (cpu : Nat) (st : cache_state) :
    Option (Int × cache_state) :=
  if get_cache_aps_delayed_init st || !t.cpu_online cpu then
    match cache_cpu_init cfg cpu st with
    | none => none
    | some st => some (0, st)
  else some (0, st)

/-- Modelled from the spec: the primitive behind `stop_machine` and
`stop_machine_from_inactive_cpu` (`linux/stop_machine.h`), "stop all specified
processors and run this function on each, serialized": `fn` runs to completion
on each processor of `cpus` in turn. -/
def stop_machine_run (fn : Nat → cache_state → Option (Int × cache_state)) :
    List Nat → cache_state → Option cache_state
  | [], st => some st
  | c :: cs, st =>
    match fn c st with
    | none => none
    | some r => stop_machine_run fn cs r.2

/-- The function `cache_ap_online(cpu)`: return value and resulting state. -/
def cache_ap_online (cfg : cache_ctl) (t : Topo) (cpu : Nat) (st : cache_state) :
    Option (Int × cache_state) :=
  let st := { st with cpu_cacheinfo_mask := cpumask_set_cpu cpu st.cpu_cacheinfo_mask }
  if cfg.memory_caching_control = 0 || get_cache_aps_delayed_init st then some (0, st)
  else
    let cpus := for_each_cpu t st.cpu_cacheinfo_mask
    let st := cache_log st (.stop_machine_from_inactive_cpu cpus)
    match stop_machine_run (cache_rendezvous_handler cfg t) cpus st with
    | none => none
    | some st => some (0, st)

/-- The function `cache_aps_init()`. -/
def cache_aps_init (cfg : cache_ctl) (t : Topo) (st : cache_state) : Option cache_state :=
  if cfg.memory_caching_control = 0 || !get_cache_aps_delayed_init st then some st
  else
    let cpus := for_each_cpu t t.cpu_online
    let st := cache_log st (.stop_machine cpus)
    match stop_machine_run (cache_rendezvous_handler cfg t) cpus st with
    | none => none
    | some st => some (set_cache_aps_delayed_init false st)

/-- The outside calls of one `cache_disable()` on processor `cpu`. -/
def cache_disable_events (cfg : cache_ctl) (cpu : Nat) : List cache_event :=
  [.raw_spin_lock cpu] ++ (if !cfg.has_selfsnoop then [.wbinvd cpu] else []) ++
    [.flush_tlb_local cpu] ++ (if cfg.has_mtrr then [.mtrr_disable cpu] else []) ++
    (if !cfg.has_selfsnoop then [.wbinvd cpu] else [])

/-- The outside calls of one `cache_enable()` on processor `cpu`. -/
def cache_enable_events (cfg : cache_ctl) (cpu : Nat) : List cache_event :=
  [.flush_tlb_local cpu] ++ (if cfg.has_mtrr then [.mtrr_enable cpu] else []) ++
    [.raw_spin_unlock cpu]

/-- Every reprogramming hook call (`mtrr_generic_set_state`, `pat_cpu_init`)
of the event list lies between an enter (`raw_spin_lock` of `cache_disable`)
and the following exit (`raw_spin_unlock` of `cache_enable`); `inside` tells
whether the list starts inside such a section. -/
def hooks_inside_section : Bool → List cache_event → Bool
  | _, [] => true
  | inside, e :: rest =>
    match e with
    | .raw_spin_lock _ => hooks_inside_section true rest
    | .raw_spin_unlock _ => hooks_inside_section false rest
    | .mtrr_generic_set_state _ => inside && hooks_inside_section inside rest
    | .pat_cpu_init _ => inside && hooks_inside_section inside rest
    | _ => hooks_inside_section inside rest

/-- The event list holds an enter and an exit on processor `cpu`. -/
def enter_exit_performed (cpu : Nat) (es : List cache_event) : Bool :=
  es.contains (.raw_spin_lock cpu) && es.contains (.raw_spin_unlock cpu)

/-- The outside calls of one `cache_cpu_init()` on processor `cpu`. -/
def cache_cpu_init_events (cfg : cache_ctl) (cpu : Nat) : List cache_event :=
  [cache_event.local_irq_save cpu] ++
    (if cfg.memory_caching_control &&& cfg.CACHE_MTRR ≠ 0 then
      cache_disable_events cfg cpu ++ [cache_event.mtrr_generic_set_state cpu] ++
        cache_enable_events cfg cpu
     else []) ++
    (if cfg.memory_caching_control &&& cfg.CACHE_PAT ≠ 0 then
      [cache_event.pat_cpu_init cpu] else []) ++
    [cache_event.local_irq_restore cpu]

/-- The outside calls of a rendezvous that runs `cache_rendezvous_handler`
on each processor of `cpus` in turn, for the value `delayed` of
`cache_aps_delayed_init`. -/
def rendezvous_events (cfg : cache_ctl) (t : Topo) (delayed : Bool) (cpus : List Nat) :
    List cache_event :=
  (cpus.map (fun c =>
    if delayed || !t.cpu_online c then cache_cpu_init_events cfg c else [])).flatten

/-! ## Populating the leaves of a processor (`populate_cache_leaves`) -/

/-- What `populate_cache_leaves(cpu)` reads and writes: the sharing maps of all
processors, the entries of `this_cpu_ci->info_list` written so far (`none` for
an entry not written), the flag `cpu_map_populated`, and the leaf indices
passed to `cpuid4_cache_lookup_regs`, in order. -/
structure populate_state where
  ci : ci_state
  leaves : Nat → Option cacheinfo
  cpu_map_populated : Bool
  looked_up : List Nat

/-- The loop `for (idx = 0; idx < this_cpu_ci->num_leaves; idx++)` of
`populate_cache_leaves` with `remaining` iterations to go from index `idx`,
and the statements after it. -/
def populate_cache_leaves_loop (hw : Hw) (t : Topo) (cpu : Nat) :
    Nat → Nat → _cpuid4_info_regs → populate_state → Except Fault (Int × populate_state)
  | 0, _, _, st => .ok (0, { st with cpu_map_populated := true })
  | remaining + 1, idx, id4_regs, st =>
    match cpuid4_cache_lookup_regs hw idx id4_regs with
    | .error f => .error f
    | .ok (ret, id4_regs) =>
      let st := { st with looked_up := st.looked_up ++ [idx] }
      if ret ≠ 0 then .ok (ret, st)
      else
        let id4_regs := get_cache_id t cpu id4_regs
        let st := { st with
          leaves := fun i => if i = idx then some (ci_leaf_init id4_regs) else st.leaves i }
        let st := { st with ci := __cache_cpumap_setup hw t st.ci cpu idx id4_regs }
        populate_cache_leaves_loop hw t cpu remaining (idx + 1) id4_regs st

/-- The function `populate_cache_leaves(cpu)` for `this_cpu_ci->num_leaves =
num_leaves`: return value and resulting state. -/
def populate_cache_leaves (hw : Hw) (t : Topo) (cpu num_leaves : Nat) (st : populate_state) :
    Except Fault (Int × populate_state) :=
  populate_cache_leaves_loop hw t cpu num_leaves 0 _cpuid4_info_regs.zero st

/-! ## One `cpuid(2)` result of the legacy descriptor pass -/

/-- The body of the loop `for (i = 0 ; i < n ; i++)` of the legacy descriptor
pass for one `cpuid(2)` result `r`: clearing of the registers with bit 31 set,
then the loop over the bytes `dp[1] .. dp[15]`. -/
def legacy_query (tot : cache_sizes) (r : Nat × Nat × Nat × Nat) : cache_sizes :=
  (legacy_descriptor_bytes r).foldl legacy_add tot

/-- The registers `regs[0] .. regs[3]` as `cpuid(2)` leaves them, before the
clearing loop. -/
def legacy_regs (r : Nat × Nat × Nat × Nat) : List Nat :=
  [u32 r.1, u32 r.2.1, u32 r.2.2.1, u32 r.2.2.2]

/-- Byte `j` (0 to 15) of the result of one `cpuid(2)`, as the processor
reports it. -/
def legacy_raw_byte (r : Nat × Nat × Nat × Nat) (j : Nat) : Nat :=
  legacy_dp (legacy_regs r) j

/-- Contribution of byte `j` of a `cpuid(2)` result to the total of cache type
`ty` by register: nothing when bit 31 of the register that holds the byte is
set, the `cache_table` size of the byte otherwise. -/
def legacy_contribution_by_register (ty : Nat) (r : Nat × Nat × Nat × Nat) (j : Nat) : Nat :=
  if bitfield ((legacy_regs r).getD (j / 4) 0) 31 1 ≠ 0 then 0
  else descriptor_size ty (legacy_raw_byte r j)

/-- Contribution of byte `j` of a `cpuid(2)` result to the total of cache type
`ty` in the words of the specification, "skipping any byte with its high bit
set": nothing when bit `0x80` of the byte itself is set, the `cache_table`
size of the byte otherwise. -/
def legacy_contribution_by_high_bit (ty : Nat) (r : Nat × Nat × Nat × Nat) (j : Nat) : Nat :=
  if bitfield (legacy_raw_byte r j) 7 1 ≠ 0 then 0
  else descriptor_size ty (legacy_raw_byte r j)

/-- The value 1 when bit `k` of `val` is clear and 0 when it is set. -/
def bit_clear (val k : Nat) : Nat := if val.testBit k then 0 else 1

/-! ## Concrete machines used to evaluate the definitions -/

/-- An Intel machine whose CPUID(4) reports, for every index, a level-1 data
cache with 64 sets, 64-byte lines, one partition and 8 ways (32 KiB). -/
def hw_intel_l1d : Hw :=
  { x86_vendor := .X86_VENDOR_INTEL, has_topoext := false, has_amd_dcm := false,
    cpuid := fun op _ => if op = 4 then (0x121, 0x01C0003F, 63, 0) else (0, 0, 0, 0),
    x86_cache_size := 0, num_cores_per_package := 1,
    config_amd_nb := false, node_amd_nb := none }

/-- An Intel machine whose CPUID(4) reports a data cache with `2 ^ 31` sets
and 2-byte lines, one partition, one way. -/
def hw_intel_huge : Hw :=
  { x86_vendor := .X86_VENDOR_INTEL, has_topoext := false, has_amd_dcm := false,
    cpuid := fun op _ => if op = 4 then (0x121, 1, 0x7FFFFFFF, 0) else (0, 0, 0, 0),
    x86_cache_size := 0, num_cores_per_package := 1,
    config_amd_nb := false, node_amd_nb := none }

/-- An Intel machine whose CPUID(4) reports a level-1 data cache at leaf
indices 0 and 1 and no cache at every other index. -/
def hw_intel_two_leaves : Hw :=
  { x86_vendor := .X86_VENDOR_INTEL, has_topoext := false, has_amd_dcm := false,
    cpuid := fun op count =>
      if op = 4 ∧ count < 2 then (0x121, 0x01C0003F, 63, 0) else (0, 0, 0, 0),
    x86_cache_size := 0, num_cores_per_package := 1,
    config_amd_nb := false, node_amd_nb := none }

/-- A machine with eight online processors, processor `i` having APIC id `i`,
all of vendor AMD, each alone in its last-level-cache mask. -/
def topo_eight : Topo :=
  { nr_cpu_ids := 8, cpu_online := fun _ => true, apicid := fun i => i,
    x86_vendor := fun _ => .X86_VENDOR_AMD,
    cpu_llc_shared_mask := fun c x => decide (x = c) }

/-- An AMD machine with the TOPOEXT feature. -/
def hw_amd_topoext : Hw :=
  { x86_vendor := .X86_VENDOR_AMD, has_topoext := true, has_amd_dcm := false,
    cpuid := fun _ _ => (0, 0, 0, 0),
    x86_cache_size := 0, num_cores_per_package := 8,
    config_amd_nb := false, node_amd_nb := none }

/-- A state in which every processor has its `info_list` and every sharing
set is empty. -/
def ci_state_empty : ci_state :=
  { info_list := fun _ => true, shared_cpu_map := fun _ _ _ => false }

/-- A snapshot of a level-2 unified cache whose `num_threads_sharing` field
is 2 (three threads share the cache). -/
def regs_three_sharing : _cpuid4_info_regs :=
  { eax := 0x8143, ebx := 0x01C0003F, ecx := 1023, id := 0, size := 524288, nb := none }

/-- A snapshot of a level-2 unified cache whose `num_threads_sharing` field
is 3 (four threads share the cache). -/
def regs_four_sharing : _cpuid4_info_regs :=
  { eax := 0xC143, ebx := 0x01C0003F, ecx := 1023, id := 0, size := 524288, nb := none }

/-- An AMD machine without TOPOEXT: 64 KiB 2-way level-1 caches with 64-byte
lines, a 512 KiB 8-way level-2 cache, no level-3 cache, four cores. -/
def hw_amd_legacy : Hw :=
  { x86_vendor := .X86_VENDOR_AMD, has_topoext := false, has_amd_dcm := false,
    cpuid := fun op _ =>
      if op = 0x80000005 then (0, 0, 0x40020140, 0x40020140)
      else if op = 0x80000006 then (0, 0, 0x02006140, 0)
      else (0, 0, 0, 0),
    x86_cache_size := 512, num_cores_per_package := 4,
    config_amd_nb := false, node_amd_nb := none }

/-- The snapshot `cpuid4_cache_lookup_regs` produces for leaf 0 on
`hw_amd_legacy`. -/
def regs_amd_legacy_l1d : _cpuid4_info_regs :=
  { eax := 268435745, ebx := 4194367, ecx := 511, id := 0, size := 65536, nb := none }

/-- A processor record of an Intel processor with CPUID level 4. -/
def cpuinfo_intel_level4 : cpuinfo_x86 :=
  { cpuid_level := 4, x86_vendor := .X86_VENDOR_INTEL, apicid := 0, pkg_id := 0,
    llc_id := 0xFFFFFFFF, l2c_id := 0xFFFFFFFF, x86_cache_size := 0 }

/-- A state in which every processor has its `info_list` and the only
non-empty sharing set is that of leaf 0 of processor 0, which holds
processors 0 and 1. -/
def ci_state_pair : ci_state :=
  { info_list := fun _ => true,
    shared_cpu_map := fun c l x => decide (c = 0 ∧ l = 0 ∧ (x = 0 ∨ x = 1)) }

/-- A north bridge whose configuration space reads as zero everywhere (both
disable slots free, every subcache enabled), before `amd_calc_l3_indices`. -/
def nb_fresh : amd_northbridge :=
  { misc := fun _ => 0, subcaches := fun _ => 0, indices := 0, trace := [] }

/-- A north bridge whose register `0x1C4` has every subcache-disable bit set
(it reads `0xFFFFFFFF`) and whose disable slots are free. -/
def nb_no_subcaches : amd_northbridge :=
  { misc := fun o => if o = 0x1C4 then 0xFFFFFFFF else 0, subcaches := fun _ => 0,
    indices := 0, trace := [] }

/-- The north bridge `nb_fresh` after `amd_calc_l3_indices` on a family 0x10
processor: two subcaches per quadrant pair, `indices = 2047`. -/
def nb_calc : amd_northbridge := amd_calc_l3_indices 0x10 nb_fresh

/-- A configuration with the PGE and MTRR features, no self-snoop, and both
memory-type capabilities active (`CACHE_MTRR = 1`, `CACHE_PAT = 2`). -/
def cfg_mtrr_pat : cache_ctl :=
  { has_selfsnoop := false, has_pge := true, has_mtrr := true,
    X86_CR0_CD := 0x40000000, X86_CR4_PGE := 0x80,
    memory_caching_control := 3, CACHE_MTRR := 1, CACHE_PAT := 2 }

/-- The configuration `cfg_mtrr_pat` with only the PAT capability active. -/
def cfg_pat_only : cache_ctl := { cfg_mtrr_pat with memory_caching_control := 2 }

/-- A state with the lock free, deferred init pending, processor 0 the only
participant, CR0 = `0x80050033` and CR4 = `0x3506e0` on every processor. -/
def cache_state_boot : cache_state :=
  { cr0 := fun _ => 0x80050033, cr4 := fun _ => 0x3506e0, saved_cr4 := 0,
    cache_disable_lock := false, cache_aps_delayed_init := true,
    cpu_cacheinfo_mask := fun c => decide (c = 0), trace := [] }

/-- A machine with four processors of which 0 and 1 are online. -/
def topo_two_online : Topo :=
  { nr_cpu_ids := 4, cpu_online := fun c => decide (c < 2), apicid := fun i => i,
    x86_vendor := fun _ => .X86_VENDOR_INTEL,
    cpu_llc_shared_mask := fun c x => decide (x = c) }

/-- The machine `hw_amd_legacy` with an L1 instruction register that reads as
zero: leaf 1 is absent while leaves 0 and 2 are present. -/
def hw_amd_no_l1i : Hw :=
  { hw_amd_legacy with
    cpuid := fun op _ =>
      if op = 0x80000005 then (0, 0, 0x40020140, 0)
      else if op = 0x80000006 then (0, 0, 0x02006140, 0)
      else (0, 0, 0, 0) }

/-- A state before `populate_cache_leaves`: empty sharing sets, no leaf
written, nothing looked up. -/
def populate_state_empty : populate_state :=
  { ci := ci_state_empty, leaves := fun _ => none, cpu_map_populated := false,
    looked_up := [] }

/-- The machine `hw_amd_legacy` with 64 cores in the package. -/
def hw_amd_64_cores : Hw := { hw_amd_legacy with num_cores_per_package := 64 }

/-- The machine `hw_amd_legacy` whose per-processor `x86_cache_size` is 256
while the size field of its L2 register reads 512. -/
def hw_amd_l2_256 : Hw := { hw_amd_legacy with x86_cache_size := 256 }

/-- An AMD machine without TOPOEXT with the dual-core-module feature: the L3
register reports a 16-way cache of `size_encoded = 12` (6 MiB) with 64-byte
lines. -/
def hw_amd_dcm : Hw :=
  { hw_amd_legacy with
    has_amd_dcm := true,
    cpuid := fun op _ =>
      if op = 0x80000005 then (0, 0, 0x40020140, 0x40020140)
      else if op = 0x80000006 then (0, 0, 0x02006140, 0x00308140)
      else (0, 0, 0, 0) }

/-- The machine `hw_amd_legacy` whose L1 data register reports a fully
associative cache: `assoc = 0xFF`, 64 KB, one line per tag, 64-byte lines. -/
def hw_amd_l1_fully_assoc : Hw :=
  { hw_amd_legacy with
    cpuid := fun op _ =>
      if op = 0x80000005 then (0, 0, 0x40FF0140, 0x40020140)
      else if op = 0x80000006 then (0, 0, 0x02006140, 0)
      else (0, 0, 0, 0) }

/-- The machine `hw_amd_legacy` whose L2 register is non-zero with a
`line_size` field of zero (`0x02006100`: 8-way code, one line per tag). -/
def hw_amd_l2_no_line_size : Hw :=
  { hw_amd_legacy with
    cpuid := fun op _ =>
      if op = 0x80000005 then (0, 0, 0x40020140, 0x40020140)
      else if op = 0x80000006 then (0, 0, 0x02006100, 0)
      else (0, 0, 0, 0) }

/-! # Properties -/

/-! ## Bit-fields -/

theorem bitfield_set_eq (x lo w v : Nat) :
    bitfield_set x lo w v = x % 2 ^ lo + 2 ^ lo * (v % 2 ^ w + 2 ^ w * (x / 2 ^ (lo + w))) := by
  unfold bitfield_set
  rw [pow_add]; ring

/-- Reading back the field just written gives the value truncated to the
width of the field. -/
theorem bitfield_set_same (x lo w v : Nat) :
    bitfield (bitfield_set x lo w v) lo w = v % 2 ^ w := by
  rw [bitfield_set_eq]
  unfold bitfield
  have hp : 0 < 2 ^ lo := Nat.pow_pos (by decide)
  rw [Nat.add_mul_div_left _ _ hp, Nat.div_eq_of_lt (Nat.mod_lt _ hp), Nat.zero_add,
    Nat.add_mul_mod_self_left, Nat.mod_mod]

/-- A field lying entirely above the written one keeps its value. -/
theorem bitfield_set_read_above (x lo w v lo' w' : Nat) (h : lo + w ≤ lo') :
    bitfield (bitfield_set x lo w v) lo' w' = bitfield x lo' w' := by
  obtain ⟨d, rfl⟩ := Nat.exists_eq_add_of_le h
  have hp : 0 < 2 ^ (lo + w) := Nat.pow_pos (by decide)
  have hlt : x % 2 ^ lo + v % 2 ^ w * 2 ^ lo < 2 ^ (lo + w) := by
    have h1 : x % 2 ^ lo < 2 ^ lo := Nat.mod_lt _ (Nat.pow_pos (by decide))
    have h2 : v % 2 ^ w < 2 ^ w := Nat.mod_lt _ (Nat.pow_pos (by decide))
    have h3 : v % 2 ^ w + 1 ≤ 2 ^ w := h2
    have h4 : (v % 2 ^ w + 1) * 2 ^ lo ≤ 2 ^ w * 2 ^ lo := Nat.mul_le_mul_right _ h3
    rw [pow_add, Nat.mul_comm (2 ^ lo)]
    have h5 : (v % 2 ^ w + 1) * 2 ^ lo = v % 2 ^ w * 2 ^ lo + 2 ^ lo := by ring
    omega
  have hdiv : bitfield_set x lo w v / 2 ^ (lo + w) = x / 2 ^ (lo + w) := by
    unfold bitfield_set
    rw [Nat.add_mul_div_right _ _ hp, Nat.div_eq_of_lt hlt, Nat.zero_add]
  unfold bitfield
  rw [pow_add (2 : Nat) (lo + w) d, ← Nat.div_div_eq_div_mul, ← Nat.div_div_eq_div_mul, hdiv]

/-- A field lying entirely below the written one keeps its value. -/
theorem bitfield_set_read_below (x lo w v lo' w' : Nat) (h : lo' + w' ≤ lo) :
    bitfield (bitfield_set x lo w v) lo' w' = bitfield x lo' w' := by
  obtain ⟨d, rfl⟩ := Nat.exists_eq_add_of_le h
  have key : ∀ y : Nat, bitfield y lo' w' = y % 2 ^ (lo' + w') / 2 ^ lo' := by
    intro y
    unfold bitfield
    rw [pow_add, Nat.mod_mul_right_div_self]
  rw [key, key, bitfield_set_eq]
  congr 1
  rw [pow_add (2 : Nat) (lo' + w') d, Nat.mul_assoc, Nat.add_mul_mod_self_left,
    Nat.mod_mul_right_mod]

/-! ## Size of a decoded leaf (`cpuid4_cache_lookup_regs`, `ci_leaf_init`) -/

theorem lookup_of_probe_null (hw : Hw) (index : Nat) (this_leaf : _cpuid4_info_regs)
    (eax ebx ecx : Nat) (hp : cpuid4_probe hw index = .ok (eax, ebx, ecx))
    (ht : eax_type eax = CTYPE_NULL) :
    ∃ r, cpuid4_cache_lookup_regs hw index this_leaf = .ok (- EIO, r) ∧
      r.eax = this_leaf.eax ∧ r.ebx = this_leaf.ebx ∧ r.ecx = this_leaf.ecx ∧
      r.size = this_leaf.size := by
  unfold cpuid4_cache_lookup_regs
  rw [hp]
  simp only [ht, if_true]
  refine ⟨_, rfl, ?_⟩
  unfold amd_init_l3_cache
  split <;> [split; skip] <;> [skip; split; skip] <;> simp

theorem lookup_of_probe_present (hw : Hw) (index : Nat) (this_leaf : _cpuid4_info_regs)
    (eax ebx ecx : Nat) (hp : cpuid4_probe hw index = .ok (eax, ebx, ecx))
    (ht : eax_type eax ≠ CTYPE_NULL) :
    ∃ r, cpuid4_cache_lookup_regs hw index this_leaf = .ok (0, r) ∧
      r.eax = eax ∧ r.ebx = ebx ∧ r.ecx = ecx ∧
      r.size = (u32 (ecx_number_of_sets ecx + 1) *
                  (ebx_coherency_line_size ebx + 1) *
                  (ebx_physical_line_partition ebx + 1) *
                  (ebx_ways_of_associativity ebx + 1)) % 2 ^ 32 := by
  unfold cpuid4_cache_lookup_regs
  rw [hp]
  simp only [ht, if_false]
  exact ⟨_, rfl, rfl, rfl, rfl, rfl⟩

theorem u32_mul_mod (s a b c : Nat) :
    (u32 s * a * b * c) % 2 ^ 32 = (s * a * b * c) % 2 ^ 32 := by
  unfold u32
  have h : (s % 2 ^ 32 * a * b * c) = (s % 2 ^ 32) * (a * b * c) := by ring
  have h2 : s * a * b * c = s * (a * b * c) := by ring
  rw [h, h2, Nat.mod_mul_mod]

/-- C1, as stated, fails: on a machine whose probe reports `2 ^ 31` sets of
2-byte lines the recorded size is `0`, not the product `2 ^ 32`, and the
stored leaf has size `0` while its own fields multiply to `2 ^ 32`. -/
theorem C1_size_exact_counterexample :
    ¬ (∀ (hw : Hw) (index : Nat) (this_leaf : _cpuid4_info_regs) (eax ebx ecx : Nat),
        cpuid4_probe hw index = .ok (eax, ebx, ecx) → eax_type eax ≠ CTYPE_NULL →
        ∃ r, cpuid4_cache_lookup_regs hw index this_leaf = .ok (0, r) ∧
          r.size = (ecx_number_of_sets ecx + 1) * (ebx_coherency_line_size ebx + 1) *
                   (ebx_physical_line_partition ebx + 1) *
                   (ebx_ways_of_associativity ebx + 1) ∧
          (ci_leaf_init r).size =
            (ci_leaf_init r).number_of_sets * (ci_leaf_init r).coherency_line_size *
            (ci_leaf_init r).physical_line_partition *
            (ci_leaf_init r).ways_of_associativity) := by
  intro h
  obtain ⟨r, hr, hsize, _⟩ :=
    h hw_intel_huge 0 _cpuid4_info_regs.zero 0x121 1 0x7FFFFFFF rfl (by decide)
  have hr2 : cpuid4_cache_lookup_regs hw_intel_huge 0 _cpuid4_info_regs.zero =
      .ok (0, { eax := 0x121, ebx := 1, ecx := 0x7FFFFFFF, id := 0, size := 0, nb := none }) := by
    rfl
  rw [hr2] at hr
  injection hr with hr
  injection hr with _ hr
  subst hr
  revert hsize
  decide

/-- C1, amended: for every register triple the probe returns with a type
other than none, `cpuid4_cache_lookup_regs` returns 0 and records the product
`(number_of_sets + 1) * (coherency_line_size + 1) * (physical_line_partition + 1)
* (ways_of_associativity + 1)` reduced modulo `2 ^ 32`, hence the exact product
whenever that product is below `2 ^ 32`; and the leaf stored by `ci_leaf_init`
has as size the product of its own four fields modulo `2 ^ 32`, exactly that
product whenever the register product is below `2 ^ 32`. -/
theorem C1_size_product_mod (hw : Hw) (index : Nat) (this_leaf : _cpuid4_info_regs)
    (eax ebx ecx : Nat) (hp : cpuid4_probe hw index = .ok (eax, ebx, ecx))
    (ht : eax_type eax ≠ CTYPE_NULL) :
    ∃ r, cpuid4_cache_lookup_regs hw index this_leaf = .ok (0, r) ∧
      r.size = ((ecx_number_of_sets ecx + 1) * (ebx_coherency_line_size ebx + 1) *
                (ebx_physical_line_partition ebx + 1) *
                (ebx_ways_of_associativity ebx + 1)) % 2 ^ 32 ∧
      (ci_leaf_init r).size =
        ((ci_leaf_init r).number_of_sets * (ci_leaf_init r).coherency_line_size *
         (ci_leaf_init r).physical_line_partition *
         (ci_leaf_init r).ways_of_associativity) % 2 ^ 32 ∧
      ((ecx_number_of_sets ecx + 1) * (ebx_coherency_line_size ebx + 1) *
          (ebx_physical_line_partition ebx + 1) *
          (ebx_ways_of_associativity ebx + 1) < 2 ^ 32 →
        r.size = (ecx_number_of_sets ecx + 1) * (ebx_coherency_line_size ebx + 1) *
                 (ebx_physical_line_partition ebx + 1) *
                 (ebx_ways_of_associativity ebx + 1) ∧
        (ci_leaf_init r).size =
          (ci_leaf_init r).number_of_sets * (ci_leaf_init r).coherency_line_size *
          (ci_leaf_init r).physical_line_partition *
          (ci_leaf_init r).ways_of_associativity) := by
  obtain ⟨r, hr, he, hb, hc, hs⟩ := lookup_of_probe_present hw index this_leaf eax ebx ecx hp ht
  rw [u32_mul_mod] at hs
  have hleaf : (ci_leaf_init r).size =
      ((ci_leaf_init r).number_of_sets * (ci_leaf_init r).coherency_line_size *
       (ci_leaf_init r).physical_line_partition *
       (ci_leaf_init r).ways_of_associativity) % 2 ^ 32 := by
    simp only [ci_leaf_init, hb, hc, hs]
    rw [u32_mul_mod]
    have e : ∀ s a b c : Nat, s * a * b * c = s * a * c * b := by intros; ring
    rw [e (ecx_number_of_sets ecx + 1)]
    simp [u32]
  refine ⟨r, hr, hs, hleaf, ?_⟩
  intro hlt
  have hs2 : r.size = (ecx_number_of_sets ecx + 1) * (ebx_coherency_line_size ebx + 1) *
                 (ebx_physical_line_partition ebx + 1) *
                 (ebx_ways_of_associativity ebx + 1) := by
    rw [hs, Nat.mod_eq_of_lt hlt]
  refine ⟨hs2, ?_⟩
  have hsets : ecx_number_of_sets ecx + 1 < 2 ^ 32 := by
    have h1 : 1 ≤ (ebx_coherency_line_size ebx + 1) *
          (ebx_physical_line_partition ebx + 1) *
          (ebx_ways_of_associativity ebx + 1) := Nat.succ_le_of_lt (by positivity)
    calc ecx_number_of_sets ecx + 1
        = (ecx_number_of_sets ecx + 1) * 1 := by ring
      _ ≤ (ecx_number_of_sets ecx + 1) * ((ebx_coherency_line_size ebx + 1) *
          (ebx_physical_line_partition ebx + 1) *
          (ebx_ways_of_associativity ebx + 1)) := Nat.mul_le_mul_left _ h1
      _ = (ecx_number_of_sets ecx + 1) * (ebx_coherency_line_size ebx + 1) *
          (ebx_physical_line_partition ebx + 1) *
          (ebx_ways_of_associativity ebx + 1) := by ring
      _ < 2 ^ 32 := hlt
  simp only [ci_leaf_init, hb, hc, hs2]
  have hu : u32 (ecx_number_of_sets ecx + 1) = ecx_number_of_sets ecx + 1 :=
    Nat.mod_eq_of_lt hsets
  rw [hu]
  have e : ∀ s a b c : Nat, s * a * b * c = s * a * c * b := by intros; ring
  rw [e (ecx_number_of_sets ecx + 1)]
  exact Nat.mod_eq_of_lt (by rw [e]; exact hlt)

/-- Witness of C1 (amended) on the 32 KiB level-1 data cache of `hw_intel_l1d`. -/
theorem C1_size_product_mod_witness :
    ∃ r, cpuid4_cache_lookup_regs hw_intel_l1d 0 _cpuid4_info_regs.zero = .ok (0, r) ∧
      r.size = ((ecx_number_of_sets 63 + 1) * (ebx_coherency_line_size 0x01C0003F + 1) *
                (ebx_physical_line_partition 0x01C0003F + 1) *
                (ebx_ways_of_associativity 0x01C0003F + 1)) % 2 ^ 32 ∧
      (ci_leaf_init r).size =
        ((ci_leaf_init r).number_of_sets * (ci_leaf_init r).coherency_line_size *
         (ci_leaf_init r).physical_line_partition *
         (ci_leaf_init r).ways_of_associativity) % 2 ^ 32 ∧
      ((ecx_number_of_sets 63 + 1) * (ebx_coherency_line_size 0x01C0003F + 1) *
          (ebx_physical_line_partition 0x01C0003F + 1) *
          (ebx_ways_of_associativity 0x01C0003F + 1) < 2 ^ 32 →
        r.size = (ecx_number_of_sets 63 + 1) * (ebx_coherency_line_size 0x01C0003F + 1) *
                 (ebx_physical_line_partition 0x01C0003F + 1) *
                 (ebx_ways_of_associativity 0x01C0003F + 1) ∧
        (ci_leaf_init r).size =
          (ci_leaf_init r).number_of_sets * (ci_leaf_init r).coherency_line_size *
          (ci_leaf_init r).physical_line_partition *
          (ci_leaf_init r).ways_of_associativity) :=
  C1_size_product_mod hw_intel_l1d 0 _cpuid4_info_regs.zero 0x121 0x01C0003F 63 rfl (by decide)

/-! ## Error result of `cpuid4_cache_lookup_regs` -/

/-- C4: whenever the probe delivers registers `(eax, ebx, ecx)`,
`cpuid4_cache_lookup_regs` returns; it returns `-EIO` if and only if the type
field of the probed `eax` is none; in that case the snapshot fields `eax`,
`ebx`, `ecx` and `size` of the caller are unchanged; otherwise it returns 0 and
the snapshot holds the probed `eax`, `ebx` and `ecx`. -/
theorem C4_lookup_error_iff_type_null (hw : Hw) (index : Nat)
    (this_leaf : _cpuid4_info_regs) (eax ebx ecx : Nat)
    (hp : cpuid4_probe hw index = .ok (eax, ebx, ecx)) :
    ∃ ret r, cpuid4_cache_lookup_regs hw index this_leaf = .ok (ret, r) ∧
      (ret = - EIO ↔ eax_type eax = CTYPE_NULL) ∧
      (eax_type eax = CTYPE_NULL →
        r.eax = this_leaf.eax ∧ r.ebx = this_leaf.ebx ∧ r.ecx = this_leaf.ecx ∧
        r.size = this_leaf.size) ∧
      (eax_type eax ≠ CTYPE_NULL →
        ret = 0 ∧ r.eax = eax ∧ r.ebx = ebx ∧ r.ecx = ecx) := by
  by_cases ht : eax_type eax = CTYPE_NULL
  · obtain ⟨r, hr, h⟩ := lookup_of_probe_null hw index this_leaf eax ebx ecx hp ht
    exact ⟨_, r, hr, ⟨fun _ => ht, fun _ => rfl⟩, fun _ => h, fun hn => absurd ht hn⟩
  · obtain ⟨r, hr, he, hb, hc, _⟩ :=
      lookup_of_probe_present hw index this_leaf eax ebx ecx hp ht
    refine ⟨_, r, hr, ⟨fun h0 => ?_, fun h => absurd h ht⟩, fun h => absurd h ht,
      fun _ => ⟨rfl, he, hb, hc⟩⟩
    exact absurd h0 (by decide)

/-- Witness of C4 on `hw_intel_l1d`, leaf index 0. -/
theorem C4_lookup_error_iff_type_null_witness :
    ∃ ret r, cpuid4_cache_lookup_regs hw_intel_l1d 0 _cpuid4_info_regs.zero = .ok (ret, r) ∧
      (ret = - EIO ↔ eax_type 0x121 = CTYPE_NULL) ∧
      (eax_type 0x121 = CTYPE_NULL →
        r.eax = _cpuid4_info_regs.zero.eax ∧ r.ebx = _cpuid4_info_regs.zero.ebx ∧
        r.ecx = _cpuid4_info_regs.zero.ecx ∧ r.size = _cpuid4_info_regs.zero.size) ∧
      (eax_type 0x121 ≠ CTYPE_NULL →
        ret = 0 ∧ r.eax = 0x121 ∧ r.ebx = 0x01C0003F ∧ r.ecx = 63) :=
  C4_lookup_error_iff_type_null hw_intel_l1d 0 _cpuid4_info_regs.zero 0x121 0x01C0003F 63 rfl

/-! ## The sharing identifier: `get_count_order` and `get_cache_id` -/

theorem count_order_loop_spec (fuel k n : Nat) (hlow : ∀ j, j < k → 2 ^ j < n)
    (hup : n ≤ 2 ^ (k + fuel)) :
    n ≤ 2 ^ count_order_loop fuel k n ∧ ∀ j, j < count_order_loop fuel k n → 2 ^ j < n := by
  induction fuel generalizing k with
  | zero => exact ⟨by simpa [count_order_loop] using hup, by simpa [count_order_loop] using hlow⟩
  | succ fuel ih =>
    unfold count_order_loop
    by_cases h : n ≤ 2 ^ k
    · rw [if_pos h]
      exact ⟨h, hlow⟩
    · rw [if_neg h]
      apply ih
      · intro j hj
        rcases Nat.lt_succ_iff_lt_or_eq.mp hj with h1 | h1
        · exact hlow j h1
        · subst h1; exact Nat.lt_of_not_le h
      · have : k + 1 + fuel = k + (fuel + 1) := by omega
        rw [this]; exact hup

/-- The model of `get_count_order` is the ceiling of the binary logarithm on
32-bit counts. -/
theorem get_count_order_spec (n : Nat) (hn : n ≤ 2 ^ 32) :
    n ≤ 2 ^ get_count_order n ∧ (∀ j, j < get_count_order n → 2 ^ j < n) ∧
      get_count_order n = Nat.clog 2 n := by
  have h := count_order_loop_spec 32 0 n (fun j hj => absurd hj (Nat.not_lt_zero j))
    (by simpa using hn)
  refine ⟨h.1, h.2, ?_⟩
  apply Nat.le_antisymm
  · by_contra hlt
    have h1 := h.2 (Nat.clog 2 n) (Nat.lt_of_not_le hlt)
    have h2 : n ≤ 2 ^ Nat.clog 2 n := Nat.le_pow_clog (by decide) n
    omega
  · exact (Nat.le_pow_iff_clog_le (by decide)).mp h.1

theorem shiftRight_eq_iff_testBit (a b k : Nat) :
    a >>> k = b >>> k ↔ ∀ j, k ≤ j → a.testBit j = b.testBit j := by
  constructor
  · intro h j hj
    have ha := Nat.testBit_shiftRight (i := k) (j := j - k) a
    have hb := Nat.testBit_shiftRight (i := k) (j := j - k) b
    have e : k + (j - k) = j := by omega
    rw [e] at ha hb
    rw [← ha, ← hb, h]
  · intro h
    apply Nat.eq_of_testBit_eq
    intro i
    rw [Nat.testBit_shiftRight, Nat.testBit_shiftRight]
    exact h (k + i) (by omega)

theorem eax_num_threads_sharing_lt (eax : Nat) : eax_num_threads_sharing eax < 4096 := by
  unfold eax_num_threads_sharing bitfield
  exact Nat.mod_lt _ (by decide)

/-- C2: for every value of the `num_threads_sharing` field and all processors,
`get_cache_id` sets `id = apicid >> index_msb` with
`index_msb = ceiling(log2(num_threads_sharing + 1))`; two processors get the
same id if and only if their APIC ids agree in every bit at position
`index_msb` or above (they differ only in the low `index_msb` bits); and for a
sharing count of 4 the shift is 2. -/
theorem C2_cache_id_shift (t : Topo) (cpu_a cpu_b : Nat) (id4_regs : _cpuid4_info_regs) :
    (get_cache_id t cpu_a id4_regs).id =
        topo_apicid t cpu_a >>> get_count_order (eax_num_threads_sharing id4_regs.eax + 1) ∧
      get_count_order (eax_num_threads_sharing id4_regs.eax + 1) =
        Nat.clog 2 (eax_num_threads_sharing id4_regs.eax + 1) ∧
      eax_num_threads_sharing id4_regs.eax + 1 ≤
        2 ^ get_count_order (eax_num_threads_sharing id4_regs.eax + 1) ∧
      (∀ j, j < get_count_order (eax_num_threads_sharing id4_regs.eax + 1) →
        2 ^ j < eax_num_threads_sharing id4_regs.eax + 1) ∧
      ((get_cache_id t cpu_a id4_regs).id = (get_cache_id t cpu_b id4_regs).id ↔
        ∀ j, get_count_order (eax_num_threads_sharing id4_regs.eax + 1) ≤ j →
          (topo_apicid t cpu_a).testBit j = (topo_apicid t cpu_b).testBit j) ∧
      get_count_order (3 + 1) = 2 := by
  have hb : eax_num_threads_sharing id4_regs.eax + 1 ≤ 2 ^ 32 := by
    have := eax_num_threads_sharing_lt id4_regs.eax
    have : (4096 : Nat) ≤ 2 ^ 32 := by decide
    omega
  obtain ⟨h1, h2, h3⟩ := get_count_order_spec _ hb
  have hid : ∀ c, (get_cache_id t c id4_regs).id =
      topo_apicid t c >>> get_count_order (eax_num_threads_sharing id4_regs.eax + 1) := by
    intro c
    simp [get_cache_id, Nat.add_comm]
  refine ⟨hid cpu_a, h3, h1, h2, ?_, by decide⟩
  rw [hid cpu_a, hid cpu_b]
  exact shiftRight_eq_iff_testBit _ _ _

/-! ## The leaf count (`find_num_cache_leaves`) -/

theorem find_num_cache_leaves_loop_spec (hw : Hw) (op n : Nat) (hn : n < 2 ^ 31)
    (hnull : eax_type (cpuid_count hw op n).1 = CTYPE_NULL) :
    ∀ (d i fuel : Nat), i + d = n → d < fuel →
      (∀ j, i ≤ j → j < n → eax_type (cpuid_count hw op j).1 ≠ CTYPE_NULL) →
      find_num_cache_leaves_loop hw op fuel ((i : Int) - 1) = some (n : Int) := by
  have hn2 : n < 2147483648 := by simpa using hn
  intro d
  induction d with
  | zero =>
    intro i fuel hi hf _
    obtain ⟨f, rfl⟩ : ∃ f, fuel = f + 1 := ⟨fuel - 1, by omega⟩
    have hin : i = n := by omega
    subst hin
    have hw1 : wrap_int ((i : Int) - 1 + 1) = (i : Int) := by unfold wrap_int; omega
    have hw2 : int_to_u32 (i : Int) = i := by unfold int_to_u32; omega
    simp only [find_num_cache_leaves_loop, hw1, hw2, hnull, ne_eq, not_true_eq_false, if_false]
  | succ d ih =>
    intro i fuel hi hf hpres
    obtain ⟨f, rfl⟩ : ∃ f, fuel = f + 1 := ⟨fuel - 1, by omega⟩
    have hw1 : wrap_int ((i : Int) - 1 + 1) = (i : Int) := by unfold wrap_int; omega
    have hw2 : int_to_u32 (i : Int) = i := by unfold int_to_u32; omega
    have hp := hpres i (Nat.le_refl i) (by omega)
    have hnext := ih (i + 1) f (by omega) (by omega) (fun j h1 h2 => hpres j (by omega) h2)
    have hc : ((i + 1 : Nat) : Int) - 1 = (i : Int) := by omega
    rw [hc] at hnext
    simp only [find_num_cache_leaves_loop, hw1, hw2, ne_eq, hp, not_false_eq_true, if_true]
    exact hnext

theorem cpuid4_probe_native (hw : Hw) (index : Nat)
    (hlegacy : hw.x86_vendor = Vendor.X86_VENDOR_AMD → hw.has_topoext = true) :
    cpuid4_probe hw index =
      .ok ((cpuid_count hw (find_num_cache_leaves_op hw.x86_vendor) index).1,
           (cpuid_count hw (find_num_cache_leaves_op hw.x86_vendor) index).2.1,
           (cpuid_count hw (find_num_cache_leaves_op hw.x86_vendor) index).2.2.1) := by
  unfold cpuid4_probe find_num_cache_leaves_op
  by_cases h1 : hw.x86_vendor = Vendor.X86_VENDOR_AMD
  · simp [h1, hlegacy h1]
  · by_cases h2 : hw.x86_vendor = Vendor.X86_VENDOR_HYGON
    · simp [h2]
    · simp [h1, h2]

theorem find_num_cache_leaves_returns (hw : Hw) (c_x86_vendor : Vendor)
    (hex : ∃ m, m < 2 ^ 31 ∧
      eax_type (cpuid_count hw (find_num_cache_leaves_op c_x86_vendor) m).1 = CTYPE_NULL) :
    ∃ n : Nat, n < 2 ^ 31 ∧
      (∀ fuel, n < fuel → find_num_cache_leaves hw c_x86_vendor fuel = some (n : Int)) ∧
      eax_type (cpuid_count hw (find_num_cache_leaves_op c_x86_vendor) n).1 = CTYPE_NULL ∧
      (∀ i, i < n →
        eax_type (cpuid_count hw (find_num_cache_leaves_op c_x86_vendor) i).1 ≠ CTYPE_NULL) := by
  classical
  have hex2 : ∃ m,
      eax_type (cpuid_count hw (find_num_cache_leaves_op c_x86_vendor) m).1 = CTYPE_NULL := by
    obtain ⟨m, _, hm⟩ := hex
    exact ⟨m, hm⟩
  have hnull := Nat.find_spec hex2
  have hmin : ∀ i, i < Nat.find hex2 →
      eax_type (cpuid_count hw (find_num_cache_leaves_op c_x86_vendor) i).1 ≠ CTYPE_NULL :=
    fun i hi => Nat.find_min hex2 hi
  have hlt : Nat.find hex2 < 2 ^ 31 := by
    obtain ⟨m, hm1, hm2⟩ := hex
    exact Nat.lt_of_le_of_lt (Nat.find_min' hex2 hm2) hm1
  refine ⟨Nat.find hex2, hlt, ?_, hnull, hmin⟩
  intro fuel hf
  have h := find_num_cache_leaves_loop_spec hw _ _ hlt hnull (Nat.find hex2) 0 fuel
    (by omega) hf (fun j _ hj => hmin j hj)
  simpa [find_num_cache_leaves] using h

/-- C3: for a probe (CPUID leaf `op` as a function of the leaf index) that
reports type none at some index representable in the `int` counter,
`find_num_cache_leaves` returns, given enough iterations, the least index `n`
whose type is none; every index below `n` has a type other than none, and
where `cpuid4_cache_lookup_regs` consults that same probe (the processor is
the boot vendor's and the AMD legacy emulation is not in use), re-probing any
index below `n` returns 0. -/
theorem C3_find_num_cache_leaves_least (hw : Hw) (c_x86_vendor : Vendor)
    (hex : ∃ m, m < 2 ^ 31 ∧
      eax_type (cpuid_count hw (find_num_cache_leaves_op c_x86_vendor) m).1 = CTYPE_NULL) :
    ∃ n : Nat,
      (∀ fuel, n < fuel → find_num_cache_leaves hw c_x86_vendor fuel = some (n : Int)) ∧
      eax_type (cpuid_count hw (find_num_cache_leaves_op c_x86_vendor) n).1 = CTYPE_NULL ∧
      (∀ i, i < n →
        eax_type (cpuid_count hw (find_num_cache_leaves_op c_x86_vendor) i).1 ≠ CTYPE_NULL) ∧
      (c_x86_vendor = hw.x86_vendor →
        (hw.x86_vendor = Vendor.X86_VENDOR_AMD → hw.has_topoext = true) →
        ∀ i, i < n → ∀ this_leaf : _cpuid4_info_regs,
          ∃ r, cpuid4_cache_lookup_regs hw i this_leaf = .ok (0, r)) := by
  obtain ⟨n, _, hfuel, hnull, hmin⟩ := find_num_cache_leaves_returns hw c_x86_vendor hex
  refine ⟨n, hfuel, hnull, hmin, ?_⟩
  intro hv hlegacy i hi this_leaf
  subst hv
  have hp := cpuid4_probe_native hw i hlegacy
  obtain ⟨r, hr, _⟩ := lookup_of_probe_present hw i this_leaf _ _ _ hp (hmin i hi)
  exact ⟨r, hr⟩

/-- Witness of C3 on `hw_intel_two_leaves`, whose first absent leaf is index 2. -/
theorem C3_find_num_cache_leaves_least_witness :
    ∃ n : Nat,
      (∀ fuel, n < fuel →
        find_num_cache_leaves hw_intel_two_leaves Vendor.X86_VENDOR_INTEL fuel = some (n : Int)) ∧
      eax_type (cpuid_count hw_intel_two_leaves
        (find_num_cache_leaves_op Vendor.X86_VENDOR_INTEL) n).1 = CTYPE_NULL ∧
      (∀ i, i < n →
        eax_type (cpuid_count hw_intel_two_leaves
          (find_num_cache_leaves_op Vendor.X86_VENDOR_INTEL) i).1 ≠ CTYPE_NULL) ∧
      (Vendor.X86_VENDOR_INTEL = hw_intel_two_leaves.x86_vendor →
        (hw_intel_two_leaves.x86_vendor = Vendor.X86_VENDOR_AMD →
          hw_intel_two_leaves.has_topoext = true) →
        ∀ i, i < n → ∀ this_leaf : _cpuid4_info_regs,
          ∃ r, cpuid4_cache_lookup_regs hw_intel_two_leaves i this_leaf = .ok (0, r)) :=
  C3_find_num_cache_leaves_least hw_intel_two_leaves Vendor.X86_VENDOR_INTEL
    ⟨2, by decide, by decide⟩

/-- On `hw_intel_two_leaves` the count of leaves is 2. -/
theorem find_num_cache_leaves_two_leaves :
    find_num_cache_leaves hw_intel_two_leaves Vendor.X86_VENDOR_INTEL 5 = some 2 := by decide

/-! ## Shared-cpu maps: loops as set operations -/

theorem mem_for_each_cpu (t : Topo) (mask : Nat → Bool) (i : Nat) :
    i ∈ for_each_cpu t mask ↔ i < t.nr_cpu_ids ∧ mask i = true := by
  simp [for_each_cpu]

theorem shared_set_spec (st : ci_state) (i index s c l x : Nat) :
    (shared_set st i index s).shared_cpu_map c l x = true ↔
      st.shared_cpu_map c l x = true ∨ (c = i ∧ l = index ∧ x = s) := by
  unfold shared_set cpumask_set_cpu
  by_cases h : c = i ∧ l = index
  · by_cases hx : x = s
    · simp [h, hx]
    · simp [h, hx]
  · simp only [h, if_false]
    constructor
    · exact Or.inl
    · rintro (h1 | ⟨h1, h2, _⟩)
      · exact h1
      · exact absurd ⟨h1, h2⟩ h

theorem inner_fold_spec (skip : Nat → Prop) [DecidablePred skip] (i index : Nat) :
    ∀ (L : List Nat) (st : ci_state),
      (L.foldl (fun st s => if skip s then st else shared_set st i index s) st).info_list =
          st.info_list ∧
        ∀ c l x,
          (L.foldl (fun st s => if skip s then st else shared_set st i index s)
              st).shared_cpu_map c l x = true ↔
            st.shared_cpu_map c l x = true ∨ (c = i ∧ l = index ∧ x ∈ L ∧ ¬ skip x) := by
  intro L
  induction L with
  | nil => intro st; simp
  | cons a L ih =>
    intro st
    rw [List.foldl_cons]
    obtain ⟨h1, h2⟩ := ih (if skip a then st else shared_set st i index a)
    constructor
    · rw [h1]; split <;> rfl
    · intro c l x
      rw [h2]
      by_cases ha : skip a
      · simp only [ha, if_true, List.mem_cons]
        constructor
        · rintro (h | ⟨hc, hl, hx, hs⟩)
          · exact Or.inl h
          · exact Or.inr ⟨hc, hl, Or.inr hx, hs⟩
        · rintro (h | ⟨hc, hl, hx | hx, hs⟩)
          · exact Or.inl h
          · subst hx; exact absurd ha hs
          · exact Or.inr ⟨hc, hl, hx, hs⟩
      · simp only [ha, if_false, List.mem_cons, shared_set_spec]
        constructor
        · rintro ((h | ⟨hc, hl, hx⟩) | ⟨hc, hl, hx, hs⟩)
          · exact Or.inl h
          · subst hx; exact Or.inr ⟨hc, hl, Or.inl rfl, ha⟩
          · exact Or.inr ⟨hc, hl, Or.inr hx, hs⟩
        · rintro (h | ⟨hc, hl, hx | hx, hs⟩)
          · exact Or.inl (Or.inl h)
          · exact Or.inl (Or.inr ⟨hc, hl, hx⟩)
          · exact Or.inr ⟨hc, hl, hx, hs⟩

theorem outer_fold_spec (f : ci_state → Nat → ci_state) (info : Nat → Bool) (index : Nat)
    (keep : Nat → Prop) (P : Nat → Prop)
    (hf : ∀ st i, st.info_list = info →
      (f st i).info_list = st.info_list ∧
        ∀ c l x, (f st i).shared_cpu_map c l x = true ↔
          st.shared_cpu_map c l x = true ∨ (c = i ∧ l = index ∧ keep i ∧ P x)) :
    ∀ (L : List Nat) (st : ci_state), st.info_list = info →
      (L.foldl f st).info_list = st.info_list ∧
        ∀ c l x, (L.foldl f st).shared_cpu_map c l x = true ↔
          st.shared_cpu_map c l x = true ∨ (c ∈ L ∧ l = index ∧ keep c ∧ P x) := by
  intro L
  induction L with
  | nil => intro st _; simp
  | cons a L ih =>
    intro st hst
    rw [List.foldl_cons]
    obtain ⟨g1, g2⟩ := hf st a hst
    obtain ⟨h1, h2⟩ := ih (f st a) (g1.trans hst)
    refine ⟨h1.trans g1, ?_⟩
    intro c l x
    rw [h2, g2]
    simp only [List.mem_cons]
    constructor
    · rintro ((h | ⟨hc, hl, hk, hp⟩) | ⟨hc, hl, hk, hp⟩)
      · exact Or.inl h
      · subst hc; exact Or.inr ⟨Or.inl rfl, hl, hk, hp⟩
      · exact Or.inr ⟨Or.inr hc, hl, hk, hp⟩
    · rintro (h | ⟨hc | hc, hl, hk, hp⟩)
      · exact Or.inl (Or.inl h)
      · subst hc; exact Or.inl (Or.inr ⟨rfl, hl, hk, hp⟩)
      · exact Or.inr ⟨hc, hl, hk, hp⟩

theorem shared_le_refl (st : ci_state) : shared_le st st := fun _ _ _ h => h

theorem shared_le_trans {a b c : ci_state} (h1 : shared_le a b) (h2 : shared_le b c) :
    shared_le a c := fun p l x h => h2 p l x (h1 p l x h)

theorem shared_le_shared_set (st : ci_state) (i index s : Nat) :
    shared_le st (shared_set st i index s) :=
  fun c l x h => (shared_set_spec st i index s c l x).mpr (Or.inl h)

theorem shared_le_foldl (f : ci_state → Nat → ci_state)
    (hf : ∀ st a, shared_le st (f st a)) :
    ∀ (L : List Nat) (st : ci_state), shared_le st (L.foldl f st) := by
  intro L
  induction L with
  | nil => intro st; exact shared_le_refl st
  | cons a L ih =>
    intro st
    rw [List.foldl_cons]
    exact shared_le_trans (hf st a) (ih (f st a))

theorem amd_topoext_spec (hw : Hw) (t : Topo) (st : ci_state) (cpu index : Nat)
    (base : _cpuid4_info_regs) (htopo : hw.has_topoext = true) (hidx : index ≠ 3) :
    (__cache_amd_cpumap_setup hw t st cpu index base).1 = 1 ∧
      (__cache_amd_cpumap_setup hw t st cpu index base).2.info_list = st.info_list ∧
      ∀ c l x,
        (__cache_amd_cpumap_setup hw t st cpu index base).2.shared_cpu_map c l x = true ↔
          st.shared_cpu_map c l x = true ∨
            (is_online t c ∧ l = index ∧
              (st.info_list c = true ∧
                amd_first (topo_apicid t cpu) (eax_num_threads_sharing base.eax + 1) ≤
                  topo_apicid t c ∧
                topo_apicid t c ≤
                  amd_last (topo_apicid t cpu) (eax_num_threads_sharing base.eax + 1)) ∧
              (is_online t x ∧
                amd_first (topo_apicid t cpu) (eax_num_threads_sharing base.eax + 1) ≤
                  topo_apicid t x ∧
                topo_apicid t x ≤
                  amd_last (topo_apicid t cpu) (eax_num_threads_sharing base.eax + 1))) := by
  unfold __cache_amd_cpumap_setup
  rw [if_neg hidx, if_pos htopo]
  dsimp only
  refine ⟨rfl, ?_⟩
  have key := outer_fold_spec
    (fun st i =>
      if !st.info_list i then st
      else if topo_apicid t i <
            amd_first (topo_apicid t cpu) (eax_num_threads_sharing base.eax + 1) ∨
          topo_apicid t i >
            amd_last (topo_apicid t cpu) (eax_num_threads_sharing base.eax + 1) then st
      else
        (for_each_cpu t t.cpu_online).foldl (fun st sibling =>
          if topo_apicid t sibling <
                amd_first (topo_apicid t cpu) (eax_num_threads_sharing base.eax + 1) ∨
              topo_apicid t sibling >
                amd_last (topo_apicid t cpu) (eax_num_threads_sharing base.eax + 1) then st
          else shared_set st i index sibling) st)
    st.info_list index
    (fun i => st.info_list i = true ∧
      amd_first (topo_apicid t cpu) (eax_num_threads_sharing base.eax + 1) ≤ topo_apicid t i ∧
      topo_apicid t i ≤ amd_last (topo_apicid t cpu) (eax_num_threads_sharing base.eax + 1))
    (fun x => is_online t x ∧
      amd_first (topo_apicid t cpu) (eax_num_threads_sharing base.eax + 1) ≤ topo_apicid t x ∧
      topo_apicid t x ≤ amd_last (topo_apicid t cpu) (eax_num_threads_sharing base.eax + 1))
    (by
      intro st' i hst'
      have hi' : st'.info_list i = st.info_list i := by rw [hst']
      dsimp only
      rw [hi']
      by_cases hinfo : st.info_list i = true
      · rw [hinfo]
        simp only [Bool.not_true, Bool.false_eq_true, if_false]
        by_cases hr : topo_apicid t i <
              amd_first (topo_apicid t cpu) (eax_num_threads_sharing base.eax + 1) ∨
            topo_apicid t i >
              amd_last (topo_apicid t cpu) (eax_num_threads_sharing base.eax + 1)
        · rw [if_pos hr]
          refine ⟨rfl, fun c l x => ?_⟩
          constructor
          · exact Or.inl
          · rintro (h | ⟨_, _, ⟨_, h1, h2⟩, _⟩)
            · exact h
            · omega
        · rw [if_neg hr]
          obtain ⟨g1, g2⟩ := inner_fold_spec
            (fun s => topo_apicid t s <
                amd_first (topo_apicid t cpu) (eax_num_threads_sharing base.eax + 1) ∨
              topo_apicid t s >
                amd_last (topo_apicid t cpu) (eax_num_threads_sharing base.eax + 1))
            i index (for_each_cpu t t.cpu_online) st'
          refine ⟨g1, fun c l x => ?_⟩
          have g3 := g2 c l x
          simp only [mem_for_each_cpu] at g3
          rw [g3]
          unfold is_online
          constructor
          · rintro (h | ⟨hc, hl, hx, hs⟩)
            · exact Or.inl h
            · exact Or.inr ⟨hc, hl, ⟨trivial, by omega, by omega⟩, hx, by omega, by omega⟩
          · rintro (h | ⟨hc, hl, _, hx, h1, h2⟩)
            · exact Or.inl h
            · exact Or.inr ⟨hc, hl, hx, by omega⟩
      · have hinfo2 : st.info_list i = false := by simpa using hinfo
        rw [hinfo2]
        simp only [Bool.not_false, if_true]
        refine ⟨trivial, fun c l x => ?_⟩
        constructor
        · exact Or.inl
        · rintro (h | ⟨hc, _, ⟨h1, _⟩, _⟩)
          · exact h
          · exact absurd h1 (by decide))
    (for_each_cpu t t.cpu_online) st rfl
  refine ⟨key.1, fun c l x => ?_⟩
  rw [key.2 c l x, mem_for_each_cpu]
  unfold is_online
  tauto

theorem topo_apicid_lt (t : Topo) (cpu : Nat) : topo_apicid t cpu < 2 ^ 32 := by
  unfold topo_apicid u32
  exact Nat.mod_lt _ (by decide)

theorem amd_range_pow_two (a b k : Nat) (ha : a < 2 ^ 32) (hk : k ≤ 32) :
    amd_last a (2 ^ k) = amd_first a (2 ^ k) + 2 ^ k - 1 ∧
      ((amd_first a (2 ^ k) ≤ b ∧ b ≤ amd_last a (2 ^ k)) ↔ b >>> k = a >>> k) := by
  have hp : 0 < 2 ^ k := Nat.pow_pos (by decide)
  have hdm := Nat.div_add_mod a (2 ^ k)
  have hfirst : amd_first a (2 ^ k) = 2 ^ k * (a / 2 ^ k) := by
    unfold amd_first; omega
  have h32 : (2 : Nat) ^ 32 = 2 ^ k * 2 ^ (32 - k) := by
    rw [← pow_add]; congr 1; omega
  have hq : a / 2 ^ k < 2 ^ (32 - k) := by
    apply Nat.div_lt_of_lt_mul
    rw [← h32]; exact ha
  have hle : 2 ^ k * (a / 2 ^ k) + 2 ^ k ≤ 2 ^ 32 := by
    have : 2 ^ k * (a / 2 ^ k + 1) ≤ 2 ^ k * 2 ^ (32 - k) := Nat.mul_le_mul_left _ hq
    rw [h32]
    calc 2 ^ k * (a / 2 ^ k) + 2 ^ k = 2 ^ k * (a / 2 ^ k + 1) := by ring
      _ ≤ 2 ^ k * 2 ^ (32 - k) := this
  have hlast : amd_last a (2 ^ k) = amd_first a (2 ^ k) + 2 ^ k - 1 := by
    unfold amd_last
    apply Nat.mod_eq_of_lt
    rw [hfirst]; omega
  refine ⟨hlast, ?_⟩
  rw [hlast, hfirst, Nat.shiftRight_eq_div_pow, Nat.shiftRight_eq_div_pow]
  constructor
  · rintro ⟨h1, h2⟩
    apply Nat.le_antisymm
    · apply Nat.le_of_lt_succ
      rw [Nat.div_lt_iff_lt_mul hp]
      calc b < 2 ^ k * (a / 2 ^ k) + 2 ^ k := by omega
        _ = (a / 2 ^ k).succ * 2 ^ k := by rw [Nat.succ_mul, Nat.mul_comm]
    · rw [Nat.le_div_iff_mul_le hp, Nat.mul_comm]; exact h1
  · intro h
    have hb := Nat.div_add_mod b (2 ^ k)
    have hm := Nat.mod_lt b hp
    rw [h] at hb
    constructor <;> omega

theorem get_count_order_pow_two (k : Nat) (hk : k ≤ 32) : get_count_order (2 ^ k) = k := by
  have h := (get_count_order_spec (2 ^ k) (Nat.pow_le_pow_right (by decide) hk)).2.2
  rw [h]
  exact Nat.clog_pow 2 k (by decide)

/-- C5, as stated, fails: with three threads sharing (`num_threads_sharing = 2`)
processor 4 (APIC id 4) lies in the range `[3, 5]` of processor 3 and is
inserted into its sharing set, while `get_cache_id` gives them the different
identifiers `3 >> 2 = 0` and `4 >> 2 = 1`. -/
theorem C5_sharing_id_counterexample :
    ¬ (∀ (hw : Hw) (t : Topo) (st : ci_state) (cpu b index : Nat) (base : _cpuid4_info_regs),
        hw.has_topoext = true → index ≠ 3 → is_online t cpu → st.info_list cpu = true →
        is_online t b → b ≠ cpu → st.shared_cpu_map cpu index b = false →
        (((__cache_amd_cpumap_setup hw t st cpu index base).2.shared_cpu_map cpu index b = true ↔
            (get_cache_id t cpu base).id = (get_cache_id t b base).id) ∧
          ((amd_first (topo_apicid t cpu) (eax_num_threads_sharing base.eax + 1) ≤
                topo_apicid t b ∧
              topo_apicid t b ≤ amd_first (topo_apicid t cpu)
                (eax_num_threads_sharing base.eax + 1) + (eax_num_threads_sharing base.eax + 1) - 1) ↔
            (get_cache_id t cpu base).id = (get_cache_id t b base).id))) := by
  intro h
  have h1 := (h hw_amd_topoext topo_eight ci_state_empty 3 4 1 regs_three_sharing rfl (by decide)
    (by decide) rfl (by decide) (by decide) rfl).1
  have h2 : (__cache_amd_cpumap_setup hw_amd_topoext topo_eight ci_state_empty 3 1
      regs_three_sharing).2.shared_cpu_map 3 1 4 = true := by decide
  have h3 := h1.mp h2
  revert h3
  decide

/-- C5, amended: on the TOPOEXT path for a leaf index other than 3, when the
threads-sharing count `n = num_threads_sharing + 1` is a power of two, for the
processor `cpu` being set up (online, with cache info) and every online
processor `b`: `b`'s APIC id lies in `[first, first + n - 1]`, with
`first = apicid(cpu) - apicid(cpu) mod n`, if and only if `get_cache_id`
computes the same identifier for `cpu` and `b` from that `n`; and `b` is in
`cpu`'s sharing set for that leaf after the call if and only if it was there
before or the two identifiers are equal. -/
theorem C5_sharing_id_pow_two (hw : Hw) (t : Topo) (st : ci_state) (cpu b index k : Nat)
    (base : _cpuid4_info_regs) (htopo : hw.has_topoext = true) (hidx : index ≠ 3)
    (hcpu : is_online t cpu) (hinfo : st.info_list cpu = true) (hb : is_online t b)
    (hpow : eax_num_threads_sharing base.eax + 1 = 2 ^ k) :
    ((amd_first (topo_apicid t cpu) (eax_num_threads_sharing base.eax + 1) ≤ topo_apicid t b ∧
        topo_apicid t b ≤ amd_first (topo_apicid t cpu)
          (eax_num_threads_sharing base.eax + 1) + (eax_num_threads_sharing base.eax + 1) - 1) ↔
      (get_cache_id t cpu base).id = (get_cache_id t b base).id) ∧
    ((__cache_amd_cpumap_setup hw t st cpu index base).2.shared_cpu_map cpu index b = true ↔
      st.shared_cpu_map cpu index b = true ∨
        (get_cache_id t cpu base).id = (get_cache_id t b base).id) := by
  have hk : k ≤ 32 := by
    have h1 := eax_num_threads_sharing_lt base.eax
    have h2 : 2 ^ k ≤ 2 ^ 12 := by
      rw [← hpow]
      have : (2 : Nat) ^ 12 = 4096 := by decide
      omega
    have := (Nat.pow_le_pow_iff_right (by decide : 1 < 2)).mp h2
    omega
  have hid : ∀ c, (get_cache_id t c base).id = topo_apicid t c >>> k := by
    intro c
    simp only [get_cache_id]
    rw [Nat.add_comm, hpow, get_count_order_pow_two k hk]
  obtain ⟨hlast, hrange⟩ := amd_range_pow_two (topo_apicid t cpu) (topo_apicid t b) k
    (topo_apicid_lt t cpu) hk
  obtain ⟨_, hself⟩ := amd_range_pow_two (topo_apicid t cpu) (topo_apicid t cpu) k
    (topo_apicid_lt t cpu) hk
  have hselfr := hself.mpr rfl
  rw [hid cpu, hid b, hpow, ← hlast]
  have heq : (topo_apicid t cpu >>> k = topo_apicid t b >>> k) ↔
      (topo_apicid t b >>> k = topo_apicid t cpu >>> k) := eq_comm
  refine ⟨by rw [heq]; exact hrange, ?_⟩
  have hspec := (amd_topoext_spec hw t st cpu index base htopo hidx).2.2 cpu index b
  rw [hpow] at hspec
  rw [hspec, heq, ← hrange]
  constructor
  · rintro (h | ⟨_, _, _, _, h1, h2⟩)
    · exact Or.inl h
    · exact Or.inr ⟨h1, h2⟩
  · rintro (h | ⟨h1, h2⟩)
    · exact Or.inl h
    · exact Or.inr ⟨hcpu, rfl, ⟨hinfo, hselfr.1, hselfr.2⟩, hb, h1, h2⟩

/-- Witness of C5 (amended): four threads sharing, processors 5 and 6 of
`topo_eight`. -/
theorem C5_sharing_id_pow_two_witness :
    ((amd_first (topo_apicid topo_eight 5) (eax_num_threads_sharing regs_four_sharing.eax + 1) ≤
          topo_apicid topo_eight 6 ∧
        topo_apicid topo_eight 6 ≤ amd_first (topo_apicid topo_eight 5)
          (eax_num_threads_sharing regs_four_sharing.eax + 1) +
            (eax_num_threads_sharing regs_four_sharing.eax + 1) - 1) ↔
      (get_cache_id topo_eight 5 regs_four_sharing).id =
        (get_cache_id topo_eight 6 regs_four_sharing).id) ∧
    ((__cache_amd_cpumap_setup hw_amd_topoext topo_eight ci_state_empty 5 1
        regs_four_sharing).2.shared_cpu_map 5 1 6 = true ↔
      ci_state_empty.shared_cpu_map 5 1 6 = true ∨
        (get_cache_id topo_eight 5 regs_four_sharing).id =
          (get_cache_id topo_eight 6 regs_four_sharing).id) :=
  C5_sharing_id_pow_two hw_amd_topoext topo_eight ci_state_empty 5 6 1 2 regs_four_sharing
    rfl (by decide) (by decide) rfl (by decide) (by decide)

/-- C6: with the TOPOEXT feature and a leaf index other than 3,
`__cache_amd_cpumap_setup` returns 1; with `n = num_threads_sharing + 1`,
`first = apicid(cpu) - apicid(cpu) mod n` and `last = first + n - 1` (unsigned
32-bit values, equal to the plain sum whenever `first + n ≤ 2 ^ 32`), the
sharing set for that leaf of every online processor with cache info and APIC
id in `[first, last]` becomes its previous value united with the set of all
online processors with APIC id in `[first, last]`; every other sharing set
(other processors, other leaf indices) is unchanged. -/
theorem C6_topoext_range_union (hw : Hw) (t : Topo) (st : ci_state) (cpu index : Nat)
    (base : _cpuid4_info_regs) (htopo : hw.has_topoext = true) (hidx : index ≠ 3) :
    (__cache_amd_cpumap_setup hw t st cpu index base).1 = 1 ∧
    amd_first (topo_apicid t cpu) (eax_num_threads_sharing base.eax + 1) =
      topo_apicid t cpu - topo_apicid t cpu % (eax_num_threads_sharing base.eax + 1) ∧
    amd_last (topo_apicid t cpu) (eax_num_threads_sharing base.eax + 1) =
      (amd_first (topo_apicid t cpu) (eax_num_threads_sharing base.eax + 1) +
        (eax_num_threads_sharing base.eax + 1) - 1) % 2 ^ 32 ∧
    (amd_first (topo_apicid t cpu) (eax_num_threads_sharing base.eax + 1) +
        (eax_num_threads_sharing base.eax + 1) ≤ 2 ^ 32 →
      amd_last (topo_apicid t cpu) (eax_num_threads_sharing base.eax + 1) =
        amd_first (topo_apicid t cpu) (eax_num_threads_sharing base.eax + 1) +
          (eax_num_threads_sharing base.eax + 1) - 1) ∧
    (∀ i, is_online t i → st.info_list i = true →
      amd_first (topo_apicid t cpu) (eax_num_threads_sharing base.eax + 1) ≤ topo_apicid t i →
      topo_apicid t i ≤ amd_last (topo_apicid t cpu) (eax_num_threads_sharing base.eax + 1) →
      ∀ x, (__cache_amd_cpumap_setup hw t st cpu index base).2.shared_cpu_map i index x = true ↔
        st.shared_cpu_map i index x = true ∨
          (is_online t x ∧
            amd_first (topo_apicid t cpu) (eax_num_threads_sharing base.eax + 1) ≤
              topo_apicid t x ∧
            topo_apicid t x ≤
              amd_last (topo_apicid t cpu) (eax_num_threads_sharing base.eax + 1))) ∧
    (∀ c l,
      ¬ (l = index ∧ is_online t c ∧ st.info_list c = true ∧
          amd_first (topo_apicid t cpu) (eax_num_threads_sharing base.eax + 1) ≤
            topo_apicid t c ∧
          topo_apicid t c ≤
            amd_last (topo_apicid t cpu) (eax_num_threads_sharing base.eax + 1)) →
      (__cache_amd_cpumap_setup hw t st cpu index base).2.shared_cpu_map c l =
        st.shared_cpu_map c l) := by
  obtain ⟨h1, _, h3⟩ := amd_topoext_spec hw t st cpu index base htopo hidx
  refine ⟨h1, rfl, rfl, ?_, ?_, ?_⟩
  · intro hle
    unfold amd_last
    apply Nat.mod_eq_of_lt
    omega
  · intro i hi hinfo hf hl x
    rw [h3]
    constructor
    · rintro (h | ⟨_, _, _, hx⟩)
      · exact Or.inl h
      · exact Or.inr hx
    · rintro (h | hx)
      · exact Or.inl h
      · exact Or.inr ⟨hi, rfl, ⟨hinfo, hf, hl⟩, hx⟩
  · intro c l hn
    funext x
    rw [Bool.eq_iff_iff, h3]
    constructor
    · rintro (h | ⟨hc, hl, ⟨hinfo, hf, hla⟩, _⟩)
      · exact h
      · exact absurd ⟨hl, hc, hinfo, hf, hla⟩ hn
    · exact Or.inl

/-- Witness of C6: processor 5 of `topo_eight`, leaf 1, four threads sharing. -/
theorem C6_topoext_range_union_witness :
    (__cache_amd_cpumap_setup hw_amd_topoext topo_eight ci_state_empty 5 1
        regs_four_sharing).1 = 1 ∧
      (__cache_amd_cpumap_setup hw_amd_topoext topo_eight ci_state_empty 5 1
        regs_four_sharing).2.shared_cpu_map 4 1 7 = true ∧
      (__cache_amd_cpumap_setup hw_amd_topoext topo_eight ci_state_empty 5 1
        regs_four_sharing).2.shared_cpu_map 4 1 3 = false ∧
      (__cache_amd_cpumap_setup hw_amd_topoext topo_eight ci_state_empty 5 1
        regs_four_sharing).2.shared_cpu_map 3 1 = ci_state_empty.shared_cpu_map 3 1 := by
  have h := C6_topoext_range_union hw_amd_topoext topo_eight ci_state_empty 5 1
    regs_four_sharing rfl (by decide)
  refine ⟨h.1, by decide, by decide, ?_⟩
  exact h.2.2.2.2.2 3 1 (by decide)

/-! ## The legacy snapshot and the generic sharing map -/

theorem amd_cpuid4_num_threads_sharing (hw : Hw) (leaf eax ebx ecx : Nat)
    (h : amd_cpuid4 hw leaf = .ok (eax, ebx, ecx)) : eax_num_threads_sharing eax = 0 := by
  unfold amd_cpuid4 at h
  split at h
  · exact absurd h (by simp)
  · injection h with h
    injection h with h _
    subst h
    decide
  · rename_i g _
    dsimp only at h
    split at h
    · exact absurd h (by simp)
    · injection h with h
      injection h with h _
      subst h
      unfold eax_num_threads_sharing
      split
      · rw [bitfield_set_read_above _ 9 1 _ 14 12 (by decide),
          bitfield_set_read_below _ 26 6 _ 14 12 (by decide), bitfield_set_same]
        rfl
      · rw [bitfield_set_read_below _ 26 6 _ 14 12 (by decide), bitfield_set_same]
        rfl

theorem lookup_ok_zero (hw : Hw) (index : Nat) (this_leaf base : _cpuid4_info_regs)
    (h : cpuid4_cache_lookup_regs hw index this_leaf = .ok (0, base)) :
    ∃ ebx ecx, cpuid4_probe hw index = .ok (base.eax, ebx, ecx) ∧
      eax_type base.eax ≠ CTYPE_NULL := by
  cases hp : cpuid4_probe hw index with
  | error f =>
    unfold cpuid4_cache_lookup_regs at h
    rw [hp] at h
    exact absurd h (by simp)
  | ok r =>
    obtain ⟨eax, ebx, ecx⟩ := r
    by_cases ht : eax_type eax = CTYPE_NULL
    · obtain ⟨r, hr, _⟩ := lookup_of_probe_null hw index this_leaf eax ebx ecx hp ht
      rw [hr] at h
      injection h with h
      injection h with h _
      exact absurd h (by decide)
    · obtain ⟨r, hr, he, _⟩ := lookup_of_probe_present hw index this_leaf eax ebx ecx hp ht
      rw [hr] at h
      injection h with h
      injection h with _ h
      subst h
      rw [he]
      exact ⟨ebx, ecx, rfl, ht⟩

/-- C7: on an AMD processor without TOPOEXT, for a leaf index other than 3 and
the snapshot `cpuid4_cache_lookup_regs` obtains from the legacy emulation
`amd_cpuid4` (whose threads-sharing field is 0), `__cache_cpumap_setup` adds
exactly the processor itself to its own sharing set for that leaf and changes
no sharing set of another processor or of another leaf. -/
theorem C7_legacy_single_sharer (hw : Hw) (t : Topo) (st : ci_state) (cpu index : Nat)
    (this_leaf base : _cpuid4_info_regs)
    (hboot : hw.x86_vendor = Vendor.X86_VENDOR_AMD)
    (hcpu : t.x86_vendor cpu = Vendor.X86_VENDOR_AMD)
    (htopo : hw.has_topoext = false) (hidx : index ≠ 3)
    (hbase : cpuid4_cache_lookup_regs hw index this_leaf = .ok (0, base)) :
    eax_num_threads_sharing base.eax = 0 ∧
      (__cache_cpumap_setup hw t st cpu index base).shared_cpu_map cpu index =
        cpumask_set_cpu cpu (st.shared_cpu_map cpu index) ∧
      (∀ c l, ¬ (c = cpu ∧ l = index) →
        (__cache_cpumap_setup hw t st cpu index base).shared_cpu_map c l =
          st.shared_cpu_map c l) ∧
      (__cache_cpumap_setup hw t st cpu index base).info_list = st.info_list := by
  obtain ⟨ebx, ecx, hp, _⟩ := lookup_ok_zero hw index this_leaf base hbase
  have hp2 : amd_cpuid4 hw index = .ok (base.eax, ebx, ecx) := by
    unfold cpuid4_probe at hp
    rw [if_pos hboot, htopo] at hp
    simpa using hp
  have hnts := amd_cpuid4_num_threads_sharing hw index base.eax ebx ecx hp2
  have hamd : __cache_amd_cpumap_setup hw t st cpu index base = (0, st) := by
    unfold __cache_amd_cpumap_setup
    rw [if_neg hidx, htopo]
    simp
  have hres : __cache_cpumap_setup hw t st cpu index base = shared_set st cpu index cpu := by
    unfold __cache_cpumap_setup
    simp [hcpu, hamd, hnts]
  rw [hres]
  refine ⟨hnts, ?_, ?_, rfl⟩
  · simp [shared_set]
  · intro c l hn
    simp [shared_set, hn]

/-- Witness of C7: leaf 0 of `hw_amd_legacy`, processor 2 of `topo_eight`. -/
theorem C7_legacy_single_sharer_witness :
    eax_num_threads_sharing regs_amd_legacy_l1d.eax = 0 ∧
      (__cache_cpumap_setup hw_amd_legacy topo_eight ci_state_empty 2 0
          regs_amd_legacy_l1d).shared_cpu_map 2 0 =
        cpumask_set_cpu 2 (ci_state_empty.shared_cpu_map 2 0) ∧
      (∀ c l, ¬ (c = 2 ∧ l = 0) →
        (__cache_cpumap_setup hw_amd_legacy topo_eight ci_state_empty 2 0
            regs_amd_legacy_l1d).shared_cpu_map c l =
          ci_state_empty.shared_cpu_map c l) ∧
      (__cache_cpumap_setup hw_amd_legacy topo_eight ci_state_empty 2 0
          regs_amd_legacy_l1d).info_list = ci_state_empty.info_list :=
  C7_legacy_single_sharer hw_amd_legacy topo_eight ci_state_empty 2 0
    _cpuid4_info_regs.zero regs_amd_legacy_l1d rfl rfl rfl (by decide) rfl

/-! ## Sharing sets only grow -/

theorem shared_le_amd (hw : Hw) (t : Topo) (st : ci_state) (cpu index : Nat)
    (base : _cpuid4_info_regs) :
    shared_le st (__cache_amd_cpumap_setup hw t st cpu index base).2 := by
  unfold __cache_amd_cpumap_setup
  split
  · apply shared_le_foldl
    intro st' i
    dsimp only
    split
    · exact shared_le_refl st'
    · apply shared_le_foldl
      intro st'' s
      dsimp only
      split
      · exact shared_le_refl st''
      · exact shared_le_shared_set st'' i index s
  · split
    · dsimp only
      apply shared_le_foldl
      intro st' i
      dsimp only
      split
      · exact shared_le_refl st'
      · split
        · exact shared_le_refl st'
        · apply shared_le_foldl
          intro st'' s
          dsimp only
          split
          · exact shared_le_refl st''
          · exact shared_le_shared_set st'' i index s
    · exact shared_le_refl st

/-- C8: for every call of `__cache_cpumap_setup` (every vendor, feature
setting, leaf index, snapshot, online set and prior state) each sharing set
after the call contains its value before the call: no processor is ever
removed from a sharing set. -/
theorem C8_sharing_sets_only_grow (hw : Hw) (t : Topo) (st : ci_state) (cpu index : Nat)
    (base : _cpuid4_info_regs) :
    ∀ c l x, st.shared_cpu_map c l x = true →
      (__cache_cpumap_setup hw t st cpu index base).shared_cpu_map c l x = true := by
  have hr : shared_le st
      (if t.x86_vendor cpu = Vendor.X86_VENDOR_AMD ∨
          t.x86_vendor cpu = Vendor.X86_VENDOR_HYGON then
        __cache_amd_cpumap_setup hw t st cpu index base
      else (0, st)).2 := by
    split
    · exact shared_le_amd hw t st cpu index base
    · exact shared_le_refl st
  show shared_le st (__cache_cpumap_setup hw t st cpu index base)
  unfold __cache_cpumap_setup
  dsimp only
  generalize (if t.x86_vendor cpu = Vendor.X86_VENDOR_AMD ∨
          t.x86_vendor cpu = Vendor.X86_VENDOR_HYGON then
        __cache_amd_cpumap_setup hw t st cpu index base
      else (0, st)) = r at hr ⊢
  by_cases hz : r.1 ≠ 0
  · rw [if_pos hz]
    exact hr
  · rw [if_neg hz]
    refine shared_le_trans hr ?_
    refine shared_le_trans (shared_le_shared_set _ cpu index cpu) ?_
    by_cases h1 : 1 + eax_num_threads_sharing base.eax = 1
    · rw [if_pos h1]
      exact shared_le_refl _
    · rw [if_neg h1]
      apply shared_le_foldl
      intro st' i
      dsimp only
      split
      · split
        · exact shared_le_refl st'
        · exact shared_le_trans (shared_le_shared_set st' cpu index i)
            (shared_le_shared_set _ i index cpu)
      · exact shared_le_refl st'

/-- Witness of C8: processor 1 stays in the sharing set of leaf 0 of
processor 0 when processor 0 is set up again with a four-thread snapshot. -/
theorem C8_sharing_sets_only_grow_witness :
    ci_state_pair.shared_cpu_map 0 0 1 = true ∧
      (__cache_cpumap_setup hw_amd_topoext topo_eight ci_state_pair 0 0
        regs_four_sharing).shared_cpu_map 0 0 1 = true :=
  ⟨rfl, C8_sharing_sets_only_grow hw_amd_topoext topo_eight ci_state_pair 0 0
    regs_four_sharing 0 0 1 rfl⟩

/-! ## The legacy descriptor pass of `init_intel_cacheinfo` -/

theorem legacy_add_total (tot : cache_sizes) (des ty : Nat)
    (hty : ty = LVL_1_INST ∨ ty = LVL_1_DATA ∨ ty = LVL_2 ∨ ty = LVL_3) :
    (legacy_add tot des).total ty % 2 ^ 32 = (tot.total ty + descriptor_size ty des) % 2 ^ 32 ∧
      (tot.total ty < 2 ^ 32 → (legacy_add tot des).total ty < 2 ^ 32) := by
  unfold legacy_add descriptor_size
  cases cache_table_lookup des with
  | none => simp
  | some e =>
    have hm : ∀ x : Nat, u32 x % 2 ^ 32 = x % 2 ^ 32 := fun x => Nat.mod_mod _ _
    have hl : ∀ x : Nat, u32 x < 2 ^ 32 := fun x => Nat.mod_lt _ (by decide)
    dsimp only
    rcases hty with h | h | h | h <;> subst h <;>
      by_cases h1 : e.cache_type = LVL_1_INST <;>
      by_cases h2 : e.cache_type = LVL_1_DATA <;>
      by_cases h3 : e.cache_type = LVL_2 <;>
      by_cases h4 : e.cache_type = LVL_3 <;>
      simp_all [cache_sizes.total, LVL_1_INST, LVL_1_DATA, LVL_2, LVL_3]

theorem legacy_fold_total (ty : Nat)
    (hty : ty = LVL_1_INST ∨ ty = LVL_1_DATA ∨ ty = LVL_2 ∨ ty = LVL_3) :
    ∀ (ds : List Nat) (tot : cache_sizes),
      (ds.foldl legacy_add tot).total ty % 2 ^ 32 =
          (tot.total ty + descriptor_sum ty ds) % 2 ^ 32 ∧
        (tot.total ty < 2 ^ 32 → (ds.foldl legacy_add tot).total ty < 2 ^ 32) := by
  intro ds
  induction ds with
  | nil => intro tot; simp [descriptor_sum]
  | cons d ds ih =>
    intro tot
    rw [List.foldl_cons]
    obtain ⟨h1, h2⟩ := ih (legacy_add tot d)
    obtain ⟨g1, g2⟩ := legacy_add_total tot d ty hty
    refine ⟨?_, fun h => h2 (g2 h)⟩
    rw [h1]
    have e : descriptor_sum ty (d :: ds) = descriptor_size ty d + descriptor_sum ty ds := by
      simp [descriptor_sum]
    rw [e, Nat.add_mod, g1, ← Nat.add_mod]
    congr 1
    omega

theorem legacy_fold_zero_total (ty : Nat)
    (hty : ty = LVL_1_INST ∨ ty = LVL_1_DATA ∨ ty = LVL_2 ∨ ty = LVL_3) (ds : List Nat) :
    (ds.foldl legacy_add cache_sizes.zero).total ty = descriptor_sum ty ds % 2 ^ 32 := by
  obtain ⟨h1, h2⟩ := legacy_fold_total ty hty ds cache_sizes.zero
  have hz : cache_sizes.zero.total ty = 0 := by
    rcases hty with h | h | h | h <;> subst h <;> rfl
  rw [hz, Nat.zero_add] at h1
  rw [← h1]
  exact (Nat.mod_eq_of_lt (h2 (by rw [hz]; decide))).symm

theorem cache_sizes_ext (a b : cache_sizes)
    (h : ∀ ty, ty = LVL_1_INST ∨ ty = LVL_1_DATA ∨ ty = LVL_2 ∨ ty = LVL_3 →
      a.total ty = b.total ty) : a = b := by
  have h1 := h LVL_1_INST (Or.inl rfl)
  have h2 := h LVL_1_DATA (Or.inr (Or.inl rfl))
  have h3 := h LVL_2 (Or.inr (Or.inr (Or.inl rfl)))
  have h4 := h LVL_3 (Or.inr (Or.inr (Or.inr rfl)))
  cases a; cases b
  simp_all [cache_sizes.total, LVL_1_INST, LVL_1_DATA, LVL_2, LVL_3]

theorem descriptor_size_le (ty des : Nat) : descriptor_size ty des ≤ 24576 := by
  unfold descriptor_size
  cases h : cache_table_lookup des with
  | none => simp
  | some e =>
    have hmem : e ∈ cache_table := List.mem_of_find?_eq_some h
    have hall : ∀ x ∈ cache_table, x.size ≤ 24576 := by decide
    dsimp only
    split
    · exact hall e hmem
    · exact Nat.zero_le _

theorem descriptor_sum_le (ty : Nat) (ds : List Nat) :
    descriptor_sum ty ds ≤ 24576 * ds.length := by
  induction ds with
  | nil => simp [descriptor_sum]
  | cons d ds ih =>
    have e : descriptor_sum ty (d :: ds) = descriptor_size ty d + descriptor_sum ty ds := by
      simp [descriptor_sum]
    have := descriptor_size_le ty d
    rw [e, List.length_cons]
    omega

theorem foldl_flatten_map (f : cache_sizes → Nat → cache_sizes) (g : Nat → List Nat) :
    ∀ (L : List Nat) (tot : cache_sizes),
      L.foldl (fun tot i => (g i).foldl f tot) tot = ((L.map g).flatten).foldl f tot := by
  intro L
  induction L with
  | nil => intro tot; rfl
  | cons a L ih =>
    intro tot
    rw [List.foldl_cons, List.map_cons, List.flatten_cons, List.foldl_append, ih]

theorem intel_legacy_descriptors_length (cpuid2 : Nat → Nat × Nat × Nat × Nat) :
    (intel_legacy_descriptors cpuid2).length ≤ 3825 := by
  unfold intel_legacy_descriptors
  have hn : bitfield (u32 (cpuid2 0).1) 0 8 < 256 := by
    unfold bitfield
    exact Nat.mod_lt _ (by decide)
  generalize bitfield (u32 (cpuid2 0).1) 0 8 = n at hn
  have hlen : ∀ m : Nat, ((List.range m).map
      (fun i => legacy_descriptor_bytes (cpuid2 (i + 1)))).flatten.length = 15 * m := by
    intro m
    induction m with
    | zero => rfl
    | succ m ih =>
      rw [List.range_succ, List.map_append, List.flatten_append, List.length_append, ih]
      simp [legacy_descriptor_bytes]
      omega
  rw [hlen]
  omega

theorem intel_legacy_pass_eq (cpuid2 : Nat → Nat × Nat × Nat × Nat) (tot : cache_sizes) :
    intel_legacy_pass cpuid2 tot = (intel_legacy_descriptors cpuid2).foldl legacy_add tot := by
  unfold intel_legacy_pass intel_legacy_descriptors
  exact foldl_flatten_map legacy_add (fun i => legacy_descriptor_bytes (cpuid2 (i + 1))) _ tot

theorem intel_legacy_pass_total (cpuid2 : Nat → Nat × Nat × Nat × Nat) (ty : Nat)
    (hty : ty = LVL_1_INST ∨ ty = LVL_1_DATA ∨ ty = LVL_2 ∨ ty = LVL_3) :
    (intel_legacy_pass cpuid2 cache_sizes.zero).total ty =
        descriptor_sum ty (intel_legacy_descriptors cpuid2) ∧
      (intel_legacy_pass cpuid2 cache_sizes.zero).total ty ≤ 94003200 := by
  rw [intel_legacy_pass_eq, legacy_fold_zero_total ty hty]
  have h1 := descriptor_sum_le ty (intel_legacy_descriptors cpuid2)
  have h2 := intel_legacy_descriptors_length cpuid2
  have h3 : descriptor_sum ty (intel_legacy_descriptors cpuid2) < 2 ^ 32 := by
    have : (2 : Nat) ^ 32 = 4294967296 := by decide
    omega
  rw [Nat.mod_eq_of_lt h3]
  exact ⟨rfl, by omega⟩

/-- C9: the legacy descriptor pass is the cumulative accumulation over all
descriptor bytes processed; its four totals are the sums, per cache type, of
the `cache_table` sizes of those bytes; over an arbitrary byte sequence the
accumulated totals are those sums as 32-bit values; and two byte sequences
that are permutations of each other give the same four totals. -/
theorem C9_legacy_totals_are_sums (cpuid2 : Nat → Nat × Nat × Nat × Nat)
    (ds₁ ds₂ : List Nat) (hperm : ds₁.Perm ds₂) :
    intel_legacy_pass cpuid2 cache_sizes.zero =
        (intel_legacy_descriptors cpuid2).foldl legacy_add cache_sizes.zero ∧
      (intel_legacy_pass cpuid2 cache_sizes.zero).l1i =
        descriptor_sum LVL_1_INST (intel_legacy_descriptors cpuid2) ∧
      (intel_legacy_pass cpuid2 cache_sizes.zero).l1d =
        descriptor_sum LVL_1_DATA (intel_legacy_descriptors cpuid2) ∧
      (intel_legacy_pass cpuid2 cache_sizes.zero).l2 =
        descriptor_sum LVL_2 (intel_legacy_descriptors cpuid2) ∧
      (intel_legacy_pass cpuid2 cache_sizes.zero).l3 =
        descriptor_sum LVL_3 (intel_legacy_descriptors cpuid2) ∧
      (ds₁.foldl legacy_add cache_sizes.zero).l1i = descriptor_sum LVL_1_INST ds₁ % 2 ^ 32 ∧
      (ds₁.foldl legacy_add cache_sizes.zero).l1d = descriptor_sum LVL_1_DATA ds₁ % 2 ^ 32 ∧
      (ds₁.foldl legacy_add cache_sizes.zero).l2 = descriptor_sum LVL_2 ds₁ % 2 ^ 32 ∧
      (ds₁.foldl legacy_add cache_sizes.zero).l3 = descriptor_sum LVL_3 ds₁ % 2 ^ 32 ∧
      ds₁.foldl legacy_add cache_sizes.zero = ds₂.foldl legacy_add cache_sizes.zero := by
  have t1 : LVL_1_INST = LVL_1_INST ∨ LVL_1_INST = LVL_1_DATA ∨ LVL_1_INST = LVL_2 ∨
      LVL_1_INST = LVL_3 := Or.inl rfl
  have t2 : LVL_1_DATA = LVL_1_INST ∨ LVL_1_DATA = LVL_1_DATA ∨ LVL_1_DATA = LVL_2 ∨
      LVL_1_DATA = LVL_3 := Or.inr (Or.inl rfl)
  have t3 : LVL_2 = LVL_1_INST ∨ LVL_2 = LVL_1_DATA ∨ LVL_2 = LVL_2 ∨ LVL_2 = LVL_3 :=
    Or.inr (Or.inr (Or.inl rfl))
  have t4 : LVL_3 = LVL_1_INST ∨ LVL_3 = LVL_1_DATA ∨ LVL_3 = LVL_2 ∨ LVL_3 = LVL_3 :=
    Or.inr (Or.inr (Or.inr rfl))
  refine ⟨intel_legacy_pass_eq cpuid2 _, (intel_legacy_pass_total cpuid2 _ t1).1,
    (intel_legacy_pass_total cpuid2 _ t2).1, (intel_legacy_pass_total cpuid2 _ t3).1,
    (intel_legacy_pass_total cpuid2 _ t4).1, legacy_fold_zero_total _ t1 ds₁,
    legacy_fold_zero_total _ t2 ds₁, legacy_fold_zero_total _ t3 ds₁,
    legacy_fold_zero_total _ t4 ds₁, ?_⟩
  apply cache_sizes_ext
  intro ty hty
  rw [legacy_fold_zero_total ty hty, legacy_fold_zero_total ty hty]
  unfold descriptor_sum
  rw [(hperm.map (descriptor_size ty)).sum_eq]

/-- Witness of C9: descriptors `0x06` (L1i, 8K) and `0x0a` (L1d, 8K) and
`0x43` (L2, 512K) in two orders, on a `cpuid(2)` that reports them. -/
theorem C9_legacy_totals_are_sums_witness :
    (intel_legacy_pass (fun _ => (0x430a0601, 0, 0, 0)) cache_sizes.zero).l2 =
        descriptor_sum LVL_2 (intel_legacy_descriptors (fun _ => (0x430a0601, 0, 0, 0))) ∧
      [0x06, 0x0a, 0x43].foldl legacy_add cache_sizes.zero =
        [0x43, 0x06, 0x0a].foldl legacy_add cache_sizes.zero :=
  ⟨(C9_legacy_totals_are_sums (fun _ => (0x430a0601, 0, 0, 0)) [0x06, 0x0a, 0x43]
      [0x43, 0x06, 0x0a] (by decide)).2.2.2.1,
   (C9_legacy_totals_are_sums (fun _ => (0x430a0601, 0, 0, 0)) [0x06, 0x0a, 0x43]
      [0x43, 0x06, 0x0a] (by decide)).2.2.2.2.2.2.2.2.2⟩

/-- The legacy pass on one `cpuid(2)` result with descriptors `0x06`, `0x0a`,
`0x43`. -/
theorem intel_legacy_pass_three_descriptors :
    intel_legacy_pass (fun _ => (0x430a0601, 0, 0, 0)) cache_sizes.zero =
      { l1i := 8, l1d := 8, l2 := 512, l3 := 0 } := by decide

/-! ## Final sizes of `init_intel_cacheinfo` -/

theorem lookup_size_lt (hw : Hw) (index : Nat) (this_leaf r : _cpuid4_info_regs) (ret : Int)
    (h : cpuid4_cache_lookup_regs hw index this_leaf = .ok (ret, r)) (hret : ¬ ret < 0) :
    r.size < 2 ^ 32 := by
  cases hp : cpuid4_probe hw index with
  | error f =>
    unfold cpuid4_cache_lookup_regs at h
    rw [hp] at h
    exact absurd h (by simp)
  | ok p =>
    obtain ⟨eax, ebx, ecx⟩ := p
    by_cases ht : eax_type eax = CTYPE_NULL
    · obtain ⟨r', hr, _⟩ := lookup_of_probe_null hw index this_leaf eax ebx ecx hp ht
      rw [hr] at h
      injection h with h
      injection h with h _
      subst h
      exact absurd (by decide) hret
    · obtain ⟨r', hr, _, _, _, hs⟩ := lookup_of_probe_present hw index this_leaf eax ebx ecx hp ht
      rw [hr] at h
      injection h with h
      injection h with _ h
      subst h
      rw [hs]
      exact Nat.mod_lt _ (by decide)

theorem intel_cpuid4_switch_bound (apicid : Nat) (acc : cpuid4_sizes)
    (this_leaf : _cpuid4_info_regs) (hs : this_leaf.size < 2 ^ 32)
    (hb : acc.new_l1d < 4194304 ∧ acc.new_l1i < 4194304) :
    (intel_cpuid4_switch apicid acc this_leaf).new_l1d < 4194304 ∧
      (intel_cpuid4_switch apicid acc this_leaf).new_l1i < 4194304 := by
  have hq : u32 (this_leaf.size / 1024) < 4194304 := by
    have h1 : this_leaf.size / 1024 < 4194304 := by
      have : (2 : Nat) ^ 32 = 4294967296 := by decide
      omega
    exact Nat.lt_of_le_of_lt (Nat.mod_le _ _) h1
  unfold intel_cpuid4_switch
  dsimp only
  split
  · split
    · exact ⟨hq, hb.2⟩
    · split
      · exact ⟨hb.1, hq⟩
      · exact hb
  · split
    · exact hb
    · split
      · exact hb
      · exact hb

theorem intel_cpuid4_loop_ok (hw : Hw) (apicid : Nat)
    (hnative : hw.x86_vendor = Vendor.X86_VENDOR_AMD → hw.has_topoext = true) :
    ∀ (L : List Nat) (acc : cpuid4_sizes), acc.new_l1d < 4194304 ∧ acc.new_l1i < 4194304 →
      ∃ new, intel_cpuid4_loop hw apicid L acc = .ok new ∧
        new.new_l1d < 4194304 ∧ new.new_l1i < 4194304 := by
  intro L
  induction L with
  | nil => intro acc hb; exact ⟨acc, rfl, hb⟩
  | cons i L ih =>
    intro acc hb
    have hp := cpuid4_probe_native hw i hnative
    unfold intel_cpuid4_loop
    cases hl : cpuid4_cache_lookup_regs hw i _cpuid4_info_regs.zero with
    | error f =>
      unfold cpuid4_cache_lookup_regs at hl
      rw [hp] at hl
      dsimp only at hl
      split at hl <;> exact absurd hl (by simp)
    | ok p =>
      obtain ⟨ret, r⟩ := p
      dsimp only
      by_cases hret : ret < 0
      · rw [if_pos hret]
        exact ih acc hb
      · rw [if_neg hret]
        exact ih _ (intel_cpuid4_switch_bound apicid acc r (lookup_size_lt hw i _ r ret hl hret) hb)

theorem intel_legacy_sizes_bound (cpuid2 : Nat → Nat × Nat × Nat × Nat) (c : cpuinfo_x86)
    (nl : Nat) :
    (intel_legacy_sizes cpuid2 c nl).l1i ≤ 94003200 ∧
      (intel_legacy_sizes cpuid2 c nl).l1d ≤ 94003200 := by
  unfold intel_legacy_sizes
  split
  · exact ⟨(intel_legacy_pass_total cpuid2 LVL_1_INST (Or.inl rfl)).2,
      (intel_legacy_pass_total cpuid2 LVL_1_DATA (Or.inr (Or.inl rfl))).2⟩
  · exact ⟨by decide, by decide⟩

theorem intel_num_leaves_returns (hw : Hw) (c : cpuinfo_x86) (num_leaves : Nat)
    (hterm : c.cpuid_level > 3 → num_leaves = 0 →
      ∃ m, m < 2 ^ 31 ∧
        eax_type (cpuid_count hw (find_num_cache_leaves_op c.x86_vendor) m).1 = CTYPE_NULL) :
    ∃ fuel0 nl, ∀ fuel, fuel0 ≤ fuel → intel_num_leaves hw c num_leaves fuel = some nl := by
  unfold intel_num_leaves
  by_cases h1 : c.cpuid_level > 3
  · by_cases h2 : num_leaves = 0
    · obtain ⟨n, hn, hfuel, _⟩ := find_num_cache_leaves_returns hw c.x86_vendor (hterm h1 h2)
      refine ⟨n + 1, n, fun fuel hf => ?_⟩
      rw [if_pos h1, if_pos h2, hfuel fuel (by omega)]
      have hn2 : n < 2147483648 := by simpa using hn
      have : int_to_u32 (n : Int) = n := by unfold int_to_u32; omega
      simp [this]
    · exact ⟨0, num_leaves, fun fuel _ => by rw [if_pos h1, if_neg h2]⟩
  · exact ⟨0, num_leaves, fun fuel _ => by rw [if_neg h1]⟩

/-- C10: `init_intel_cacheinfo` returns (given enough iterations of the leaf
count loop, whenever that loop meets a leaf of type none, and outside the AMD
legacy emulation); at its end each of the L1d, L1i, L2 and L3 sizes is the
value of the per-leaf (cpuid 4) pass when that value is non-zero and the
legacy accumulated value otherwise; `x86_cache_size` is the L3 size if
non-zero, else the L2 size if non-zero, else L1i + L1d; and
`cpu_detect_cache_sizes` is invoked if and only if the final L2 size is zero. -/
theorem C10_final_sizes (hw : Hw) (cpuid2 : Nat → Nat × Nat × Nat × Nat) (bad_apicid : Nat)
    (c : cpuinfo_x86) (num_leaves : Nat)
    (hterm : c.cpuid_level > 3 → num_leaves = 0 →
      ∃ m, m < 2 ^ 31 ∧
        eax_type (cpuid_count hw (find_num_cache_leaves_op c.x86_vendor) m).1 = CTYPE_NULL)
    (hnative : hw.x86_vendor = Vendor.X86_VENDOR_AMD → hw.has_topoext = true) :
    ∃ fuel0 nl new r,
      (∀ fuel, fuel0 ≤ fuel →
        intel_num_leaves hw c num_leaves fuel = some nl ∧
        init_intel_cacheinfo hw cpuid2 bad_apicid c num_leaves fuel = some (.ok r)) ∧
      intel_cpuid4_pass hw c nl = .ok new ∧
      r.sizes.l1d =
        (if new.new_l1d ≠ 0 then new.new_l1d else (intel_legacy_sizes cpuid2 c nl).l1d) ∧
      r.sizes.l1i =
        (if new.new_l1i ≠ 0 then new.new_l1i else (intel_legacy_sizes cpuid2 c nl).l1i) ∧
      r.sizes.l2 =
        (if new.new_l2 ≠ 0 then new.new_l2 else (intel_legacy_sizes cpuid2 c nl).l2) ∧
      r.sizes.l3 =
        (if new.new_l3 ≠ 0 then new.new_l3 else (intel_legacy_sizes cpuid2 c nl).l3) ∧
      r.c.x86_cache_size =
        (if r.sizes.l3 ≠ 0 then r.sizes.l3
         else if r.sizes.l2 ≠ 0 then r.sizes.l2
         else r.sizes.l1i + r.sizes.l1d) ∧
      (r.cpu_detect_cache_sizes_called = true ↔ r.sizes.l2 = 0) := by
  obtain ⟨fuel0, nl, hnl⟩ := intel_num_leaves_returns hw c num_leaves hterm
  have hpass : ∃ new, intel_cpuid4_pass hw c nl = .ok new ∧
      new.new_l1d < 4194304 ∧ new.new_l1i < 4194304 := by
    unfold intel_cpuid4_pass
    split
    · exact intel_cpuid4_loop_ok hw c.apicid hnative (List.range nl) cpuid4_sizes.zero
        ⟨by decide, by decide⟩
    · exact ⟨cpuid4_sizes.zero, rfl, by decide, by decide⟩
  obtain ⟨new, hnew, hb1, hb2⟩ := hpass
  obtain ⟨hl1, hl2⟩ := intel_legacy_sizes_bound cpuid2 c nl
  refine ⟨fuel0, nl, new,
    intel_finish bad_apicid c nl new (intel_legacy_sizes cpuid2 c nl), ?_, hnew,
    rfl, rfl, rfl, rfl, ?_, ?_⟩
  · intro fuel hf
    refine ⟨hnl fuel hf, ?_⟩
    unfold init_intel_cacheinfo
    rw [hnl fuel hf]
    dsimp only
    rw [hnew]
  · have hsum : u32 ((if new.new_l1i ≠ 0 then new.new_l1i
          else (intel_legacy_sizes cpuid2 c nl).l1i) +
        (if new.new_l1d ≠ 0 then new.new_l1d
          else (intel_legacy_sizes cpuid2 c nl).l1d)) =
        (if new.new_l1i ≠ 0 then new.new_l1i else (intel_legacy_sizes cpuid2 c nl).l1i) +
        (if new.new_l1d ≠ 0 then new.new_l1d
          else (intel_legacy_sizes cpuid2 c nl).l1d) := by
      apply Nat.mod_eq_of_lt
      have : (2 : Nat) ^ 32 = 4294967296 := by decide
      split <;> split <;> omega
    simp only [intel_finish]
    rw [hsum]
  · simp [intel_finish]

/-- Witness of C10 on `hw_intel_two_leaves` (two level-1 data leaves of
32 KiB) with a `cpuid(2)` reporting nothing. -/
theorem C10_final_sizes_witness :
    ∃ fuel0 nl new r,
      (∀ fuel, fuel0 ≤ fuel →
        intel_num_leaves hw_intel_two_leaves cpuinfo_intel_level4 0 fuel = some nl ∧
        init_intel_cacheinfo hw_intel_two_leaves (fun _ => (0, 0, 0, 0)) 0xFFFFFFFF
          cpuinfo_intel_level4 0 fuel = some (.ok r)) ∧
      intel_cpuid4_pass hw_intel_two_leaves cpuinfo_intel_level4 nl = .ok new ∧
      r.sizes.l1d =
        (if new.new_l1d ≠ 0 then new.new_l1d
         else (intel_legacy_sizes (fun _ => (0, 0, 0, 0)) cpuinfo_intel_level4 nl).l1d) ∧
      r.sizes.l1i =
        (if new.new_l1i ≠ 0 then new.new_l1i
         else (intel_legacy_sizes (fun _ => (0, 0, 0, 0)) cpuinfo_intel_level4 nl).l1i) ∧
      r.sizes.l2 =
        (if new.new_l2 ≠ 0 then new.new_l2
         else (intel_legacy_sizes (fun _ => (0, 0, 0, 0)) cpuinfo_intel_level4 nl).l2) ∧
      r.sizes.l3 =
        (if new.new_l3 ≠ 0 then new.new_l3
         else (intel_legacy_sizes (fun _ => (0, 0, 0, 0)) cpuinfo_intel_level4 nl).l3) ∧
      r.c.x86_cache_size =
        (if r.sizes.l3 ≠ 0 then r.sizes.l3
         else if r.sizes.l2 ≠ 0 then r.sizes.l2
         else r.sizes.l1i + r.sizes.l1d) ∧
      (r.cpu_detect_cache_sizes_called = true ↔ r.sizes.l2 = 0) :=
  C10_final_sizes hw_intel_two_leaves (fun _ => (0, 0, 0, 0)) 0xFFFFFFFF cpuinfo_intel_level4 0
    (fun _ _ => ⟨2, by decide, by decide⟩) (fun h => absurd h (by decide))

/-- The outcome of `init_intel_cacheinfo` on `hw_intel_two_leaves`: 32 KiB of
level-1 data cache, no level-2 cache, the external fallback invoked. -/
theorem init_intel_cacheinfo_two_leaves :
    init_intel_cacheinfo hw_intel_two_leaves (fun _ => (0, 0, 0, 0)) 0xFFFFFFFF
        cpuinfo_intel_level4 0 5 =
      some (.ok { c := { cpuinfo_intel_level4 with llc_id := 0, x86_cache_size := 32 },
                  num_leaves := 2,
                  sizes := { l1i := 0, l1d := 32, l2 := 0, l3 := 0 },
                  cpu_detect_cache_sizes_called := true }) := by rfl

/-! ## Presence of a leaf in the legacy emulation -/

theorem amd_cpuid4_switch_none_iff (hw : Hw) (leaf : Nat) (hl : leaf ≤ 3) :
    amd_cpuid4_switch hw leaf = .ok none ↔ amd_geometry_reg hw leaf = 0 := by
  have hcases : leaf = 0 ∨ leaf = 1 ∨ leaf = 2 ∨ leaf = 3 := by omega
  rcases hcases with h | h | h | h <;> subst h <;>
    simp only [amd_cpuid4_switch, amd_geometry_reg, Nat.zero_ne_one, if_true, if_false]
  · by_cases hz : (cpuid_count hw 0x80000005 0).2.2.1 = 0
    · simp [hz]
    · cases hA : assocs (bitfield (cpuid_count hw 0x80000005 0).2.2.1 16 8) <;> simp [hz, hA]
  · by_cases hz : (cpuid_count hw 0x80000005 0).2.2.2 = 0
    · simp [hz]
    · cases hA : assocs (bitfield (cpuid_count hw 0x80000005 0).2.2.2 16 8) <;> simp [hz, hA]
  · by_cases hz : (cpuid_count hw 0x80000006 0).2.2.1 = 0
    · simp [hz]
    · cases hA : assocs (bitfield (cpuid_count hw 0x80000006 0).2.2.1 12 4) <;> simp [hz, hA]
  · by_cases hz : (cpuid_count hw 0x80000006 0).2.2.2 = 0
    · simp [hz]
    · cases hA : assocs (bitfield (cpuid_count hw 0x80000006 0).2.2.2 12 4) <;>
        cases hd : hw.has_amd_dcm <;> simp [hz, hA, hd]

theorem amd_cpuid4_switch_beyond (hw : Hw) (leaf : Nat) (hl : 3 < leaf) :
    amd_cpuid4_switch hw leaf = .ok none := by
  obtain ⟨k, rfl⟩ : ∃ k, leaf = k + 4 := ⟨leaf - 4, by omega⟩
  simp [amd_cpuid4_switch]

theorem amd_cpuid4_type (hw : Hw) (leaf : Nat) (g : amd_geometry) (eax ebx ecx : Nat)
    (hs : amd_cpuid4_switch hw leaf = .ok (some g))
    (h : amd_cpuid4 hw leaf = .ok (eax, ebx, ecx)) :
    eax_type eax = types.getD leaf 0 % 2 ^ 5 := by
  unfold amd_cpuid4 at h
  rw [hs] at h
  dsimp only at h
  split at h
  · exact absurd h (by simp)
  · injection h with h
    injection h with h _
    subst h
    unfold eax_type
    split
    · rw [bitfield_set_read_below _ 9 1 _ 0 5 (by decide),
        bitfield_set_read_below _ 26 6 _ 0 5 (by decide),
        bitfield_set_read_below _ 14 12 _ 0 5 (by decide),
        bitfield_set_read_below _ 5 3 _ 0 5 (by decide), bitfield_set_same]
    · rw [bitfield_set_read_below _ 26 6 _ 0 5 (by decide),
        bitfield_set_read_below _ 14 12 _ 0 5 (by decide),
        bitfield_set_read_below _ 5 3 _ 0 5 (by decide), bitfield_set_same]

theorem amd_cpuid4_of_none (hw : Hw) (leaf : Nat) (h : amd_cpuid4_switch hw leaf = .ok none) :
    amd_cpuid4 hw leaf = .ok (0, 0, 0) := by
  unfold amd_cpuid4
  rw [h]

theorem amd_cpuid4_null (hw : Hw) (leaf eax ebx ecx : Nat) (hl : leaf ≤ 3)
    (h : amd_cpuid4 hw leaf = .ok (eax, ebx, ecx)) (ht : eax_type eax = CTYPE_NULL) :
    amd_geometry_reg hw leaf = 0 := by
  cases hs : amd_cpuid4_switch hw leaf with
  | error f =>
    unfold amd_cpuid4 at h
    rw [hs] at h
    exact absurd h (by simp)
  | ok o =>
    cases o with
    | none => exact (amd_cpuid4_switch_none_iff hw leaf hl).mp hs
    | some g =>
      have hty := amd_cpuid4_type hw leaf g eax ebx ecx hs h
      rw [ht] at hty
      have hcases : leaf = 0 ∨ leaf = 1 ∨ leaf = 2 ∨ leaf = 3 := by omega
      rcases hcases with h' | h' | h' | h' <;> subst h' <;> exact absurd hty (by decide)

theorem cpuid4_probe_legacy (hw : Hw) (index : Nat)
    (hboot : hw.x86_vendor = Vendor.X86_VENDOR_AMD) (htopo : hw.has_topoext = false) :
    cpuid4_probe hw index = amd_cpuid4 hw index := by
  unfold cpuid4_probe
  rw [if_pos hboot, htopo]
  simp

theorem lookup_eio_iff (hw : Hw) (index : Nat) (this_leaf : _cpuid4_info_regs) :
    (∃ r, cpuid4_cache_lookup_regs hw index this_leaf = .ok (- EIO, r)) ↔
      ∃ eax ebx ecx, cpuid4_probe hw index = .ok (eax, ebx, ecx) ∧ eax_type eax = CTYPE_NULL := by
  constructor
  · rintro ⟨r, hr⟩
    cases hp : cpuid4_probe hw index with
    | error f =>
      unfold cpuid4_cache_lookup_regs at hr
      rw [hp] at hr
      exact absurd hr (by simp)
    | ok p =>
      obtain ⟨eax, ebx, ecx⟩ := p
      refine ⟨eax, ebx, ecx, rfl, ?_⟩
      by_contra ht
      obtain ⟨r', hr', _⟩ := lookup_of_probe_present hw index this_leaf eax ebx ecx hp ht
      rw [hr'] at hr
      injection hr with hr
      injection hr with hr _
      exact absurd hr (by decide)
  · rintro ⟨eax, ebx, ecx, hp, ht⟩
    obtain ⟨r, hr, _⟩ := lookup_of_probe_null hw index this_leaf eax ebx ecx hp ht
    exact ⟨r, hr⟩

/-- C11: with the legacy emulated probe (AMD without TOPOEXT), for leaf index
0, 1, 2, 3 the leaf is reported not present (`amd_cpuid4` leaves
`eax = ebx = ecx = 0`, `cpuid4_cache_lookup_regs` returns `-EIO`) if and only
if the geometry register of that leaf (L1 data, L1 instruction, L2, L3) reads
as zero; for every other leaf index it is always reported not present. -/
theorem C11_legacy_not_present_iff_zero (hw : Hw) (leaf : Nat) (this_leaf : _cpuid4_info_regs)
    (hboot : hw.x86_vendor = Vendor.X86_VENDOR_AMD) (htopo : hw.has_topoext = false) :
    (leaf ≤ 3 →
      (amd_cpuid4 hw leaf = .ok (0, 0, 0) ↔ amd_geometry_reg hw leaf = 0) ∧
      ((∃ r, cpuid4_cache_lookup_regs hw leaf this_leaf = .ok (- EIO, r)) ↔
        amd_geometry_reg hw leaf = 0)) ∧
    (3 < leaf →
      amd_cpuid4 hw leaf = .ok (0, 0, 0) ∧
      ∃ r, cpuid4_cache_lookup_regs hw leaf this_leaf = .ok (- EIO, r)) := by
  have hprobe := cpuid4_probe_legacy hw leaf hboot htopo
  constructor
  · intro hl
    have hback : amd_geometry_reg hw leaf = 0 → amd_cpuid4 hw leaf = .ok (0, 0, 0) :=
      fun h => amd_cpuid4_of_none hw leaf ((amd_cpuid4_switch_none_iff hw leaf hl).mpr h)
    refine ⟨⟨fun h => amd_cpuid4_null hw leaf 0 0 0 hl h (by decide), hback⟩, ?_⟩
    rw [lookup_eio_iff, hprobe]
    constructor
    · rintro ⟨eax, ebx, ecx, h, ht⟩
      exact amd_cpuid4_null hw leaf eax ebx ecx hl h ht
    · intro h
      exact ⟨0, 0, 0, hback h, by decide⟩
  · intro hl
    have h0 := amd_cpuid4_of_none hw leaf (amd_cpuid4_switch_beyond hw leaf hl)
    refine ⟨h0, ?_⟩
    rw [lookup_eio_iff, hprobe]
    exact ⟨0, 0, 0, h0, by decide⟩

/-- Witness of C11: leaf 3 of `hw_amd_legacy`, whose L3 register is zero. -/
theorem C11_legacy_not_present_iff_zero_witness :
    (3 ≤ 3 →
      (amd_cpuid4 hw_amd_legacy 3 = .ok (0, 0, 0) ↔ amd_geometry_reg hw_amd_legacy 3 = 0) ∧
      ((∃ r, cpuid4_cache_lookup_regs hw_amd_legacy 3 _cpuid4_info_regs.zero =
          .ok (- EIO, r)) ↔
        amd_geometry_reg hw_amd_legacy 3 = 0)) ∧
    (3 < 3 →
      amd_cpuid4 hw_amd_legacy 3 = .ok (0, 0, 0) ∧
      ∃ r, cpuid4_cache_lookup_regs hw_amd_legacy 3 _cpuid4_info_regs.zero = .ok (- EIO, r)) :=
  C11_legacy_not_present_iff_zero hw_amd_legacy 3 _cpuid4_info_regs.zero rfl rfl

/-- On `hw_amd_legacy` leaf 3 is absent and leaf 2 is present. -/
theorem amd_legacy_leaf_presence :
    amd_geometry_reg hw_amd_legacy 3 = 0 ∧
      cpuid4_cache_lookup_regs hw_amd_legacy 3 _cpuid4_info_regs.zero =
        .ok (- EIO, _cpuid4_info_regs.zero) ∧
      amd_geometry_reg hw_amd_legacy 2 = 0x02006140 ∧
      (cpuid4_cache_lookup_regs hw_amd_legacy 2 _cpuid4_info_regs.zero).map (fun p => p.1) =
        .ok 0 := by
  refine ⟨by decide, rfl, by decide, rfl⟩

/-! ## The L3 index-disable slots -/

theorem and_two_pow_eq_zero_iff (x k : Nat) : x &&& 2 ^ k = 0 ↔ x.testBit k = false := by
  constructor
  · intro h
    have := congrArg (fun y => y.testBit k) h
    simpa [Nat.testBit_two_pow_self] using this
  · intro h
    apply Nat.eq_of_testBit_eq
    intro i
    rw [Nat.testBit_and, Nat.testBit_two_pow, Nat.zero_testBit]
    by_cases hk : k = i
    · subst hk; simp [h]
    · simp [hk]

theorem lor_eq_zero_iff (a b : Nat) : a ||| b = 0 ↔ a = 0 ∧ b = 0 := by
  constructor
  · intro h
    have hb : ∀ i, (a ||| b).testBit i = false := by intro i; rw [h]; exact Nat.zero_testBit i
    constructor <;> apply Nat.eq_of_testBit_eq <;> intro i <;>
      have := hb i <;> rw [Nat.testBit_or] at this <;> simp_all
  · rintro ⟨rfl, rfl⟩; rfl

theorem and_slot_mask_ne_zero_iff (reg : Nat) :
    reg &&& (3 <<< 30) ≠ 0 ↔ (reg.testBit 30 = true ∨ reg.testBit 31 = true) := by
  have h3 : (3 : Nat) <<< 30 = 2 ^ 30 ||| 2 ^ 31 := by decide
  rw [h3, Nat.and_or_distrib_left, Ne, lor_eq_zero_iff, and_two_pow_eq_zero_iff,
    and_two_pow_eq_zero_iff]
  cases reg.testBit 30 <;> cases reg.testBit 31 <;> simp

theorem amd_get_l3_disable_slot_spec (nb : amd_northbridge) (slot : Nat) :
    amd_get_l3_disable_slot nb slot =
      ((if l3_slot_occupied nb slot then ((l3_slot_index nb slot : Nat) : Int) else -1),
       { nb with
         trace := nb.trace ++ [nb_event.pci_read_config_dword (0x1BC + slot * 4)] }) := by
  unfold amd_get_l3_disable_slot pci_read_config_dword
  dsimp only
  by_cases h : l3_slot_occupied nb slot
  · have h1 := (and_slot_mask_ne_zero_iff (l3_slot_reg nb slot)).mpr h
    unfold l3_slot_reg at h1
    rw [if_pos h1, if_pos h]
    rfl
  · have h1 : ¬ (l3_slot_reg nb slot &&& (3 <<< 30) ≠ 0) :=
      fun h' => h ((and_slot_mask_ne_zero_iff _).mp h')
    unfold l3_slot_reg at h1
    rw [if_neg h1, if_neg h]

theorem l3_slot_index_lt (nb : amd_northbridge) (slot : Nat) : l3_slot_index nb slot < 4096 := by
  unfold l3_slot_index
  exact Nat.and_lt_two_pow _ (n := 12) (by decide)

theorem amd_set_l3_disable_slot_spec (nb : amd_northbridge) (cpu : Int) (slot index : Nat)
    (hind : nb.indices < 2 ^ 32) :
    amd_set_l3_disable_slot 64 nb cpu slot index =
      if l3_slot_occupied nb slot then
        (- EEXIST,
         { nb with trace := nb.trace ++ [nb_event.pci_read_config_dword (0x1BC + slot * 4)] })
      else if nb.indices < index then
        (- EINVAL,
         { nb with trace := nb.trace ++ [nb_event.pci_read_config_dword (0x1BC + slot * 4)] })
      else if l3_slot_occupied nb (lnot slot) ∧ l3_slot_index nb (lnot slot) = index then
        (- EEXIST,
         { nb with
           trace := nb.trace ++ [nb_event.pci_read_config_dword (0x1BC + slot * 4)] ++
             [nb_event.pci_read_config_dword (0x1BC + lnot slot * 4)] })
      else
        (0, amd_l3_disable_index
          { nb with
            trace := nb.trace ++ [nb_event.pci_read_config_dword (0x1BC + slot * 4)] ++
              [nb_event.pci_read_config_dword (0x1BC + lnot slot * 4)] } cpu slot index) := by
  unfold amd_set_l3_disable_slot
  rw [amd_get_l3_disable_slot_spec nb slot]
  dsimp only
  by_cases ho : l3_slot_occupied nb slot
  · have hge : ((l3_slot_index nb slot : Nat) : Int) ≥ 0 := Int.natCast_nonneg _
    rw [if_pos ho, if_pos hge, if_pos ho]
  · have hneg : ¬ ((-1 : Int) ≥ 0) := by decide
    rw [if_neg ho, if_neg hneg, if_neg ho]
    by_cases hi : index > nb.indices
    · rw [if_pos hi, if_pos hi]
    · rw [if_neg hi, if_neg hi, amd_get_l3_disable_slot_spec]
      dsimp only
      have hocc : l3_slot_occupied
          { nb with trace := nb.trace ++ [nb_event.pci_read_config_dword (0x1BC + slot * 4)] }
          (lnot slot) ↔ l3_slot_occupied nb (lnot slot) := Iff.rfl
      have hidx : l3_slot_index
          { nb with trace := nb.trace ++ [nb_event.pci_read_config_dword (0x1BC + slot * 4)] }
          (lnot slot) = l3_slot_index nb (lnot slot) := rfl
      have hlt := l3_slot_index_lt nb (lnot slot)
      rw [hidx]
      by_cases h2 : l3_slot_occupied nb (lnot slot)
      · rw [if_pos (hocc.mpr h2)]
        have hconv : int_to_ulong 64 ((l3_slot_index nb (lnot slot) : Nat) : Int) =
            l3_slot_index nb (lnot slot) := by
          unfold int_to_ulong
          have h64 : (2 : Int) ^ 64 = 18446744073709551616 := by decide
          rw [h64]
          omega
        rw [hconv]
        by_cases h3 : index = l3_slot_index nb (lnot slot)
        · rw [if_pos h3, if_pos ⟨h2, h3.symm⟩]
        · rw [if_neg h3, if_neg (fun h => h3 h.2.symm)]
      · rw [if_neg (fun h => h2 (hocc.mp h))]
        have hconv : int_to_ulong 64 (-1) = 18446744073709551615 := by decide
        have h32 : (2 : Nat) ^ 32 = 4294967296 := by decide
        have h3 : ¬ index = int_to_ulong 64 (-1) := by rw [hconv]; omega
        rw [if_neg h3, if_neg (fun h => h2 h.1)]

/-- C12: on a 64-bit kernel, `amd_set_l3_disable_slot(nb, cpu, slot, index)`
returns `-EEXIST` when the register of `slot` has bit 30 or bit 31 set;
otherwise `-EINVAL` when `index > l3_cache.indices`; otherwise `-EEXIST` when
the other slot (`!slot`) is occupied and the index stored in it equals
`index`; otherwise 0. Whenever it returns an error the configuration space is
as before and the only accesses made are register reads: no register is
written and no cache flush is issued. -/
theorem C12_set_slot_result (bits : Nat) (nb : amd_northbridge) (cpu : Int) (slot index : Nat)
    (hbits : bits = 64) (hind : nb.indices < 2 ^ 32) :
    (l3_slot_occupied nb slot →
      (amd_set_l3_disable_slot bits nb cpu slot index).1 = - EEXIST) ∧
    (¬ l3_slot_occupied nb slot → nb.indices < index →
      (amd_set_l3_disable_slot bits nb cpu slot index).1 = - EINVAL) ∧
    (¬ l3_slot_occupied nb slot → index ≤ nb.indices →
      (l3_slot_occupied nb (lnot slot) ∧ l3_slot_index nb (lnot slot) = index) →
      (amd_set_l3_disable_slot bits nb cpu slot index).1 = - EEXIST) ∧
    (¬ l3_slot_occupied nb slot → index ≤ nb.indices →
      ¬ (l3_slot_occupied nb (lnot slot) ∧ l3_slot_index nb (lnot slot) = index) →
      (amd_set_l3_disable_slot bits nb cpu slot index).1 = 0) ∧
    ((amd_set_l3_disable_slot bits nb cpu slot index).1 ≠ 0 →
      (amd_set_l3_disable_slot bits nb cpu slot index).2.misc = nb.misc ∧
      ∃ offsets : List Nat,
        (amd_set_l3_disable_slot bits nb cpu slot index).2.trace =
          nb.trace ++ offsets.map nb_event.pci_read_config_dword) := by
  subst hbits
  rw [amd_set_l3_disable_slot_spec nb cpu slot index hind]
  by_cases ho : l3_slot_occupied nb slot
  · rw [if_pos ho]
    exact ⟨fun _ => rfl, fun h => absurd ho h, fun h => absurd ho h, fun h => absurd ho h,
      fun _ => ⟨rfl, [0x1BC + slot * 4], rfl⟩⟩
  · rw [if_neg ho]
    by_cases hi : nb.indices < index
    · rw [if_pos hi]
      exact ⟨fun h => absurd h ho, fun _ _ => rfl, fun _ h => absurd hi (by omega),
        fun _ h => absurd hi (by omega), fun _ => ⟨rfl, [0x1BC + slot * 4], rfl⟩⟩
    · rw [if_neg hi]
      by_cases hc : l3_slot_occupied nb (lnot slot) ∧ l3_slot_index nb (lnot slot) = index
      · rw [if_pos hc]
        exact ⟨fun h => absurd h ho, fun _ h => absurd h hi, fun _ _ _ => rfl,
          fun _ _ h => absurd hc h,
          fun _ => ⟨rfl, [0x1BC + slot * 4, 0x1BC + lnot slot * 4], by simp⟩⟩
      · rw [if_neg hc]
        exact ⟨fun h => absurd h ho, fun _ h => absurd h hi, fun _ _ h => absurd h hc,
          fun _ _ _ => rfl, fun h => absurd rfl h⟩

/-- Witness of C12: on `nb_calc` (both slots free, bound 2047) index 5 is
accepted on slot 0 and index 9000 is refused with `-EINVAL`. -/
theorem C12_set_slot_result_witness :
    (amd_set_l3_disable_slot 64 nb_calc 0 0 5).1 = 0 ∧
      (amd_set_l3_disable_slot 64 nb_calc 0 0 9000).1 = - EINVAL :=
  ⟨(C12_set_slot_result 64 nb_calc 0 0 5 rfl (by decide)).2.2.2.1
      (by decide) (by decide) (by decide),
   (C12_set_slot_result 64 nb_calc 0 0 9000 rfl (by decide)).2.1 (by decide) (by decide)⟩

theorem lnot_le_one (x : Nat) : lnot x ≤ 1 := by
  unfold lnot; split <;> omega

theorem amd_calc_l3_indices_frame (x86 : Nat) (nb : amd_northbridge) :
    (amd_calc_l3_indices x86 nb).misc = nb.misc ∧
      (amd_calc_l3_indices x86 nb).trace =
        nb.trace ++ [nb_event.pci_read_config_dword 0x1C4] := ⟨rfl, rfl⟩

theorem amd_calc_l3_indices_bound (x86 : Nat) (nb : amd_northbridge)
    (hsub : ∃ k, k < 4 ∧ (amd_calc_l3_indices x86 nb).subcaches k ≠ 0) :
    (amd_calc_l3_indices x86 nb).indices ≤ 2047 := by
  obtain ⟨k, hk, hne⟩ := hsub
  unfold amd_calc_l3_indices at hne ⊢
  dsimp only at hne ⊢
  have h0 := lnot_le_one ((pci_read_config_dword nb 0x1C4).1 &&& BIT 0)
  have h1 := lnot_le_one ((pci_read_config_dword nb 0x1C4).1 &&& BIT 1)
  have h4 := lnot_le_one ((pci_read_config_dword nb 0x1C4).1 &&& BIT 4)
  have h5 := lnot_le_one ((pci_read_config_dword nb 0x1C4).1 &&& BIT 5)
  have h8 := lnot_le_one ((pci_read_config_dword nb 0x1C4).1 &&& BIT 8)
  have h9 := lnot_le_one ((pci_read_config_dword nb 0x1C4).1 &&& BIT 9)
  have h12 := lnot_le_one ((pci_read_config_dword nb 0x1C4).1 &&& BIT 12)
  have h13 := lnot_le_one ((pci_read_config_dword nb 0x1C4).1 &&& BIT 13)
  generalize lnot ((pci_read_config_dword nb 0x1C4).1 &&& BIT 0) = a0 at *
  generalize lnot ((pci_read_config_dword nb 0x1C4).1 &&& BIT 1) = a1 at *
  generalize lnot ((pci_read_config_dword nb 0x1C4).1 &&& BIT 4) = a4 at *
  generalize lnot ((pci_read_config_dword nb 0x1C4).1 &&& BIT 5) = a5 at *
  generalize lnot ((pci_read_config_dword nb 0x1C4).1 &&& BIT 8) = a8 at *
  generalize lnot ((pci_read_config_dword nb 0x1C4).1 &&& BIT 9) = a9 at *
  generalize lnot ((pci_read_config_dword nb 0x1C4).1 &&& BIT 12) = a12 at *
  generalize lnot ((pci_read_config_dword nb 0x1C4).1 &&& BIT 13) = a13 at *
  have hk4 : k = 0 ∨ k = 1 ∨ k = 2 ∨ k = 3 := by omega
  rw [Nat.shiftLeft_eq]
  unfold usub32 u32
  have hpow : (2 : Nat) ^ 10 = 1024 := by decide
  have hpow32 : (2 : Nat) ^ 32 = 4294967296 := by decide
  rw [hpow, hpow32]
  by_cases hx : x86 = 0x15
  · simp only [hx, if_true] at hne ⊢
    rcases hk4 with h | h | h | h <;> subst h <;> simp at hne <;> omega
  · simp only [hx, if_false] at hne ⊢
    rcases hk4 with h | h | h | h <;> subst h <;> simp at hne <;> omega

theorem l3_slot_final_spec (idx i : Nat) (hidx : idx < 4096) :
    (l3_slot_final idx i).testBit 31 = true ∧ l3_slot_final idx i &&& 0xfff = idx ∧
      u32 (l3_slot_final idx i) = l3_slot_final idx i := by
  have hb30 : BIT 30 = 2 ^ 30 := by decide
  have hb31 : BIT 31 = 2 ^ 31 := by decide
  refine ⟨?_, ?_, ?_⟩
  · unfold l3_slot_final u32
    rw [hb31, Nat.testBit_mod_two_pow, Nat.testBit_or, Nat.testBit_two_pow_self]
    simp
  · have hm : (0xfff : Nat) = 2 ^ 12 - 1 := by decide
    rw [hm, Nat.and_pow_two_sub_one_eq_mod]
    apply Nat.eq_of_testBit_eq
    intro j
    unfold l3_slot_final u32
    rw [hb30, hb31]
    simp only [Nat.testBit_mod_two_pow, Nat.testBit_or, Nat.testBit_two_pow,
      Nat.testBit_shiftLeft]
    by_cases hj : j < 12
    · have h1 : ¬ (30 = j) := by omega
      have h2 : ¬ (31 = j) := by omega
      have h3 : ¬ (j ≥ 20) := by omega
      have h4 : j < 32 := by omega
      simp [hj, h1, h2, h3, h4]
    · have hlt : idx < 2 ^ j :=
        Nat.lt_of_lt_of_le hidx (by
          have : (4096 : Nat) = 2 ^ 12 := by decide
          rw [this]
          exact Nat.pow_le_pow_right (by decide) (by omega))
      simp [hj, Nat.testBit_lt_two_pow hlt]
  · unfold l3_slot_final u32
    exact Nat.mod_mod _ _

theorem amd_l3_disable_index_body_spec (cpu : Int) (slot idx : Nat) (nb : amd_northbridge)
    (i : Nat) :
    (amd_l3_disable_index_body cpu slot idx nb i).subcaches = nb.subcaches ∧
      (amd_l3_disable_index_body cpu slot idx nb i).indices = nb.indices ∧
      (∀ o, o ≠ 0x1BC + slot * 4 →
        (amd_l3_disable_index_body cpu slot idx nb i).misc o = nb.misc o) ∧
      (nb.subcaches i = 0 → amd_l3_disable_index_body cpu slot idx nb i = nb) ∧
      (nb.subcaches i ≠ 0 →
        (amd_l3_disable_index_body cpu slot idx nb i).misc (0x1BC + slot * 4) =
          u32 (u32 (u32 (idx ||| (i <<< 20)) ||| BIT 31))) := by
  unfold amd_l3_disable_index_body
  dsimp only
  by_cases h : nb.subcaches i = 0
  · rw [if_pos h]
    exact ⟨rfl, rfl, fun _ _ => rfl, fun _ => rfl, fun hn => absurd h hn⟩
  · rw [if_neg h]
    refine ⟨rfl, rfl, ?_, fun h0 => absurd h0 h, fun _ => ?_⟩
    · intro o ho
      simp [pci_write_config_dword, wbinvd_on_cpu, ho]
    · simp [pci_write_config_dword, wbinvd_on_cpu]

theorem amd_l3_disable_index_fold (cpu : Int) (slot idx : Nat) :
    ∀ (L : List Nat) (nb : amd_northbridge),
      (L.foldl (amd_l3_disable_index_body cpu slot idx) nb).subcaches = nb.subcaches ∧
      (L.foldl (amd_l3_disable_index_body cpu slot idx) nb).indices = nb.indices ∧
      (∀ o, o ≠ 0x1BC + slot * 4 →
        (L.foldl (amd_l3_disable_index_body cpu slot idx) nb).misc o = nb.misc o) ∧
      ((∀ k, k ∈ L → nb.subcaches k = 0) →
        L.foldl (amd_l3_disable_index_body cpu slot idx) nb = nb) ∧
      ((∃ k, k ∈ L ∧ nb.subcaches k ≠ 0) →
        ∃ k, k ∈ L ∧
          (L.foldl (amd_l3_disable_index_body cpu slot idx) nb).misc (0x1BC + slot * 4) =
            u32 (u32 (u32 (idx ||| (k <<< 20)) ||| BIT 31))) := by
  intro L
  induction L with
  | nil =>
    intro nb
    exact ⟨rfl, rfl, fun _ _ => rfl, fun _ => rfl, fun ⟨k, hk, _⟩ => absurd hk (by simp)⟩
  | cons a L ih =>
    intro nb
    rw [List.foldl_cons]
    obtain ⟨b1, b2, b3, b4, b5⟩ := amd_l3_disable_index_body_spec cpu slot idx nb a
    obtain ⟨i1, i2, i3, i4, i5⟩ := ih (amd_l3_disable_index_body cpu slot idx nb a)
    refine ⟨i1.trans b1, i2.trans b2, fun o ho => (i3 o ho).trans (b3 o ho), ?_, ?_⟩
    · intro hall
      rw [b4 (hall a (List.mem_cons_self a L))]
      have := (ih nb).2.2.2.1 (fun k hk => hall k (List.mem_cons_of_mem a hk))
      exact this
    · rintro ⟨k, hk, hne⟩
      by_cases hL : ∃ k, k ∈ L ∧ nb.subcaches k ≠ 0
      · obtain ⟨k', hk', hne'⟩ := hL
        obtain ⟨k2, hk2, h2⟩ := i5 ⟨k', hk', by rw [b1]; exact hne'⟩
        exact ⟨k2, List.mem_cons_of_mem a hk2, h2⟩
      · have hall : ∀ k, k ∈ L → nb.subcaches k = 0 := by
          intro k' hk'
          by_contra hc
          exact hL ⟨k', hk', hc⟩
        have ha : nb.subcaches a ≠ 0 := by
          rcases List.mem_cons.mp hk with h | h
          · subst h; exact hne
          · exact absurd (hall k h) hne
        rw [i4 (fun k' hk' => by rw [b1]; exact hall k' hk')]
        exact ⟨a, List.mem_cons_self a L, b5 ha⟩

theorem lnot_of_le_one (s : Nat) (hs : s ≤ 1) :
    lnot s ≤ 1 ∧ lnot (lnot s) = s ∧ 0x1BC + lnot s * 4 ≠ 0x1BC + s * 4 := by
  have h : s = 0 ∨ s = 1 := by omega
  rcases h with h | h <;> subst h <;> decide

theorem l3_slot_free_of_misc (nb nb' : amd_northbridge) (slot : Nat)
    (h : nb'.misc (0x1BC + slot * 4) = nb.misc (0x1BC + slot * 4)) :
    l3_slot_reg nb' slot = l3_slot_reg nb slot ∧
      (l3_slot_occupied nb' slot ↔ l3_slot_occupied nb slot) := by
  have h1 : l3_slot_reg nb' slot = l3_slot_reg nb slot := by
    unfold l3_slot_reg; rw [h]
  refine ⟨h1, ?_⟩
  unfold l3_slot_occupied
  rw [h1]

theorem show_cache_disable_spec (nb : amd_northbridge) (slot : Nat) :
    (show_cache_disable nb slot).1 =
      if l3_slot_occupied nb slot then toString (l3_slot_index nb slot) ++ "\n"
      else "FREE\n" := by
  unfold show_cache_disable
  rw [amd_get_l3_disable_slot_spec]
  dsimp only
  by_cases h : l3_slot_occupied nb slot
  · rw [if_pos h, if_pos h, if_pos (Int.natCast_nonneg _)]
    rfl
  · rw [if_neg h, if_neg h, if_neg (by decide)]

theorem amd_set_l3_disable_slot_success (nb : amd_northbridge) (cpu : Int) (s i : Nat)
    (hs : s ≤ 1) (hfree : ¬ l3_slot_occupied nb s) (hother : ¬ l3_slot_occupied nb (lnot s))
    (hind : nb.indices ≤ 2047) (hi : i ≤ nb.indices)
    (hsub : ∃ k, k < 4 ∧ nb.subcaches k ≠ 0) :
    (amd_set_l3_disable_slot 64 nb cpu s i).1 = 0 ∧
      (amd_set_l3_disable_slot 64 nb cpu s i).2.indices = nb.indices ∧
      l3_slot_occupied (amd_set_l3_disable_slot 64 nb cpu s i).2 s ∧
      l3_slot_index (amd_set_l3_disable_slot 64 nb cpu s i).2 s = i ∧
      ¬ l3_slot_occupied (amd_set_l3_disable_slot 64 nb cpu s i).2 (lnot s) := by
  have h32 : (2 : Nat) ^ 32 = 4294967296 := by decide
  rw [amd_set_l3_disable_slot_spec nb cpu s i (by omega), if_neg hfree,
    if_neg (by omega), if_neg (fun h => hother h.1)]
  dsimp only
  unfold amd_l3_disable_index
  dsimp only
  obtain ⟨f1, f2, f3, _, f5⟩ := amd_l3_disable_index_fold cpu s (i ||| BIT 30) (List.range 4)
    { nb with
      trace := nb.trace ++ [nb_event.pci_read_config_dword (0x1BC + s * 4)] ++
        [nb_event.pci_read_config_dword (0x1BC + lnot s * 4)] }
  obtain ⟨k, hk, hne⟩ := hsub
  obtain ⟨k', _, hreg⟩ := f5 ⟨k, List.mem_range.mpr hk, hne⟩
  have hfin : u32 (u32 (u32 (i ||| BIT 30 ||| k' <<< 20) ||| BIT 31)) = l3_slot_final i k' := by
    unfold l3_slot_final
    exact Nat.mod_mod _ _
  rw [hfin] at hreg
  obtain ⟨g1, g2, g3⟩ := l3_slot_final_spec i k' (by omega)
  have hslot : l3_slot_reg
      (List.foldl (amd_l3_disable_index_body cpu s (i ||| BIT 30))
        { nb with
          trace := nb.trace ++ [nb_event.pci_read_config_dword (0x1BC + s * 4)] ++
            [nb_event.pci_read_config_dword (0x1BC + lnot s * 4)] } (List.range 4)) s =
      l3_slot_final i k' := by
    unfold l3_slot_reg
    rw [hreg, g3]
  refine ⟨rfl, f2, ?_, ?_, ?_⟩
  · unfold l3_slot_occupied
    rw [hslot]
    exact Or.inr g1
  · unfold l3_slot_index
    rw [hslot]
    exact g2
  · have hoff := (lnot_of_le_one s hs).2.2
    have := (l3_slot_free_of_misc nb _ (lnot s) (f3 _ hoff)).2
    rw [this]
    exact hother

/-- C13, as stated, fails: when register `0x1C4` reports every subcache
disabled the computed bound is `0xFFFFFFFF`, `amd_set_l3_disable_slot` accepts
index 5 on the free slot 0 but writes nothing, so reading slot 0 still yields
"FREE" and disabling index 5 on slot 1 succeeds as well. -/
theorem C13_slot_scenario_counterexample :
    ¬ (∀ (x86 : Nat) (nb0 : amd_northbridge) (cpu : Int) (s i : Nat),
        ¬ l3_slot_occupied nb0 0 → ¬ l3_slot_occupied nb0 1 → s ≤ 1 →
        i ≤ (amd_calc_l3_indices x86 nb0).indices →
        (amd_set_l3_disable_slot 64 (amd_calc_l3_indices x86 nb0) cpu s i).1 = 0 →
        (show_cache_disable
            (amd_set_l3_disable_slot 64 (amd_calc_l3_indices x86 nb0) cpu s i).2 s).1 =
          toString i ++ "\n" ∧
        (amd_set_l3_disable_slot 64
            (amd_set_l3_disable_slot 64 (amd_calc_l3_indices x86 nb0) cpu s i).2
            cpu (lnot s) i).1 = - EEXIST) := by
  intro h
  have h1 := (h 0x10 nb_no_subcaches 0 0 5 (by decide) (by decide) (by decide) (by decide)
    (by decide)).2
  revert h1
  decide

/-- C13, amended: starting from a state in which both disable slots are free
and at least one subcache is enabled (so that the computed bound is 1023 or
2047), for every index `i` within the computed bound and slot `s`:
`amd_set_l3_disable_slot` succeeds for `i` on `s`; afterwards reading slot `s`
(`show_cache_disable`) yields `i` in decimal and reading the other slot yields
"FREE"; disabling the same index on the other slot then fails with `-EEXIST`;
disabling an index `j` above the bound on a free slot fails with `-EINVAL`
(before and after); and reading a slot never written yields "FREE". -/
theorem C13_slot_scenario (x86 : Nat) (nb0 : amd_northbridge) (cpu : Int) (s i j : Nat)
    (hfree0 : ¬ l3_slot_occupied nb0 0) (hfree1 : ¬ l3_slot_occupied nb0 1) (hs : s ≤ 1)
    (hsub : ∃ k, k < 4 ∧ (amd_calc_l3_indices x86 nb0).subcaches k ≠ 0)
    (hi : i ≤ (amd_calc_l3_indices x86 nb0).indices)
    (hj : (amd_calc_l3_indices x86 nb0).indices < j) :
    (amd_set_l3_disable_slot 64 (amd_calc_l3_indices x86 nb0) cpu s i).1 = 0 ∧
    (show_cache_disable
        (amd_set_l3_disable_slot 64 (amd_calc_l3_indices x86 nb0) cpu s i).2 s).1 =
      toString i ++ "\n" ∧
    (show_cache_disable
        (amd_set_l3_disable_slot 64 (amd_calc_l3_indices x86 nb0) cpu s i).2 (lnot s)).1 =
      "FREE\n" ∧
    (amd_set_l3_disable_slot 64
        (amd_set_l3_disable_slot 64 (amd_calc_l3_indices x86 nb0) cpu s i).2
        cpu (lnot s) i).1 = - EEXIST ∧
    (amd_set_l3_disable_slot 64 (amd_calc_l3_indices x86 nb0) cpu s j).1 = - EINVAL ∧
    (amd_set_l3_disable_slot 64
        (amd_set_l3_disable_slot 64 (amd_calc_l3_indices x86 nb0) cpu s i).2
        cpu (lnot s) j).1 = - EINVAL ∧
    (show_cache_disable (amd_calc_l3_indices x86 nb0) s).1 = "FREE\n" := by
  have hfree : ∀ t, t ≤ 1 → ¬ l3_slot_occupied (amd_calc_l3_indices x86 nb0) t := by
    intro t ht
    have hm := (l3_slot_free_of_misc nb0 (amd_calc_l3_indices x86 nb0) t rfl).2
    rw [hm]
    have h : t = 0 ∨ t = 1 := by omega
    rcases h with h | h <;> subst h <;> assumption
  obtain ⟨hl1, hl2, _⟩ := lnot_of_le_one s hs
  have hbound := amd_calc_l3_indices_bound x86 nb0 hsub
  have h32 : (2 : Nat) ^ 32 = 4294967296 := by decide
  obtain ⟨r1, r2, r3, r4, r5⟩ := amd_set_l3_disable_slot_success
    (amd_calc_l3_indices x86 nb0) cpu s i hs (hfree s hs) (hfree (lnot s) hl1) hbound hi hsub
  have c12a := amd_set_l3_disable_slot_spec
    (amd_set_l3_disable_slot 64 (amd_calc_l3_indices x86 nb0) cpu s i).2 cpu (lnot s) i
    (by rw [r2]; omega)
  have c12b := amd_set_l3_disable_slot_spec (amd_calc_l3_indices x86 nb0) cpu s j (by omega)
  have c12c := amd_set_l3_disable_slot_spec
    (amd_set_l3_disable_slot 64 (amd_calc_l3_indices x86 nb0) cpu s i).2 cpu (lnot s) j
    (by rw [r2]; omega)
  refine ⟨r1, ?_, ?_, ?_, ?_, ?_, ?_⟩
  · rw [show_cache_disable_spec, if_pos r3, r4]
  · rw [show_cache_disable_spec, if_neg r5]
  · rw [c12a, if_neg r5, if_neg (by rw [r2]; omega), hl2, if_pos ⟨r3, r4⟩]
  · rw [c12b, if_neg (hfree s hs), if_pos hj]
  · rw [c12c, if_neg r5, if_pos (by rw [r2]; exact hj)]
  · rw [show_cache_disable_spec, if_neg (hfree s hs)]

/-- Witness of C13 (amended): index 5 on slot 0 of `nb_fresh`, then index 5
and index 9000 on slot 1. -/
theorem C13_slot_scenario_witness :
    (amd_set_l3_disable_slot 64 (amd_calc_l3_indices 0x10 nb_fresh) 0 0 5).1 = 0 ∧
    (show_cache_disable
        (amd_set_l3_disable_slot 64 (amd_calc_l3_indices 0x10 nb_fresh) 0 0 5).2 0).1 =
      toString 5 ++ "\n" ∧
    (show_cache_disable
        (amd_set_l3_disable_slot 64 (amd_calc_l3_indices 0x10 nb_fresh) 0 0 5).2 (lnot 0)).1 =
      "FREE\n" ∧
    (amd_set_l3_disable_slot 64
        (amd_set_l3_disable_slot 64 (amd_calc_l3_indices 0x10 nb_fresh) 0 0 5).2
        0 (lnot 0) 5).1 = - EEXIST ∧
    (amd_set_l3_disable_slot 64 (amd_calc_l3_indices 0x10 nb_fresh) 0 0 9000).1 = - EINVAL ∧
    (amd_set_l3_disable_slot 64
        (amd_set_l3_disable_slot 64 (amd_calc_l3_indices 0x10 nb_fresh) 0 0 5).2
        0 (lnot 0) 9000).1 = - EINVAL ∧
    (show_cache_disable (amd_calc_l3_indices 0x10 nb_fresh) 0).1 = "FREE\n" :=
  C13_slot_scenario 0x10 nb_fresh 0 0 5 9000 (by decide) (by decide) (by decide)
    ⟨0, by decide, by decide⟩ (by decide) (by decide)

/-- With every subcache reported disabled the bound wraps to `0xFFFFFFFF`,
setting index 5 on slot 0 returns 0 and the slot still reads "FREE". -/
theorem nb_no_subcaches_slot_stays_free :
    (amd_calc_l3_indices 0x10 nb_no_subcaches).indices = 0xFFFFFFFF ∧
      (amd_set_l3_disable_slot 64 (amd_calc_l3_indices 0x10 nb_no_subcaches) 0 0 5).1 = 0 ∧
      (show_cache_disable
        (amd_set_l3_disable_slot 64 (amd_calc_l3_indices 0x10 nb_no_subcaches) 0 0 5).2 0).1 =
        "FREE\n" := by
  refine ⟨by decide, by decide, by decide⟩

/-! ## Authorisation of the writes to the L3 controls -/

theorem ulong_to_long_of_lt (bits count : Nat) (h : count < 2 ^ (bits - 1)) :
    ulong_to_long bits count = (count : Int) := by
  have hle : 2 ^ (bits - 1) ≤ 2 ^ bits := Nat.pow_le_pow_right (by decide) (Nat.sub_le _ _)
  have hmod : count % 2 ^ bits = count := Nat.mod_eq_of_lt (Nat.lt_of_lt_of_le h hle)
  unfold ulong_to_long
  rw [hmod, if_pos h]

/-- C14: without the capability (`capable(CAP_SYS_ADMIN)` false)
`store_cache_disable` and `subcaches_store` return `-EPERM` for every input
and leave the north bridge and the record of accesses unchanged (no register
read, no register write, no cache flush); with the capability
`store_cache_disable` returns `-EINVAL` when `kstrtoul(buf, 10, ..)` fails,
the error of `amd_set_l3_disable_slot` when that fails, and the byte count
`count` otherwise. -/
theorem C14_store_requires_capability (bits : Nat) (capable : Bool)
    (kstrtoul : String → Nat → Option Nat)
    (amd_set_subcaches : Int → Nat → amd_northbridge → Int × amd_northbridge)
    (nr_cpu_ids : Nat) (shared_cpu_map : cpumask) (nb : amd_northbridge)
    (buf : String) (count slot : Nat) :
    (capable = false →
      store_cache_disable bits capable kstrtoul nr_cpu_ids shared_cpu_map nb buf count slot =
        (- EPERM, nb) ∧
      subcaches_store bits capable kstrtoul amd_set_subcaches nr_cpu_ids shared_cpu_map nb
        buf count = (- EPERM, nb)) ∧
    (capable = true →
      (kstrtoul buf 10 = none →
        (store_cache_disable bits capable kstrtoul nr_cpu_ids shared_cpu_map nb buf count
          slot).1 = - EINVAL) ∧
      (∀ val, kstrtoul buf 10 = some val →
        ((amd_set_l3_disable_slot bits nb
            (cpumask_first nr_cpu_ids shared_cpu_map : Int) slot val).1 ≠ 0 →
          (store_cache_disable bits capable kstrtoul nr_cpu_ids shared_cpu_map nb buf count
            slot).1 =
            (amd_set_l3_disable_slot bits nb
              (cpumask_first nr_cpu_ids shared_cpu_map : Int) slot val).1) ∧
        ((amd_set_l3_disable_slot bits nb
            (cpumask_first nr_cpu_ids shared_cpu_map : Int) slot val).1 = 0 →
          (store_cache_disable bits capable kstrtoul nr_cpu_ids shared_cpu_map nb buf count
            slot).1 = ulong_to_long bits count ∧
          (count < 2 ^ (bits - 1) →
            (store_cache_disable bits capable kstrtoul nr_cpu_ids shared_cpu_map nb buf count
              slot).1 = (count : Int))))) := by
  constructor
  · intro hc
    subst hc
    exact ⟨rfl, rfl⟩
  · intro hc
    subst hc
    constructor
    · intro hk
      unfold store_cache_disable
      rw [hk]
      rfl
    · intro val hk
      unfold store_cache_disable
      rw [hk]
      dsimp only
      constructor
      · intro he
        simp only [Bool.not_true, Bool.false_eq_true, if_false]
        rw [if_pos he]
      · intro he
        simp only [Bool.not_true, Bool.false_eq_true, if_false]
        rw [if_neg (fun h => h he)]
        exact ⟨rfl, fun hlt => ulong_to_long_of_lt bits count hlt⟩

/-- Witness for C14: an unprivileged write of "5" to slot 0 and to the
subcaches attribute returns `-EPERM` and leaves the north bridge untouched. -/
theorem C14_store_requires_capability_witness :
    store_cache_disable 64 false (fun s _ => if s = "5" then some 5 else none) 4
        (fun c => decide (c = 0)) nb_fresh "5" 2 0 = (- EPERM, nb_fresh) ∧
      subcaches_store 64 false (fun s _ => if s = "5" then some 5 else none)
        (fun _ _ nb => (0, nb)) 4 (fun c => decide (c = 0)) nb_fresh "5" 2 =
        (- EPERM, nb_fresh) :=
  (C14_store_requires_capability 64 false (fun s _ => if s = "5" then some 5 else none)
    (fun _ _ nb => (0, nb)) 4 (fun c => decide (c = 0)) nb_fresh "5" 2 0).1 rfl

/-! ## Entering and leaving the no-fill cache mode -/

theorem lor_land_self (x m : Nat) : (x ||| m) &&& m = m := by
  apply Nat.eq_of_testBit_eq
  intro i
  rw [Nat.testBit_and, Nat.testBit_or]
  cases x.testBit i <;> cases m.testBit i <;> rfl

theorem and_not_lor (x m : Nat) : and_not (x ||| m) m = and_not x m := by
  apply Nat.eq_of_testBit_eq
  intro i
  unfold and_not
  simp only [Nat.testBit_xor, Nat.testBit_and, Nat.testBit_or]
  cases x.testBit i <;> cases m.testBit i <;> rfl

theorem and_not_land (x m : Nat) : and_not x m &&& m = 0 := by
  apply Nat.eq_of_testBit_eq
  intro i
  unfold and_not
  simp only [Nat.testBit_xor, Nat.testBit_and, Nat.zero_testBit]
  cases x.testBit i <;> cases m.testBit i <;> rfl

theorem cache_disable_spec (cfg : cache_ctl) (cpu : Nat) (st : cache_state)
    (hfree : st.cache_disable_lock = false) :
    ∃ st1, cache_disable cfg cpu st = some st1 ∧
      st1.cache_disable_lock = true ∧
      st1.cr0 cpu = st.cr0 cpu ||| cfg.X86_CR0_CD ∧
      st1.cr4 cpu = (if cfg.has_pge then and_not (st.cr4 cpu) cfg.X86_CR4_PGE else st.cr4 cpu) ∧
      (cfg.has_pge = true → st1.saved_cr4 = st.cr4 cpu) ∧
      st1.cache_aps_delayed_init = st.cache_aps_delayed_init ∧
      st1.cpu_cacheinfo_mask = st.cpu_cacheinfo_mask ∧
      st1.trace = st.trace ++ cache_disable_events cfg cpu := by
  unfold cache_disable
  rw [hfree]
  refine ⟨_, rfl, ?_⟩
  cases hs : cfg.has_selfsnoop <;> cases hp : cfg.has_pge <;> cases hm : cfg.has_mtrr <;>
    simp [cache_log, write_cr0, write_cr4, cache_disable_events, hs, hp, hm]

theorem cache_enable_spec (cfg : cache_ctl) (cpu : Nat) (st : cache_state) :
    (cache_enable cfg cpu st).cache_disable_lock = false ∧
      (cache_enable cfg cpu st).cr0 cpu = and_not (st.cr0 cpu) cfg.X86_CR0_CD ∧
      (cache_enable cfg cpu st).cr4 cpu = (if cfg.has_pge then st.saved_cr4 else st.cr4 cpu) ∧
      (cache_enable cfg cpu st).cache_aps_delayed_init = st.cache_aps_delayed_init ∧
      (cache_enable cfg cpu st).cpu_cacheinfo_mask = st.cpu_cacheinfo_mask ∧
      (cache_enable cfg cpu st).trace = st.trace ++ cache_enable_events cfg cpu := by
  unfold cache_enable
  cases hp : cfg.has_pge <;> cases hm : cfg.has_mtrr <;>
    simp [cache_log, write_cr0, write_cr4, cache_enable_events, hp, hm]

/-- C15: from a state with the lock free, for every CR0 and CR4 value and
every feature setting, `cache_disable` returns with the lock held, CR0.CD set
and, when the PGE feature is enabled, CR4.PGE clear; and for every state the
hooks in between leave (CR0, CR4 of the processor and `saved_cr4` untouched),
`cache_enable` leaves CR4 equal to its value before `cache_disable`, CR0 equal
to its prior value with the CD bit cleared, and the lock released. -/
theorem C15_disable_enable_round_trip (cfg : cache_ctl) (cpu : Nat) (st : cache_state)
    (hfree : st.cache_disable_lock = false) :
    ∃ st1, cache_disable cfg cpu st = some st1 ∧
      st1.cache_disable_lock = true ∧
      st1.cr0 cpu &&& cfg.X86_CR0_CD = cfg.X86_CR0_CD ∧
      (cfg.has_pge = true → st1.cr4 cpu &&& cfg.X86_CR4_PGE = 0) ∧
      ∀ mid : cache_state, mid.cr0 cpu = st1.cr0 cpu → mid.cr4 cpu = st1.cr4 cpu →
        mid.saved_cr4 = st1.saved_cr4 →
        (cache_enable cfg cpu mid).cr4 cpu = st.cr4 cpu ∧
        (cache_enable cfg cpu mid).cr0 cpu = and_not (st.cr0 cpu) cfg.X86_CR0_CD ∧
        (cache_enable cfg cpu mid).cache_disable_lock = false := by
  obtain ⟨st1, h1, hlock, hcr0, hcr4, hsaved, _, _, _⟩ := cache_disable_spec cfg cpu st hfree
  refine ⟨st1, h1, hlock, ?_, ?_, ?_⟩
  · rw [hcr0, lor_land_self]
  · intro hp
    rw [hcr4, if_pos hp, and_not_land]
  · intro mid m0 m4 ms
    obtain ⟨e1, e2, e3, _⟩ := cache_enable_spec cfg cpu mid
    refine ⟨?_, ?_, e1⟩
    · rw [e3]
      by_cases hp : cfg.has_pge = true
      · rw [if_pos hp, ms, hsaved hp]
      · rw [if_neg hp, m4, hcr4, if_neg hp]
    · rw [e2, m0, hcr0, and_not_lor]

/-- Witness of C15: processor 0 of `cache_state_boot` under `cfg_mtrr_pat`. -/
theorem C15_disable_enable_round_trip_witness :
    ∃ st1, cache_disable cfg_mtrr_pat 0 cache_state_boot = some st1 ∧
      st1.cache_disable_lock = true ∧
      st1.cr0 0 &&& cfg_mtrr_pat.X86_CR0_CD = cfg_mtrr_pat.X86_CR0_CD ∧
      (cfg_mtrr_pat.has_pge = true → st1.cr4 0 &&& cfg_mtrr_pat.X86_CR4_PGE = 0) ∧
      ∀ mid : cache_state, mid.cr0 0 = st1.cr0 0 → mid.cr4 0 = st1.cr4 0 →
        mid.saved_cr4 = st1.saved_cr4 →
        (cache_enable cfg_mtrr_pat 0 mid).cr4 0 = cache_state_boot.cr4 0 ∧
        (cache_enable cfg_mtrr_pat 0 mid).cr0 0 =
          and_not (cache_state_boot.cr0 0) cfg_mtrr_pat.X86_CR0_CD ∧
        (cache_enable cfg_mtrr_pat 0 mid).cache_disable_lock = false :=
  C15_disable_enable_round_trip cfg_mtrr_pat 0 cache_state_boot rfl

/-! ## Per-processor bring-up: `cache_cpu_init` -/

theorem cache_cpu_init_spec (cfg : cache_ctl) (cpu : Nat) (st : cache_state)
    (hfree : st.cache_disable_lock = false) :
    ∃ st', cache_cpu_init cfg cpu st = some st' ∧
      st'.cache_disable_lock = false ∧
      st'.cache_aps_delayed_init = st.cache_aps_delayed_init ∧
      st'.cpu_cacheinfo_mask = st.cpu_cacheinfo_mask ∧
      st'.trace = st.trace ++ ([cache_event.local_irq_save cpu] ++
        (if cfg.memory_caching_control &&& cfg.CACHE_MTRR ≠ 0 then
          cache_disable_events cfg cpu ++ [cache_event.mtrr_generic_set_state cpu] ++
            cache_enable_events cfg cpu
         else []) ++
        (if cfg.memory_caching_control &&& cfg.CACHE_PAT ≠ 0 then
          [cache_event.pat_cpu_init cpu] else []) ++
        [cache_event.local_irq_restore cpu]) := by
  unfold cache_cpu_init
  dsimp only
  by_cases hm : cfg.memory_caching_control &&& cfg.CACHE_MTRR ≠ 0
  · obtain ⟨st1, h1, _, _, _, _, d5, d6, d7⟩ :=
      cache_disable_spec cfg cpu (cache_log st (.local_irq_save cpu)) hfree
    obtain ⟨e1, _, _, e4, e5, e6⟩ :=
      cache_enable_spec cfg cpu (cache_log st1 (.mtrr_generic_set_state cpu))
    rw [if_pos hm, h1]
    dsimp only
    refine ⟨_, rfl, ?_⟩
    by_cases hp : cfg.memory_caching_control &&& cfg.CACHE_PAT ≠ 0
    · rw [if_pos hp, if_pos hm, if_pos hp]
      simp only [cache_log] at d5 d6 d7 e1 e4 e5 e6 ⊢
      refine ⟨e1, e4.trans d5, e5.trans d6, ?_⟩
      rw [e6, d7]
      simp
    · rw [if_neg hp, if_pos hm, if_neg hp]
      simp only [cache_log] at d5 d6 d7 e1 e4 e5 e6 ⊢
      refine ⟨e1, e4.trans d5, e5.trans d6, ?_⟩
      rw [e6, d7]
      simp
  · rw [if_neg hm]
    dsimp only
    refine ⟨_, rfl, ?_⟩
    by_cases hp : cfg.memory_caching_control &&& cfg.CACHE_PAT ≠ 0
    · rw [if_pos hp, if_neg hm, if_pos hp]
      simp [cache_log, hfree]
    · rw [if_neg hp, if_neg hm, if_neg hp]
      simp [cache_log, hfree]

/-- C16, as stated, fails: with only the PAT capability active `cache_cpu_init`
calls `pat_cpu_init` without any enter/exit; the hook is not inside an
enter/exit section. -/
theorem C16_hooks_inside_counterexample :
    ¬ (∀ (cfg : cache_ctl) (cpu : Nat) (st : cache_state),
        st.cache_disable_lock = false → st.trace = [] →
        (cfg.memory_caching_control &&& cfg.CACHE_MTRR ≠ 0 ∨
          cfg.memory_caching_control &&& cfg.CACHE_PAT ≠ 0) →
        ∃ st', cache_cpu_init cfg cpu st = some st' ∧
          hooks_inside_section false st'.trace = true ∧
          enter_exit_performed cpu st'.trace = true) := by
  intro h
  obtain ⟨st', h1, h2, _⟩ := h cfg_pat_only 0 cache_state_boot rfl rfl (by decide)
  have h3 : cache_cpu_init cfg_pat_only 0 cache_state_boot =
      some { cache_state_boot with
        trace := [.local_irq_save 0, .pat_cpu_init 0, .local_irq_restore 0] } := rfl
  rw [h3] at h1
  injection h1 with h1
  subst h1
  revert h2
  decide

/-- C16, amended: `cache_cpu_init` performs, in this order, `local_irq_save`;
when the MTRR capability (`CACHE_MTRR`) is active, enter (`cache_disable`),
`mtrr_generic_set_state`, exit (`cache_enable`); when the PAT capability
(`CACHE_PAT`) is active, `pat_cpu_init`, after that exit; `local_irq_restore`.
So `mtrr_generic_set_state` is called after enter and before exit, and
enter/exit are performed exactly when `CACHE_MTRR` is active. -/
theorem C16_cpu_init_sequence (cfg : cache_ctl) (cpu : Nat) (st : cache_state)
    (hfree : st.cache_disable_lock = false) :
    ∃ st', cache_cpu_init cfg cpu st = some st' ∧
      st'.trace = st.trace ++ ([cache_event.local_irq_save cpu] ++
        (if cfg.memory_caching_control &&& cfg.CACHE_MTRR ≠ 0 then
          cache_disable_events cfg cpu ++ [cache_event.mtrr_generic_set_state cpu] ++
            cache_enable_events cfg cpu
         else []) ++
        (if cfg.memory_caching_control &&& cfg.CACHE_PAT ≠ 0 then
          [cache_event.pat_cpu_init cpu] else []) ++
        [cache_event.local_irq_restore cpu]) ∧
      (∃ pre post, cache_disable_events cfg cpu = cache_event.raw_spin_lock cpu :: pre ∧
        cache_enable_events cfg cpu = post ++ [cache_event.raw_spin_unlock cpu] ∧
        hooks_inside_section false
          (cache_disable_events cfg cpu ++ [cache_event.mtrr_generic_set_state cpu] ++
            cache_enable_events cfg cpu) = true) ∧
      (enter_exit_performed cpu (st'.trace.drop st.trace.length) = true ↔
        cfg.memory_caching_control &&& cfg.CACHE_MTRR ≠ 0) := by
  obtain ⟨st', h1, _, _, _, htr⟩ := cache_cpu_init_spec cfg cpu st hfree
  refine ⟨st', h1, htr, ?_, ?_⟩
  · refine ⟨_, _, rfl, rfl, ?_⟩
    cases hs : cfg.has_selfsnoop <;> cases hm : cfg.has_mtrr <;>
      simp [cache_disable_events, cache_enable_events, hooks_inside_section, hs, hm]
  · rw [htr, List.drop_left]
    by_cases hm : cfg.memory_caching_control &&& cfg.CACHE_MTRR ≠ 0 <;>
      by_cases hp : cfg.memory_caching_control &&& cfg.CACHE_PAT ≠ 0 <;>
      cases hs : cfg.has_selfsnoop <;> cases hmt : cfg.has_mtrr <;>
      simp [enter_exit_performed, cache_disable_events, cache_enable_events, hm, hp, hs, hmt]

/-- Witness of C16 (amended): processor 0 of `cache_state_boot` with both
capabilities active. -/
theorem C16_cpu_init_sequence_witness :
    ∃ st', cache_cpu_init cfg_mtrr_pat 0 cache_state_boot = some st' ∧
      st'.trace = cache_state_boot.trace ++ ([cache_event.local_irq_save 0] ++
        (if cfg_mtrr_pat.memory_caching_control &&& cfg_mtrr_pat.CACHE_MTRR ≠ 0 then
          cache_disable_events cfg_mtrr_pat 0 ++ [cache_event.mtrr_generic_set_state 0] ++
            cache_enable_events cfg_mtrr_pat 0
         else []) ++
        (if cfg_mtrr_pat.memory_caching_control &&& cfg_mtrr_pat.CACHE_PAT ≠ 0 then
          [cache_event.pat_cpu_init 0] else []) ++
        [cache_event.local_irq_restore 0]) ∧
      (∃ pre post, cache_disable_events cfg_mtrr_pat 0 = cache_event.raw_spin_lock 0 :: pre ∧
        cache_enable_events cfg_mtrr_pat 0 = post ++ [cache_event.raw_spin_unlock 0] ∧
        hooks_inside_section false
          (cache_disable_events cfg_mtrr_pat 0 ++ [cache_event.mtrr_generic_set_state 0] ++
            cache_enable_events cfg_mtrr_pat 0) = true) ∧
      (enter_exit_performed 0 (st'.trace.drop cache_state_boot.trace.length) = true ↔
        cfg_mtrr_pat.memory_caching_control &&& cfg_mtrr_pat.CACHE_MTRR ≠ 0) :=
  C16_cpu_init_sequence cfg_mtrr_pat 0 cache_state_boot rfl

/-- With both capabilities active `pat_cpu_init` runs after the exit: the
hooks are not all inside the enter/exit section. -/
theorem cache_cpu_init_pat_after_exit :
    (cache_cpu_init cfg_mtrr_pat 0 cache_state_boot).map
        (fun st => hooks_inside_section false st.trace) = some false := by
  decide

/-! ## The rendezvous: `cache_rendezvous_handler`, `cache_ap_online`,
`cache_aps_init` -/

theorem cache_rendezvous_handler_spec (cfg : cache_ctl) (t : Topo) (cpu : Nat)
    (st : cache_state) (hfree : st.cache_disable_lock = false) :
    ∃ st', cache_rendezvous_handler cfg t cpu st = some (0, st') ∧
      st'.cache_disable_lock = false ∧
      st'.cache_aps_delayed_init = st.cache_aps_delayed_init ∧
      st'.cpu_cacheinfo_mask = st.cpu_cacheinfo_mask ∧
      st'.trace = st.trace ++
        (if st.cache_aps_delayed_init || !t.cpu_online cpu then cache_cpu_init_events cfg cpu
         else []) := by
  unfold cache_rendezvous_handler get_cache_aps_delayed_init
  by_cases h : (st.cache_aps_delayed_init || !t.cpu_online cpu) = true
  · obtain ⟨st', h1, h2, h3, h4, h5⟩ := cache_cpu_init_spec cfg cpu st hfree
    rw [if_pos h, h1, if_pos h]
    exact ⟨st', rfl, h2, h3, h4, h5⟩
  · rw [if_neg h, if_neg h]
    exact ⟨st, rfl, hfree, rfl, rfl, by simp⟩

theorem stop_machine_run_spec (cfg : cache_ctl) (t : Topo) :
    ∀ (cpus : List Nat) (st : cache_state), st.cache_disable_lock = false →
      ∃ st', stop_machine_run (cache_rendezvous_handler cfg t) cpus st = some st' ∧
        st'.cache_disable_lock = false ∧
        st'.cache_aps_delayed_init = st.cache_aps_delayed_init ∧
        st'.cpu_cacheinfo_mask = st.cpu_cacheinfo_mask ∧
        st'.trace = st.trace ++ rendezvous_events cfg t st.cache_aps_delayed_init cpus := by
  intro cpus
  induction cpus with
  | nil =>
    intro st hfree
    exact ⟨st, rfl, hfree, rfl, rfl, by simp [rendezvous_events]⟩
  | cons c cs ih =>
    intro st hfree
    obtain ⟨st1, h1, h2, h3, h4, h5⟩ := cache_rendezvous_handler_spec cfg t c st hfree
    obtain ⟨st2, g1, g2, g3, g4, g5⟩ := ih st1 h2
    refine ⟨st2, ?_, g2, g3.trans h3, g4.trans h4, ?_⟩
    · unfold stop_machine_run
      rw [h1]
      exact g1
    · rw [g5, h5, h3]
      simp [rendezvous_events]

/-- C17, as stated, fails: with processor 0 already a participant,
`cache_ap_online(2)` triggers a rendezvous whose target set is the participant
mask `{0, 2}`, not `{2}`. -/
theorem C17_target_set_counterexample :
    ¬ (∀ (cfg : cache_ctl) (t : Topo) (cpu : Nat) (st : cache_state),
        st.cache_disable_lock = false → st.trace = [] →
        cfg.memory_caching_control ≠ 0 → st.cache_aps_delayed_init = false →
        ∃ st', cache_ap_online cfg t cpu st = some (0, st') ∧
          cache_event.stop_machine_from_inactive_cpu [cpu] ∈ st'.trace) := by
  intro h
  obtain ⟨st', h1, h2⟩ := h cfg_mtrr_pat topo_two_online 2
    { cache_state_boot with cache_aps_delayed_init := false } rfl rfl (by decide) rfl
  have h3 : (cache_ap_online cfg_mtrr_pat topo_two_online 2
      { cache_state_boot with cache_aps_delayed_init := false }).map
        (fun r => decide (cache_event.stop_machine_from_inactive_cpu [2] ∈ r.2.trace)) =
      some false := by decide
  rw [h1] at h3
  simp at h3
  exact h3 h2

/-- C17, amended: `cache_ap_online(cpu)` always adds `cpu` to the participant
mask and returns 0; it triggers a rendezvous if and only if
`memory_caching_control` is non-zero and the deferred-init flag is false; the
rendezvous it triggers targets the whole participant mask
`cpu_cacheinfo_mask` (which contains `cpu`), the handler running
`cache_cpu_init` on the targets not marked online; when it does not trigger
one, nothing other than the participant mask changes. -/
theorem C17_ap_online (cfg : cache_ctl) (t : Topo) (cpu : Nat) (st : cache_state)
    (hfree : st.cache_disable_lock = false) :
    ∃ st', cache_ap_online cfg t cpu st = some (0, st') ∧
      st'.cpu_cacheinfo_mask = cpumask_set_cpu cpu st.cpu_cacheinfo_mask ∧
      ((∃ cpus, cache_event.stop_machine_from_inactive_cpu cpus ∈
          st'.trace.drop st.trace.length) ↔
        (cfg.memory_caching_control ≠ 0 ∧ st.cache_aps_delayed_init = false)) ∧
      (¬ (cfg.memory_caching_control ≠ 0 ∧ st.cache_aps_delayed_init = false) →
        st' = { st with cpu_cacheinfo_mask := cpumask_set_cpu cpu st.cpu_cacheinfo_mask }) ∧
      ((cfg.memory_caching_control ≠ 0 ∧ st.cache_aps_delayed_init = false) →
        st'.trace = st.trace ++
          [cache_event.stop_machine_from_inactive_cpu
            (for_each_cpu t (cpumask_set_cpu cpu st.cpu_cacheinfo_mask))] ++
          rendezvous_events cfg t false
            (for_each_cpu t (cpumask_set_cpu cpu st.cpu_cacheinfo_mask)) ∧
        (cpu < t.nr_cpu_ids →
          cpu ∈ for_each_cpu t (cpumask_set_cpu cpu st.cpu_cacheinfo_mask))) := by
  unfold cache_ap_online get_cache_aps_delayed_init
  dsimp only
  by_cases hc : cfg.memory_caching_control ≠ 0 ∧ st.cache_aps_delayed_init = false
  · obtain ⟨hc1, hc2⟩ := hc
    have hcond : ¬ ((decide (cfg.memory_caching_control = 0) ||
        st.cache_aps_delayed_init) = true) := by simp [hc1, hc2]
    rw [if_neg hcond]
    obtain ⟨st2, g1, _, g3, g4, g5⟩ := stop_machine_run_spec cfg t
      (for_each_cpu t (cpumask_set_cpu cpu st.cpu_cacheinfo_mask))
      (cache_log { st with cpu_cacheinfo_mask := cpumask_set_cpu cpu st.cpu_cacheinfo_mask }
        (.stop_machine_from_inactive_cpu
          (for_each_cpu t (cpumask_set_cpu cpu st.cpu_cacheinfo_mask)))) hfree
    rw [g1]
    have htr : st2.trace = st.trace ++
          [cache_event.stop_machine_from_inactive_cpu
            (for_each_cpu t (cpumask_set_cpu cpu st.cpu_cacheinfo_mask))] ++
          rendezvous_events cfg t false
            (for_each_cpu t (cpumask_set_cpu cpu st.cpu_cacheinfo_mask)) := by
      rw [g5]
      simp [cache_log, hc2]
    refine ⟨st2, rfl, g4, ?_, fun hn => absurd ⟨hc1, hc2⟩ hn, fun _ => ⟨htr, ?_⟩⟩
    · constructor
      · intro _; exact ⟨hc1, hc2⟩
      · intro _
        refine ⟨for_each_cpu t (cpumask_set_cpu cpu st.cpu_cacheinfo_mask), ?_⟩
        rw [htr, List.append_assoc, List.drop_left]
        simp
    · intro hlt
      rw [mem_for_each_cpu]
      exact ⟨hlt, by simp [cpumask_set_cpu]⟩
  · have hcond : (decide (cfg.memory_caching_control = 0) ||
        st.cache_aps_delayed_init) = true := by
      by_cases h1 : cfg.memory_caching_control = 0
      · simp [h1]
      · have : st.cache_aps_delayed_init = true := by
          cases hd : st.cache_aps_delayed_init
          · exact absurd ⟨h1, hd⟩ hc
          · rfl
        simp [this]
    rw [if_pos hcond]
    refine ⟨_, rfl, rfl, ?_, fun _ => rfl, fun h => absurd h hc⟩
    constructor
    · rintro ⟨cpus, hmem⟩
      simp at hmem
    · intro h; exact absurd h hc

/-- Witness of C17 (amended): processor 2 comes online on `topo_two_online`
after deferred init has ended. -/
theorem C17_ap_online_witness :
    ∃ st', cache_ap_online cfg_mtrr_pat topo_two_online 2
        { cache_state_boot with cache_aps_delayed_init := false } = some (0, st') ∧
      st'.cpu_cacheinfo_mask = cpumask_set_cpu 2 cache_state_boot.cpu_cacheinfo_mask ∧
      cache_event.stop_machine_from_inactive_cpu [0, 2] ∈ st'.trace := by
  obtain ⟨st', h1, h2, _, _, h5⟩ := C17_ap_online cfg_mtrr_pat topo_two_online 2
    { cache_state_boot with cache_aps_delayed_init := false } rfl
  refine ⟨st', h1, h2, ?_⟩
  rw [(h5 ⟨by decide, rfl⟩).1]
  have : for_each_cpu topo_two_online
      (cpumask_set_cpu 2 cache_state_boot.cpu_cacheinfo_mask) = [0, 2] := by decide
  simp [this]

/-- C18: from a state with the lock free, the first call of `cache_aps_init`
performs the rendezvous (`stop_machine` of `cache_rendezvous_handler` over the
online processors) exactly when `memory_caching_control` is non-zero and the
deferred-init flag is set, and then clears the flag; otherwise it changes
nothing; a second call in a row performs no rendezvous and changes no state. -/
theorem C18_aps_init_twice (cfg : cache_ctl) (t : Topo) (st : cache_state)
    (hfree : st.cache_disable_lock = false) :
    ∃ st1, cache_aps_init cfg t st = some st1 ∧
      ((cfg.memory_caching_control ≠ 0 ∧ st.cache_aps_delayed_init = true) →
        st1.cache_aps_delayed_init = false ∧
        st1.trace = st.trace ++ [cache_event.stop_machine (for_each_cpu t t.cpu_online)] ++
          rendezvous_events cfg t true (for_each_cpu t t.cpu_online)) ∧
      (¬ (cfg.memory_caching_control ≠ 0 ∧ st.cache_aps_delayed_init = true) → st1 = st) ∧
      ((∃ cpus, cache_event.stop_machine cpus ∈ st1.trace.drop st.trace.length) ↔
        (cfg.memory_caching_control ≠ 0 ∧ st.cache_aps_delayed_init = true)) ∧
      cache_aps_init cfg t st1 = some st1 := by
  by_cases hc : cfg.memory_caching_control ≠ 0 ∧ st.cache_aps_delayed_init = true
  · obtain ⟨hc1, hc2⟩ := hc
    have hcond : ¬ ((decide (cfg.memory_caching_control = 0) ||
        !st.cache_aps_delayed_init) = true) := by simp [hc1, hc2]
    obtain ⟨st2, g1, g2, g3, _, g5⟩ := stop_machine_run_spec cfg t
      (for_each_cpu t t.cpu_online)
      (cache_log st (.stop_machine (for_each_cpu t t.cpu_online))) hfree
    have h1 : cache_aps_init cfg t st = some (set_cache_aps_delayed_init false st2) := by
      unfold cache_aps_init get_cache_aps_delayed_init
      rw [if_neg hcond]
      dsimp only
      rw [g1]
    have htr : (set_cache_aps_delayed_init false st2).trace =
        st.trace ++ [cache_event.stop_machine (for_each_cpu t t.cpu_online)] ++
          rendezvous_events cfg t true (for_each_cpu t t.cpu_online) := by
      show st2.trace = _
      rw [g5]
      simp [cache_log, hc2]
    refine ⟨_, h1, fun _ => ⟨rfl, htr⟩, fun hn => absurd ⟨hc1, hc2⟩ hn, ?_, ?_⟩
    · constructor
      · intro _; exact ⟨hc1, hc2⟩
      · intro _
        refine ⟨for_each_cpu t t.cpu_online, ?_⟩
        rw [htr, List.append_assoc, List.drop_left]
        simp
    · unfold cache_aps_init get_cache_aps_delayed_init
      have : (decide (cfg.memory_caching_control = 0) ||
          !(set_cache_aps_delayed_init false st2).cache_aps_delayed_init) = true := by
        simp [set_cache_aps_delayed_init]
      rw [if_pos this]
  · have hcond : (decide (cfg.memory_caching_control = 0) ||
        !st.cache_aps_delayed_init) = true := by
      by_cases h1 : cfg.memory_caching_control = 0
      · simp [h1]
      · have : st.cache_aps_delayed_init = false := by
          cases hd : st.cache_aps_delayed_init
          · rfl
          · exact absurd ⟨h1, hd⟩ hc
        simp [this]
    have h1 : cache_aps_init cfg t st = some st := by
      unfold cache_aps_init get_cache_aps_delayed_init
      rw [if_pos hcond]
    refine ⟨st, h1, fun h => absurd h hc, fun _ => rfl, ?_, h1⟩
    constructor
    · rintro ⟨cpus, hmem⟩
      simp at hmem
    · intro h; exact absurd h hc

/-- Witness of C18: `cache_state_boot` (deferred init pending) on
`topo_two_online`. -/
theorem C18_aps_init_twice_witness :
    ∃ st1, cache_aps_init cfg_mtrr_pat topo_two_online cache_state_boot = some st1 ∧
      st1.cache_aps_delayed_init = false ∧
      cache_aps_init cfg_mtrr_pat topo_two_online st1 = some st1 := by
  obtain ⟨st1, h1, h2, _, _, h5⟩ :=
    C18_aps_init_twice cfg_mtrr_pat topo_two_online cache_state_boot rfl
  exact ⟨st1, h1, (h2 ⟨by decide, rfl⟩).1, h5⟩

/-! ## A failing leaf in `populate_cache_leaves` -/

theorem populate_cache_leaves_loop_abort (hw : Hw) (t : Topo) (cpu idx : Nat)
    (hpresent : ∀ j, j < idx → ∃ eax ebx ecx,
      cpuid4_probe hw j = .ok (eax, ebx, ecx) ∧ eax_type eax ≠ CTYPE_NULL)
    (hfail : ∃ eax ebx ecx,
      cpuid4_probe hw idx = .ok (eax, ebx, ecx) ∧ eax_type eax = CTYPE_NULL) :
    ∀ (d cur n : Nat) (id4_regs : _cpuid4_info_regs) (st : populate_state),
      cur + d = idx → d < n →
      ∃ st', populate_cache_leaves_loop hw t cpu n cur id4_regs st = .ok (- EIO, st') ∧
        st'.looked_up = st.looked_up ++ List.range' cur (d + 1) ∧
        st'.cpu_map_populated = st.cpu_map_populated ∧
        (∀ j, cur ≤ j → j < idx → (st'.leaves j).isSome = true) ∧
        (∀ j, j < cur ∨ idx ≤ j → st'.leaves j = st.leaves j) := by
  intro d
  induction d with
  | zero =>
    intro cur n id4_regs st hcur hn
    obtain ⟨m, rfl⟩ : ∃ m, n = m + 1 := ⟨n - 1, by omega⟩
    have hc : cur = idx := by omega
    subst hc
    obtain ⟨eax, ebx, ecx, hp, ht⟩ := hfail
    obtain ⟨r, hr, _⟩ := lookup_of_probe_null hw cur id4_regs eax ebx ecx hp ht
    unfold populate_cache_leaves_loop
    rw [hr]
    dsimp only
    rw [if_pos (by decide)]
    refine ⟨_, rfl, by simp, rfl, fun j h1 h2 => absurd h1 (by omega), fun _ _ => rfl⟩
  | succ d ih =>
    intro cur n id4_regs st hcur hn
    obtain ⟨m, rfl⟩ : ∃ m, n = m + 1 := ⟨n - 1, by omega⟩
    obtain ⟨eax, ebx, ecx, hp, ht⟩ := hpresent cur (by omega)
    obtain ⟨r, hr, _⟩ := lookup_of_probe_present hw cur id4_regs eax ebx ecx hp ht
    unfold populate_cache_leaves_loop
    rw [hr]
    dsimp only
    rw [if_neg (by decide)]
    obtain ⟨st', h1, h2, h3, h4, h5⟩ := ih (cur + 1) m (get_cache_id t cpu r)
      { ci := __cache_cpumap_setup hw t st.ci cpu cur (get_cache_id t cpu r),
        leaves := fun i =>
          if i = cur then some (ci_leaf_init (get_cache_id t cpu r)) else st.leaves i,
        cpu_map_populated := st.cpu_map_populated,
        looked_up := st.looked_up ++ [cur] } (by omega) (by omega)
    refine ⟨st', h1, ?_, h3, ?_, ?_⟩
    · rw [h2]
      show st.looked_up ++ [cur] ++ List.range' (cur + 1) (d + 1) =
        st.looked_up ++ (cur :: List.range' (cur + 1) (d + 1))
      rw [List.append_assoc]
      rfl
    · intro j hj1 hj2
      by_cases hj : j = cur
      · have := h5 j (Or.inl (by omega))
        rw [this]
        simp [hj]
      · exact h4 j (by omega) hj2
    · intro j hj
      have hne : j ≠ cur := by omega
      have := h5 j (by omega)
      rw [this]
      simp [hne]

/-- C19, as stated, fails: on `hw_amd_no_l1i` with three leaves the lookup of
leaf 1 fails, `populate_cache_leaves` returns `-EIO` at once, and the present
leaf 2 is never looked up. -/
theorem C19_failed_leaf_counterexample :
    ¬ (∀ (hw : Hw) (t : Topo) (cpu num_leaves : Nat) (st : populate_state) (idx j : Nat),
        idx < num_leaves →
        (∃ r, cpuid4_cache_lookup_regs hw idx _cpuid4_info_regs.zero = .ok (- EIO, r)) →
        idx < j → j < num_leaves →
        ∃ ret st', populate_cache_leaves hw t cpu num_leaves st = .ok (ret, st') ∧
          j ∈ st'.looked_up) := by
  intro h
  obtain ⟨ret, st', h1, h2⟩ := h hw_amd_no_l1i topo_eight 0 3 populate_state_empty 1 2
    (by decide) ⟨_, rfl⟩ (by decide) (by decide)
  have h3 : (populate_cache_leaves hw_amd_no_l1i topo_eight 0 3 populate_state_empty).map
      (fun r => r.2.looked_up) = .ok [0, 1] := by rfl
  rw [h1] at h3
  have h4 : st'.looked_up = [0, 1] := by
    injection h3
  rw [h4] at h2
  revert h2
  decide

/-- C19, amended: in `populate_cache_leaves`, when the lookup of a leaf index
`idx` below `num_leaves` fails (type none) and the leaves below it are
present, the function returns `-EIO` at once: the leaves below `idx` are
populated, exactly the indices `0 .. idx` have been looked up (no index above
`idx` is), the entries from `idx` on are left as they were and
`cpu_map_populated` is not set. -/
theorem C19_failed_leaf_aborts (hw : Hw) (t : Topo) (cpu num_leaves idx : Nat)
    (st : populate_state) (hidx : idx < num_leaves)
    (hpresent : ∀ j, j < idx → ∃ eax ebx ecx,
      cpuid4_probe hw j = .ok (eax, ebx, ecx) ∧ eax_type eax ≠ CTYPE_NULL)
    (hfail : ∃ eax ebx ecx,
      cpuid4_probe hw idx = .ok (eax, ebx, ecx) ∧ eax_type eax = CTYPE_NULL) :
    ∃ st', populate_cache_leaves hw t cpu num_leaves st = .ok (- EIO, st') ∧
      st'.looked_up = st.looked_up ++ List.range (idx + 1) ∧
      st'.cpu_map_populated = st.cpu_map_populated ∧
      (∀ j, j < idx → (st'.leaves j).isSome = true) ∧
      (∀ j, idx ≤ j → st'.leaves j = st.leaves j) := by
  obtain ⟨st', h1, h2, h3, h4, h5⟩ := populate_cache_leaves_loop_abort hw t cpu idx hpresent
    hfail idx 0 num_leaves _cpuid4_info_regs.zero st (by omega) hidx
  refine ⟨st', h1, ?_, h3, fun j hj => h4 j (Nat.zero_le j) hj, fun j hj => h5 j (Or.inr hj)⟩
  rw [h2, List.range_eq_range']

/-- Witness of C19 (amended): leaf 1 of `hw_amd_no_l1i`. -/
theorem C19_failed_leaf_aborts_witness :
    ∃ st', populate_cache_leaves hw_amd_no_l1i topo_eight 0 3 populate_state_empty =
        .ok (- EIO, st') ∧
      st'.looked_up = populate_state_empty.looked_up ++ List.range (1 + 1) ∧
      st'.cpu_map_populated = populate_state_empty.cpu_map_populated ∧
      (∀ j, j < 1 → (st'.leaves j).isSome = true) ∧
      (∀ j, 1 ≤ j → st'.leaves j = populate_state_empty.leaves j) :=
  C19_failed_leaf_aborts hw_amd_no_l1i topo_eight 0 3 1 populate_state_empty (by decide)
    (fun j hj => by
      have : j = 0 := by omega
      subst this
      exact ⟨268435745, 4194367, 511, rfl, by decide⟩)
    ⟨0, 0, 0, rfl, by decide⟩

/-! ## The lock in a sequential run -/

/-- In a sequential run a second `cache_disable` does not return while the
lock is held by the first, and returns once the first has run `cache_enable`. -/
theorem cache_disable_waits_for_enable (cfg : cache_ctl) (cpu other : Nat) (st : cache_state)
    (hfree : st.cache_disable_lock = false) :
    ∃ st1, cache_disable cfg cpu st = some st1 ∧
      cache_disable cfg other st1 = none ∧
      ∃ st2, cache_disable cfg other (cache_enable cfg cpu st1) = some st2 := by
  obtain ⟨st1, h1, hlock, _⟩ := cache_disable_spec cfg cpu st hfree
  refine ⟨st1, h1, ?_, ?_⟩
  · unfold cache_disable
    rw [hlock]
    rfl
  · obtain ⟨st2, h2, _⟩ := cache_disable_spec cfg other (cache_enable cfg cpu st1)
      (cache_enable_spec cfg cpu st1).1
    exact ⟨st2, h2⟩

/-! ## One `cpuid(2)` result of the legacy descriptor pass -/

theorem legacy_clear_unknown_getD (r : Nat × Nat × Nat × Nat) (k : Nat) :
    (legacy_clear_unknown r).getD k 0 =
      if bitfield ((legacy_regs r).getD k 0) 31 1 ≠ 0 then 0 else (legacy_regs r).getD k 0 := by
  unfold legacy_clear_unknown legacy_regs
  rcases k with _ | _ | _ | _ | k <;> simp [bitfield]

theorem descriptor_size_zero (ty : Nat) : descriptor_size ty 0 = 0 := by
  have h : cache_table_lookup 0 = none := by decide
  unfold descriptor_size
  rw [h]

theorem legacy_contribution_eq (ty : Nat) (r : Nat × Nat × Nat × Nat) (j : Nat) :
    descriptor_size ty (legacy_dp (legacy_clear_unknown r) j) =
      legacy_contribution_by_register ty r j := by
  unfold legacy_contribution_by_register legacy_raw_byte legacy_dp
  rw [legacy_clear_unknown_getD]
  by_cases h : bitfield ((legacy_regs r).getD (j / 4) 0) 31 1 ≠ 0
  · rw [if_pos h, if_pos h]
    have hz : bitfield 0 (8 * (j % 4)) 8 = 0 := by simp [bitfield]
    rw [hz]
    exact descriptor_size_zero ty
  · rw [if_neg h, if_neg h]

theorem legacy_query_total (ty : Nat)
    (hty : ty = LVL_1_INST ∨ ty = LVL_1_DATA ∨ ty = LVL_2 ∨ ty = LVL_3)
    (tot : cache_sizes) (r : Nat × Nat × Nat × Nat) (htot : tot.total ty < 2 ^ 32) :
    (legacy_query tot r).total ty =
      (tot.total ty +
        ((List.range' 1 15).map (legacy_contribution_by_register ty r)).sum) % 2 ^ 32 := by
  unfold legacy_query
  obtain ⟨h1, h2⟩ := legacy_fold_total ty hty (legacy_descriptor_bytes r) tot
  have hlt := h2 htot
  have e : ((legacy_descriptor_bytes r).foldl legacy_add tot).total ty =
      ((legacy_descriptor_bytes r).foldl legacy_add tot).total ty % 2 ^ 32 :=
    (Nat.mod_eq_of_lt hlt).symm
  have hs : descriptor_sum ty (legacy_descriptor_bytes r) =
      ((List.range' 1 15).map (legacy_contribution_by_register ty r)).sum := by
    unfold descriptor_sum legacy_descriptor_bytes
    rw [List.map_map]
    apply congrArg List.sum
    apply List.map_congr_left
    intro j _
    exact legacy_contribution_eq ty r j
  rw [e, h1, hs]

theorem bitfield_u32 (x lo w : Nat) (h : lo + w ≤ 32) :
    bitfield (u32 x) lo w = bitfield x lo w := by
  unfold bitfield u32
  rw [← Nat.shiftRight_eq_div_pow, ← Nat.shiftRight_eq_div_pow]
  apply Nat.eq_of_testBit_eq
  intro i
  simp only [Nat.testBit_mod_two_pow, Nat.testBit_shiftRight]
  by_cases hi : i < w
  · have : lo + i < 32 := by omega
    simp [hi, this]
  · simp [hi]

theorem legacy_byte0_irrelevant (r : Nat × Nat × Nat × Nat) (v : Nat) :
    legacy_descriptor_bytes (bitfield_set r.1 0 8 v, r.2.1, r.2.2.1, r.2.2.2) =
      legacy_descriptor_bytes r := by
  unfold legacy_descriptor_bytes
  apply List.map_congr_left
  intro j hj
  have hj' : 1 ≤ j ∧ j < 16 := by
    rw [List.mem_range'_1] at hj
    omega
  unfold legacy_dp
  rw [legacy_clear_unknown_getD, legacy_clear_unknown_getD]
  have h31 : bitfield (u32 (bitfield_set r.1 0 8 v)) 31 1 = bitfield (u32 r.1) 31 1 := by
    rw [bitfield_u32 _ _ _ (by omega), bitfield_u32 _ _ _ (by omega)]
    exact bitfield_set_read_above r.1 0 8 v 31 1 (by omega)
  have hb : ∀ k, 1 ≤ k → k < 4 →
      bitfield (u32 (bitfield_set r.1 0 8 v)) (8 * k) 8 = bitfield (u32 r.1) (8 * k) 8 := by
    intro k hk1 hk4
    rw [bitfield_u32 _ _ _ (by omega), bitfield_u32 _ _ _ (by omega)]
    exact bitfield_set_read_above r.1 0 8 v (8 * k) 8 (by omega)
  by_cases hq : j / 4 = 0
  · have hjm : j % 4 = j := by omega
    have hj3 : j < 4 := by omega
    rw [hq, hjm]
    simp only [legacy_regs, List.getD_cons_zero]
    rw [h31]
    by_cases hc : bitfield (u32 r.1) 31 1 ≠ 0
    · rw [if_pos hc, if_pos hc]
    · rw [if_neg hc, if_neg hc]
      exact hb j hj'.1 hj3
  · have : ∀ x : Nat × Nat × Nat × Nat, ∀ y : Nat,
        (legacy_regs (y, x.2.1, x.2.2.1, x.2.2.2)).getD (j / 4) 0 =
          (legacy_regs x).getD (j / 4) 0 := by
      intro x y
      unfold legacy_regs
      rcases hq4 : j / 4 with _ | k
      · exact absurd hq4 hq
      · simp
    rw [this r]

/-- C21, as stated, fails. In the `cpuid(2)` result `(0x8001, 0, 0, 0)` byte 1
is the descriptor `0x80`, whose high bit is set: the code adds the 512 KB of
its `cache_table` entry to the L2 total, where the rule "a byte with its high
bit set contributes nothing" gives 0. In the result `(0x80000600, 0, 0, 0)`
byte 1 is the descriptor `0x06` (L1 instruction, 8 KB), whose high bit is
clear: the code adds nothing, because bit 31 of its register is set, where the
rule gives 8. -/
theorem C21_high_bit_byte_counterexample :
    legacy_raw_byte (0x8001, 0, 0, 0) 1 = 0x80 ∧
      bitfield (legacy_raw_byte (0x8001, 0, 0, 0) 1) 7 1 = 1 ∧
      (legacy_query cache_sizes.zero (0x8001, 0, 0, 0)).total LVL_2 = 512 ∧
      (intel_legacy_pass (fun _ => (0x8001, 0, 0, 0)) cache_sizes.zero).l2 = 512 ∧
      ((List.range' 1 15).map
        (legacy_contribution_by_high_bit LVL_2 (0x8001, 0, 0, 0))).sum = 0 ∧
      legacy_raw_byte (0x80000600, 0, 0, 0) 1 = 0x06 ∧
      bitfield (legacy_raw_byte (0x80000600, 0, 0, 0) 1) 7 1 = 0 ∧
      (legacy_query cache_sizes.zero (0x80000600, 0, 0, 0)).total LVL_1_INST = 0 ∧
      ((List.range' 1 15).map
        (legacy_contribution_by_high_bit LVL_1_INST (0x80000600, 0, 0, 0))).sum = 8 := by
  decide

/-- C21 (amended): the legacy descriptor pass of `init_intel_cacheinfo` runs
`legacy_query` once per raw-descriptor query; in each query byte 0 of the
result contributes nothing to the totals (they do not depend on it), every
byte of a register whose bit 31 is set contributes nothing, and every other
byte `dp[1] .. dp[15]` contributes the `cache_table` size of its descriptor
(nothing if the descriptor is not in the table) to the total of that entry's
cache type, the totals being 32-bit sums. -/
theorem C21_query_contributions (ty : Nat)
    (hty : ty = LVL_1_INST ∨ ty = LVL_1_DATA ∨ ty = LVL_2 ∨ ty = LVL_3)
    (cpuid2 : Nat → Nat × Nat × Nat × Nat) (tot : cache_sizes) (r : Nat × Nat × Nat × Nat)
    (htot : tot.total ty < 2 ^ 32) :
    intel_legacy_pass cpuid2 tot =
        (List.range (bitfield (u32 (cpuid2 0).1) 0 8)).foldl
          (fun tot i => legacy_query tot (cpuid2 (i + 1))) tot ∧
      (∀ v, legacy_query tot (bitfield_set r.1 0 8 v, r.2.1, r.2.2.1, r.2.2.2) =
        legacy_query tot r) ∧
      (legacy_query tot r).total ty =
        (tot.total ty +
          ((List.range' 1 15).map (legacy_contribution_by_register ty r)).sum) % 2 ^ 32 ∧
      (∀ j, bitfield ((legacy_regs r).getD (j / 4) 0) 31 1 ≠ 0 →
        legacy_contribution_by_register ty r j = 0) ∧
      (∀ j, bitfield ((legacy_regs r).getD (j / 4) 0) 31 1 = 0 →
        legacy_contribution_by_register ty r j = descriptor_size ty (legacy_raw_byte r j)) := by
  refine ⟨rfl, ?_, legacy_query_total ty hty tot r htot, ?_, ?_⟩
  · intro v
    unfold legacy_query
    rw [legacy_byte0_irrelevant]
  · intro j h
    unfold legacy_contribution_by_register
    rw [if_pos h]
  · intro j h
    unfold legacy_contribution_by_register
    rw [if_neg (fun hne => hne h)]

/-- Witness for C21: the result `(0x8001, 0, 0, 0)` and the L2 total, from
zero totals. -/
theorem C21_query_contributions_witness :
    (legacy_query cache_sizes.zero (0x8001, 0, 0, 0)).total LVL_2 =
      (cache_sizes.zero.total LVL_2 +
        ((List.range' 1 15).map
          (legacy_contribution_by_register LVL_2 (0x8001, 0, 0, 0))).sum) % 2 ^ 32 :=
  (C21_query_contributions LVL_2 (Or.inr (Or.inr (Or.inl rfl))) (fun _ => (0x8001, 0, 0, 0))
    cache_sizes.zero (0x8001, 0, 0, 0) (by decide)).2.2.1

/-- The contributions by register of the result `(0x8001, 0, 0, 0)` to the L2
total add up to 512. -/
theorem legacy_contributions_descriptor_0x80 :
    ((List.range' 1 15).map
      (legacy_contribution_by_register LVL_2 (0x8001, 0, 0, 0))).sum = 512 := by
  decide

/-! ## The registers synthesized by `amd_cpuid4` -/

theorem amd_cpuid4_line_size_zero (hw : Hw) (leaf : Nat) (g : amd_geometry)
    (hs : amd_cpuid4_switch hw leaf = .ok (some g)) (hz : g.line_size = 0) :
    amd_cpuid4 hw leaf = .error .divide_by_zero := by
  unfold amd_cpuid4
  rw [hs]
  dsimp only
  rw [if_pos hz]

theorem amd_cpuid4_present (hw : Hw) (leaf : Nat) (g : amd_geometry)
    (hs : amd_cpuid4_switch hw leaf = .ok (some g)) (hl : g.line_size ≠ 0) :
    ∃ eax ebx ecx, amd_cpuid4 hw leaf = .ok (eax, ebx, ecx) ∧
      eax_is_self_initializing eax = 1 ∧
      eax_type eax = types.getD leaf 0 % 2 ^ 5 ∧
      eax_level eax = levels.getD leaf 0 % 2 ^ 3 ∧
      eax_num_threads_sharing eax = 0 ∧
      eax_num_cores_on_die eax = hw.num_cores_per_package % 2 ^ 6 ∧
      eax_is_fully_associative eax = (if g.assoc = 0xffff then 1 else 0) ∧
      ebx_coherency_line_size ebx = usub32 g.line_size 1 % 2 ^ 12 ∧
      ebx_ways_of_associativity ebx = usub32 g.assoc 1 % 2 ^ 10 ∧
      ebx_physical_line_partition ebx = usub32 g.lines_per_tag 1 % 2 ^ 10 ∧
      ecx_number_of_sets ecx =
        usub32 (u32 (g.size_in_kb * 1024) / g.line_size /
          (usub32 g.assoc 1 % 2 ^ 10 + 1)) 1 := by
  have hways : ebx_ways_of_associativity
      (bitfield_set (bitfield_set (bitfield_set 0 0 12 (usub32 g.line_size 1)) 22 10
        (usub32 g.assoc 1)) 12 10 (usub32 g.lines_per_tag 1)) = usub32 g.assoc 1 % 2 ^ 10 := by
    unfold ebx_ways_of_associativity
    rw [bitfield_set_read_above _ 12 10 _ 22 10 (by decide), bitfield_set_same]
  unfold amd_cpuid4
  rw [hs]
  dsimp only
  rw [if_neg hl]
  refine ⟨_, _, _, rfl, ?_, ?_, ?_, ?_, ?_, ?_, ?_, hways, ?_, ?_⟩
  · unfold eax_is_self_initializing
    split
    · rw [bitfield_set_read_below _ 9 1 _ 8 1 (by decide),
        bitfield_set_read_below _ 26 6 _ 8 1 (by decide),
        bitfield_set_read_below _ 14 12 _ 8 1 (by decide),
        bitfield_set_read_above _ 5 3 _ 8 1 (by decide),
        bitfield_set_read_above _ 0 5 _ 8 1 (by decide), bitfield_set_same]
      rfl
    · rw [bitfield_set_read_below _ 26 6 _ 8 1 (by decide),
        bitfield_set_read_below _ 14 12 _ 8 1 (by decide),
        bitfield_set_read_above _ 5 3 _ 8 1 (by decide),
        bitfield_set_read_above _ 0 5 _ 8 1 (by decide), bitfield_set_same]
      rfl
  · unfold eax_type
    split
    · rw [bitfield_set_read_below _ 9 1 _ 0 5 (by decide),
        bitfield_set_read_below _ 26 6 _ 0 5 (by decide),
        bitfield_set_read_below _ 14 12 _ 0 5 (by decide),
        bitfield_set_read_below _ 5 3 _ 0 5 (by decide), bitfield_set_same]
    · rw [bitfield_set_read_below _ 26 6 _ 0 5 (by decide),
        bitfield_set_read_below _ 14 12 _ 0 5 (by decide),
        bitfield_set_read_below _ 5 3 _ 0 5 (by decide), bitfield_set_same]
  · unfold eax_level
    split
    · rw [bitfield_set_read_below _ 9 1 _ 5 3 (by decide),
        bitfield_set_read_below _ 26 6 _ 5 3 (by decide),
        bitfield_set_read_below _ 14 12 _ 5 3 (by decide), bitfield_set_same]
    · rw [bitfield_set_read_below _ 26 6 _ 5 3 (by decide),
        bitfield_set_read_below _ 14 12 _ 5 3 (by decide), bitfield_set_same]
  · unfold eax_num_threads_sharing
    split
    · rw [bitfield_set_read_above _ 9 1 _ 14 12 (by decide),
        bitfield_set_read_below _ 26 6 _ 14 12 (by decide), bitfield_set_same]
      rfl
    · rw [bitfield_set_read_below _ 26 6 _ 14 12 (by decide), bitfield_set_same]
      rfl
  · unfold eax_num_cores_on_die
    split
    · rw [bitfield_set_read_above _ 9 1 _ 26 6 (by decide), bitfield_set_same]
    · rw [bitfield_set_same]
  · unfold eax_is_fully_associative
    by_cases ha : g.assoc = 0xffff
    · rw [if_pos ha, if_pos ha, bitfield_set_same]
      rfl
    · rw [if_neg ha, if_neg ha,
        bitfield_set_read_below _ 26 6 _ 9 1 (by decide),
        bitfield_set_read_below _ 14 12 _ 9 1 (by decide),
        bitfield_set_read_above _ 5 3 _ 9 1 (by decide),
        bitfield_set_read_above _ 0 5 _ 9 1 (by decide),
        bitfield_set_read_above _ 8 1 _ 9 1 (by decide)]
      rfl
  · unfold ebx_coherency_line_size
    rw [bitfield_set_read_below _ 12 10 _ 0 12 (by decide),
      bitfield_set_read_below _ 22 10 _ 0 12 (by decide), bitfield_set_same]
  · unfold ebx_physical_line_partition
    rw [bitfield_set_same]
  · rw [hways]
    unfold ecx_number_of_sets
    rw [bitfield_set_same]
    unfold usub32
    rw [Nat.mod_mod]

theorem amd_cpuid4_present_inv (hw : Hw) (leaf eax ebx ecx : Nat)
    (h : amd_cpuid4 hw leaf = .ok (eax, ebx, ecx)) (ht : eax_type eax ≠ CTYPE_NULL) :
    leaf ≤ 3 ∧ ∃ g, amd_cpuid4_switch hw leaf = .ok (some g) ∧ g.line_size ≠ 0 := by
  cases hs : amd_cpuid4_switch hw leaf with
  | error f =>
    unfold amd_cpuid4 at h
    rw [hs] at h
    exact absurd h (by simp)
  | ok o =>
    cases o with
    | none =>
      rw [amd_cpuid4_of_none hw leaf hs] at h
      injection h with h
      injection h with h _
      subst h
      exact absurd rfl ht
    | some g =>
      have hle : leaf ≤ 3 := by
        by_contra hgt
        rw [amd_cpuid4_switch_beyond hw leaf (by omega)] at hs
        exact absurd hs (by simp)
      refine ⟨hle, g, rfl, ?_⟩
      intro hz
      rw [amd_cpuid4_line_size_zero hw leaf g hs hz] at h
      exact absurd h (by simp)

/-- C22, as stated, fails: with 64 cores in the package, leaf 0 of the legacy
probe is present and its synthesized `num_cores_on_die` is 0, not 64. -/
theorem C22_cores_on_die_counterexample :
    amd_cpuid4 hw_amd_64_cores 0 = .ok (0x121, 4194367, 511) ∧
      eax_type 0x121 ≠ CTYPE_NULL ∧
      hw_amd_64_cores.num_cores_per_package = 64 ∧
      eax_num_cores_on_die 0x121 = 0 := by
  refine ⟨rfl, by decide, rfl, by decide⟩

/-- C22 (amended): for every leaf that the legacy emulated probe `amd_cpuid4`
reports as present (it returns registers whose type is not "none"), the leaf
index is in 0..3 and the synthesized `eax` has `is_self_initializing = 1`,
`level = [1, 1, 2, 3][leaf]`, `type = [data, instruction, unified,
unified][leaf]`, `num_threads_sharing = 0`, and `num_cores_on_die` equal to the
platform's cores-per-package count reduced modulo 64 (the field has 6 bits),
hence equal to the count whenever the count is below 64. -/
theorem C22_synthesized_eax (hw : Hw) (leaf eax ebx ecx : Nat)
    (h : amd_cpuid4 hw leaf = .ok (eax, ebx, ecx)) (ht : eax_type eax ≠ CTYPE_NULL) :
    leaf ≤ 3 ∧
      eax_is_self_initializing eax = 1 ∧
      eax_level eax = [1, 1, 2, 3].getD leaf 0 ∧
      eax_type eax = [CTYPE_DATA, CTYPE_INST, CTYPE_UNIFIED, CTYPE_UNIFIED].getD leaf 0 ∧
      eax_num_threads_sharing eax = 0 ∧
      eax_num_cores_on_die eax = hw.num_cores_per_package % 64 ∧
      (hw.num_cores_per_package < 64 → eax_num_cores_on_die eax = hw.num_cores_per_package) := by
  obtain ⟨hle, g, hs, hl⟩ := amd_cpuid4_present_inv hw leaf eax ebx ecx h ht
  obtain ⟨eax', ebx', ecx', h', h1, h2, h3, h4, h5, _⟩ := amd_cpuid4_present hw leaf g hs hl
  rw [h] at h'
  injection h' with h'
  injection h' with he _
  subst he
  have hcases : leaf = 0 ∨ leaf = 1 ∨ leaf = 2 ∨ leaf = 3 := by omega
  refine ⟨hle, h1, ?_, ?_, h4, h5, fun hlt => ?_⟩
  · rw [h3]
    rcases hcases with h' | h' | h' | h' <;> subst h' <;> rfl
  · rw [h2]
    rcases hcases with h' | h' | h' | h' <;> subst h' <;> rfl
  · rw [h5]
    exact Nat.mod_eq_of_lt hlt

/-- Witness for C22: leaf 2 (the level-2 cache) of `hw_amd_legacy`, a package
of four cores. -/
theorem C22_synthesized_eax_witness :
    2 ≤ 3 ∧
      eax_is_self_initializing 0x10000143 = 1 ∧
      eax_level 0x10000143 = [1, 1, 2, 3].getD 2 0 ∧
      eax_type 0x10000143 =
        [CTYPE_DATA, CTYPE_INST, CTYPE_UNIFIED, CTYPE_UNIFIED].getD 2 0 ∧
      eax_num_threads_sharing 0x10000143 = 0 ∧
      eax_num_cores_on_die 0x10000143 = hw_amd_legacy.num_cores_per_package % 64 ∧
      (hw_amd_legacy.num_cores_per_package < 64 →
        eax_num_cores_on_die 0x10000143 = hw_amd_legacy.num_cores_per_package) :=
  C22_synthesized_eax hw_amd_legacy 2 0x10000143 29360191 1023 rfl (by decide)


/-! ## The size and way count used by `amd_cpuid4` -/

theorem amd_cpuid4_switch_dcm_irrelevant (hw : Hw) (leaf : Nat) (hl : leaf ≤ 2) (b : Bool) :
    amd_cpuid4_switch { hw with has_amd_dcm := b } leaf = amd_cpuid4_switch hw leaf := by
  have hcases : leaf = 0 ∨ leaf = 1 ∨ leaf = 2 := by omega
  rcases hcases with h | h | h <;> subst h <;> rfl

theorem amd_cpuid4_dcm_irrelevant (hw : Hw) (leaf : Nat) (hl : leaf ≤ 2) (b : Bool) :
    amd_cpuid4 { hw with has_amd_dcm := b } leaf = amd_cpuid4 hw leaf := by
  unfold amd_cpuid4
  rw [amd_cpuid4_switch_dcm_irrelevant hw leaf hl b]

theorem amd_cpuid4_switch_l1 (hw : Hw) (leaf : Nat) (g : amd_geometry)
    (hleaf : leaf = 0 ∨ leaf = 1)
    (hs : amd_cpuid4_switch hw leaf = .ok (some g)) :
    assocs (bitfield (amd_geometry_reg hw leaf) 16 8) = .ok g.assoc ∧
      g.line_size = bitfield (amd_geometry_reg hw leaf) 0 8 ∧
      g.lines_per_tag = bitfield (amd_geometry_reg hw leaf) 8 8 ∧
      g.size_in_kb = bitfield (amd_geometry_reg hw leaf) 24 8 := by
  rcases hleaf with h | h <;> subst h <;>
    simp only [amd_cpuid4_switch, amd_geometry_reg, Nat.zero_ne_one, if_true, if_false] at hs ⊢
  · by_cases hz : (cpuid_count hw 0x80000005 0).2.2.1 = 0
    · simp [hz] at hs
    · cases hA : assocs (bitfield (cpuid_count hw 0x80000005 0).2.2.1 16 8) with
      | error f => simp [hz, hA] at hs
      | ok a =>
        simp [hz, hA] at hs
        subst hs
        exact ⟨rfl, rfl, rfl, rfl⟩
  · by_cases hz : (cpuid_count hw 0x80000005 0).2.2.2 = 0
    · simp [hz] at hs
    · cases hA : assocs (bitfield (cpuid_count hw 0x80000005 0).2.2.2 16 8) with
      | error f => simp [hz, hA] at hs
      | ok a =>
        simp [hz, hA] at hs
        subst hs
        exact ⟨rfl, rfl, rfl, rfl⟩

theorem amd_cpuid4_switch_l2 (hw : Hw) (g : amd_geometry)
    (hs : amd_cpuid4_switch hw 2 = .ok (some g)) :
    assocs (bitfield (amd_geometry_reg hw 2) 12 4) = .ok g.assoc ∧
      g.line_size = bitfield (amd_geometry_reg hw 2) 0 8 ∧
      g.lines_per_tag = bitfield (amd_geometry_reg hw 2) 8 4 ∧
      g.size_in_kb = u32 hw.x86_cache_size := by
  simp only [amd_cpuid4_switch, amd_geometry_reg] at hs ⊢
  by_cases hz : (cpuid_count hw 0x80000006 0).2.2.1 = 0
  · simp [hz] at hs
  · cases hA : assocs (bitfield (cpuid_count hw 0x80000006 0).2.2.1 12 4) with
    | error f => simp [hz, hA] at hs
    | ok a =>
      simp [hz, hA] at hs
      subst hs
      exact ⟨rfl, rfl, rfl, rfl⟩

theorem amd_cpuid4_switch_l3 (hw : Hw) (g : amd_geometry)
    (hs : amd_cpuid4_switch hw 3 = .ok (some g)) :
    ∃ a, assocs (bitfield (amd_geometry_reg hw 3) 12 4) = .ok a ∧
      g.assoc = (if hw.has_amd_dcm then a / 2 else a) ∧
      g.line_size = bitfield (amd_geometry_reg hw 3) 0 8 ∧
      g.lines_per_tag = bitfield (amd_geometry_reg hw 3) 8 4 ∧
      g.size_in_kb =
        (if hw.has_amd_dcm then bitfield (amd_geometry_reg hw 3) 18 14 * 512 / 2
         else bitfield (amd_geometry_reg hw 3) 18 14 * 512) := by
  simp only [amd_cpuid4_switch, amd_geometry_reg] at hs ⊢
  by_cases hz : (cpuid_count hw 0x80000006 0).2.2.2 = 0
  · simp [hz] at hs
  · cases hA : assocs (bitfield (cpuid_count hw 0x80000006 0).2.2.2 12 4) with
    | error f => simp [hz, hA] at hs
    | ok a =>
      cases hd : hw.has_amd_dcm <;> simp [hz, hA, hd] at hs <;> subst hs <;>
        exact ⟨a, rfl, by simp, rfl, rfl, by simp⟩

/-- C23: in `amd_cpuid4` the size used to compute the set count is, for
leaves 0 and 1, the `size_in_kb` field of the L1 data / L1 instruction
register; for leaf 2, the per-processor `x86_cache_size`, whatever the size
field of the L2 register; for leaf 3, `size_encoded * 512`, and with the
AMD_DCM feature both that size and the way count read from `assocs` are
shifted right by one before the ways field and the set count are computed;
leaves 0..2 do not depend on the flag. -/
theorem C23_size_and_halving (hw : Hw) (leaf : Nat) (g : amd_geometry)
    (hs : amd_cpuid4_switch hw leaf = .ok (some g)) :
    (leaf = 0 ∨ leaf = 1 →
        g.size_in_kb = bitfield (amd_geometry_reg hw leaf) 24 8 ∧
        assocs (bitfield (amd_geometry_reg hw leaf) 16 8) = .ok g.assoc) ∧
      (leaf = 2 →
        g.size_in_kb = u32 hw.x86_cache_size ∧
        assocs (bitfield (amd_geometry_reg hw leaf) 12 4) = .ok g.assoc) ∧
      (leaf = 3 →
        ∃ a, assocs (bitfield (amd_geometry_reg hw leaf) 12 4) = .ok a ∧
          g.size_in_kb =
            (if hw.has_amd_dcm then bitfield (amd_geometry_reg hw leaf) 18 14 * 512 / 2
             else bitfield (amd_geometry_reg hw leaf) 18 14 * 512) ∧
          g.assoc = (if hw.has_amd_dcm then a / 2 else a)) ∧
      (g.line_size ≠ 0 →
        ∃ eax ebx ecx, amd_cpuid4 hw leaf = .ok (eax, ebx, ecx) ∧
          ebx_ways_of_associativity ebx = usub32 g.assoc 1 % 2 ^ 10 ∧
          ecx_number_of_sets ecx =
            usub32 (u32 (g.size_in_kb * 1024) / g.line_size /
              (ebx_ways_of_associativity ebx + 1)) 1) ∧
      (leaf ≤ 2 → ∀ b : Bool,
        amd_cpuid4_switch { hw with has_amd_dcm := b } leaf = .ok (some g) ∧
        amd_cpuid4 { hw with has_amd_dcm := b } leaf = amd_cpuid4 hw leaf) := by
  refine ⟨?_, ?_, ?_, ?_, ?_⟩
  · intro hleaf
    obtain ⟨h1, _, _, h4⟩ := amd_cpuid4_switch_l1 hw leaf g hleaf hs
    exact ⟨h4, h1⟩
  · intro hleaf
    subst hleaf
    obtain ⟨h1, _, _, h4⟩ := amd_cpuid4_switch_l2 hw g hs
    exact ⟨h4, h1⟩
  · intro hleaf
    subst hleaf
    obtain ⟨a, h1, h2, _, _, h5⟩ := amd_cpuid4_switch_l3 hw g hs
    exact ⟨a, h1, h5, h2⟩
  · intro hl
    obtain ⟨eax, ebx, ecx, h, _, _, _, _, _, _, _, hw', _, hc⟩ :=
      amd_cpuid4_present hw leaf g hs hl
    refine ⟨eax, ebx, ecx, h, hw', ?_⟩
    rw [hc, hw']
  · intro hle b
    refine ⟨?_, amd_cpuid4_dcm_irrelevant hw leaf hle b⟩
    rw [amd_cpuid4_switch_dcm_irrelevant hw leaf hle b]
    exact hs

/-- Witness for C23: leaf 3 of `hw_amd_dcm`: the 6144 KB of the register are
halved to 3072 KB and the 16 ways to 8. -/
theorem C23_size_and_halving_witness :
    ∃ a, assocs (bitfield (amd_geometry_reg hw_amd_dcm 3) 12 4) = .ok a ∧
      (3072 : Nat) =
        (if hw_amd_dcm.has_amd_dcm then bitfield (amd_geometry_reg hw_amd_dcm 3) 18 14 * 512 / 2
         else bitfield (amd_geometry_reg hw_amd_dcm 3) 18 14 * 512) ∧
      (8 : Nat) = (if hw_amd_dcm.has_amd_dcm then a / 2 else a) :=
  (C23_size_and_halving hw_amd_dcm 3
    { assoc := 8, line_size := 64, lines_per_tag := 1, size_in_kb := 3072 } rfl).2.2.1 rfl

/-- On `hw_amd_l2_256` the set count of leaf 2 comes from the 256 KB of
`x86_cache_size` (512 sets of 8 ways and 64-byte lines), not from the 512 KB
of the register's size field. -/
theorem amd_cpuid4_l2_size_substituted :
    bitfield (amd_geometry_reg hw_amd_l2_256 2) 16 16 = 512 ∧
      amd_cpuid4 hw_amd_l2_256 2 = .ok (268435779, 29360191, 511) := by
  refine ⟨by decide, rfl⟩


/-! ## The index of the `assocs` lookup -/

theorem assocs_ok_iff (i : Nat) : (∃ v, assocs i = .ok v) ↔ i < 16 := by
  unfold assocs
  constructor
  · rintro ⟨v, hv⟩
    by_contra hge
    have hnone : assocs_table[i]? = none := by
      apply List.getElem?_eq_none
      have : assocs_table.length = 16 := rfl
      omega
    rw [hnone] at hv
    exact absurd hv (by simp)
  · intro hlt
    have hlen : i < assocs_table.length := hlt
    rw [List.getElem?_eq_getElem hlen]
    exact ⟨_, rfl⟩

theorem assocs_fully_associative : assocs 0xf = .ok 0xffff := rfl

theorem bitfield_lt (x lo w : Nat) : bitfield x lo w < 2 ^ w := by
  unfold bitfield
  exact Nat.mod_lt _ (Nat.pow_pos (by decide))

/-- For leaves 2 and 3 the index of the `assocs` lookup is a 4-bit field of
the L2 / L3 register and the lookup is in bounds; for leaves 0 and 1 it is the
8-bit `assoc` field of the L1 register, and the lookup is in bounds only when
that field is below 16. -/
theorem amd_cpuid4_switch_lookup_bounds (hw : Hw) (leaf : Nat) :
    (leaf = 2 ∨ leaf = 3 →
        bitfield (amd_geometry_reg hw leaf) 12 4 < 16 ∧
        amd_cpuid4_switch hw leaf ≠ .error .out_of_bounds) ∧
      (leaf = 0 ∨ leaf = 1 →
        bitfield (amd_geometry_reg hw leaf) 16 8 < 256 ∧
        (amd_cpuid4_switch hw leaf = .error .out_of_bounds ↔
          amd_geometry_reg hw leaf ≠ 0 ∧ 16 ≤ bitfield (amd_geometry_reg hw leaf) 16 8)) := by
  constructor
  · intro hleaf
    have hlt := bitfield_lt (amd_geometry_reg hw leaf) 12 4
    obtain ⟨v, hv⟩ := (assocs_ok_iff _).mpr hlt
    refine ⟨hlt, ?_⟩
    rcases hleaf with h | h <;> subst h <;>
      simp only [amd_cpuid4_switch, amd_geometry_reg] at hv ⊢
    · by_cases hz : (cpuid_count hw 0x80000006 0).2.2.1 = 0
      · simp [hz]
      · simp [hz, hv]
    · by_cases hz : (cpuid_count hw 0x80000006 0).2.2.2 = 0
      · simp [hz]
      · cases hd : hw.has_amd_dcm <;> simp [hz, hv, hd]
  · intro hleaf
    refine ⟨bitfield_lt _ 16 8, ?_⟩
    have key : ∀ reg : Nat,
        ((if reg = 0 then (.ok none : Except Fault (Option amd_geometry))
          else
            match assocs (bitfield reg 16 8) with
            | .error f => .error f
            | .ok assoc =>
              .ok (some { assoc := assoc, line_size := bitfield reg 0 8,
                          lines_per_tag := bitfield reg 8 8,
                          size_in_kb := bitfield reg 24 8 })) = .error .out_of_bounds ↔
          reg ≠ 0 ∧ 16 ≤ bitfield reg 16 8) := by
      intro reg
      by_cases hz : reg = 0
      · simp [hz]
      · rw [if_neg hz]
        by_cases hlt : bitfield reg 16 8 < 16
        · obtain ⟨v, hv⟩ := (assocs_ok_iff _).mpr hlt
          rw [hv]
          simp
          omega
        · have hnone : assocs (bitfield reg 16 8) = .error .out_of_bounds := by
            unfold assocs
            have hn : assocs_table[bitfield reg 16 8]? = none := by
              apply List.getElem?_eq_none
              have : assocs_table.length = 16 := rfl
              omega
            rw [hn]
          rw [hnone]
          simp [hz]
          omega
    rcases hleaf with h | h <;> subst h <;>
      simp only [amd_cpuid4_switch, amd_geometry_reg, Nat.zero_ne_one, if_true, if_false]
    · exact key _
    · exact key _

/-- C24: evaluation of the code at an L1 data register that reports a fully
associative cache (`assoc = 0xFF`): the index of the `assocs` lookup of leaf 0
is 255, beyond the sixteen entries of the table, in `amd_cpuid4` and so in
`cpuid4_cache_lookup_regs`. -/
theorem C24_l1_assoc_index_out_of_bounds :
    amd_geometry_reg hw_amd_l1_fully_assoc 0 = 0x40FF0140 ∧
      bitfield (amd_geometry_reg hw_amd_l1_fully_assoc 0) 16 8 = 255 ∧
      assocs_table.length = 16 ∧
      assocs 255 = .error .out_of_bounds ∧
      amd_cpuid4 hw_amd_l1_fully_assoc 0 = .error .out_of_bounds ∧
      cpuid4_cache_lookup_regs hw_amd_l1_fully_assoc 0 _cpuid4_info_regs.zero =
        .error .out_of_bounds := by
  refine ⟨by decide, by decide, rfl, rfl, rfl, rfl⟩


/-! ## The subcache counts and the index bound (`amd_calc_l3_indices`) -/

theorem lnot_and_bit (val k : Nat) : lnot (val &&& BIT k) = bit_clear val k := by
  unfold lnot bit_clear BIT
  rw [Nat.one_shiftLeft]
  by_cases h : val.testBit k = true
  · rw [if_pos h, if_neg]
    intro hz
    rw [and_two_pow_eq_zero_iff] at hz
    rw [hz] at h
    exact absurd h (by simp)
  · rw [if_neg h, if_pos]
    rw [and_two_pow_eq_zero_iff]
    simpa using h

theorem bit_clear_le_one (val k : Nat) : bit_clear val k ≤ 1 := by
  unfold bit_clear
  split <;> omega

/-- C25: for every value `val` read from the configuration register `0x1C4`
and every processor family, `amd_calc_l3_indices` sets the subcache counts to
`sc0 = [bit 0 clear]`, `sc1 = [bit 4 clear]`, each increased by
`[bit 1 clear]` resp. `[bit 5 clear]` only on family 0x15,
`sc2 = [bit 8 clear] + [bit 9 clear]`, `sc3 = [bit 12 clear] + [bit 13 clear]`,
and `indices` to `(max(sc0, sc1, sc2, sc3) << 10) - 1` as an unsigned 32-bit
value (`0xFFFFFFFF` when the maximum is 0). -/
theorem C25_subcaches_and_indices (x86 : Nat) (nb : amd_northbridge) :
    (amd_calc_l3_indices x86 nb).subcaches 0 =
        bit_clear (u32 (nb.misc 0x1C4)) 0 +
          (if x86 = 0x15 then bit_clear (u32 (nb.misc 0x1C4)) 1 else 0) ∧
      (amd_calc_l3_indices x86 nb).subcaches 1 =
        bit_clear (u32 (nb.misc 0x1C4)) 4 +
          (if x86 = 0x15 then bit_clear (u32 (nb.misc 0x1C4)) 5 else 0) ∧
      (amd_calc_l3_indices x86 nb).subcaches 2 =
        bit_clear (u32 (nb.misc 0x1C4)) 8 + bit_clear (u32 (nb.misc 0x1C4)) 9 ∧
      (amd_calc_l3_indices x86 nb).subcaches 3 =
        bit_clear (u32 (nb.misc 0x1C4)) 12 + bit_clear (u32 (nb.misc 0x1C4)) 13 ∧
      (amd_calc_l3_indices x86 nb).indices =
        (max (max (max ((amd_calc_l3_indices x86 nb).subcaches 0)
              ((amd_calc_l3_indices x86 nb).subcaches 1))
            ((amd_calc_l3_indices x86 nb).subcaches 2))
          ((amd_calc_l3_indices x86 nb).subcaches 3) * 2 ^ 10 + 2 ^ 32 - 1) % 2 ^ 32 ∧
      (amd_calc_l3_indices x86 nb).indices < 2 ^ 32 := by
  have hval : (pci_read_config_dword nb 0x1C4).1 = u32 (nb.misc 0x1C4) := rfl
  have h0 := bit_clear_le_one (u32 (nb.misc 0x1C4)) 0
  have h1 := bit_clear_le_one (u32 (nb.misc 0x1C4)) 1
  have h4 := bit_clear_le_one (u32 (nb.misc 0x1C4)) 4
  have h5 := bit_clear_le_one (u32 (nb.misc 0x1C4)) 5
  have h8 := bit_clear_le_one (u32 (nb.misc 0x1C4)) 8
  have h9 := bit_clear_le_one (u32 (nb.misc 0x1C4)) 9
  have h12 := bit_clear_le_one (u32 (nb.misc 0x1C4)) 12
  have h13 := bit_clear_le_one (u32 (nb.misc 0x1C4)) 13
  unfold amd_calc_l3_indices
  dsimp only
  simp only [lnot_and_bit, hval]
  generalize bit_clear (u32 (nb.misc 0x1C4)) 0 = a0 at *
  generalize bit_clear (u32 (nb.misc 0x1C4)) 1 = a1 at *
  generalize bit_clear (u32 (nb.misc 0x1C4)) 4 = a4 at *
  generalize bit_clear (u32 (nb.misc 0x1C4)) 5 = a5 at *
  generalize bit_clear (u32 (nb.misc 0x1C4)) 8 = a8 at *
  generalize bit_clear (u32 (nb.misc 0x1C4)) 9 = a9 at *
  generalize bit_clear (u32 (nb.misc 0x1C4)) 12 = a12 at *
  generalize bit_clear (u32 (nb.misc 0x1C4)) 13 = a13 at *
  have hpow : (2 : Nat) ^ 10 = 1024 := by decide
  have hpow32 : (2 : Nat) ^ 32 = 4294967296 := by decide
  simp only [Nat.shiftLeft_eq, usub32, u32, hpow, hpow32]
  by_cases hx : x86 = 0x15
  · simp only [hx, if_true]
    simp
    omega
  · simp only [hx, if_false]
    simp
    omega


/-! ## Which processors of a rendezvous run `cache_cpu_init` -/

theorem rendezvous_events_filter (cfg : cache_ctl) (t : Topo) (delayed : Bool)
    (cpus : List Nat) :
    rendezvous_events cfg t delayed cpus =
      ((cpus.filter (fun c => delayed || !t.cpu_online c)).map
        (cache_cpu_init_events cfg)).flatten := by
  unfold rendezvous_events
  induction cpus with
  | nil => rfl
  | cons c cs ih =>
    rw [List.map_cons, List.flatten_cons, ih]
    by_cases h : (delayed || !t.cpu_online c) = true
    · rw [if_pos h]
      simp [List.filter_cons, h]
    · rw [if_neg h]
      simp [List.filter_cons, h]

theorem filter_true_eq (cpus : List Nat) (p : Nat → Bool) (h : ∀ c, p c = true) :
    cpus.filter p = cpus := by
  induction cpus with
  | nil => rfl
  | cons c cs ih => simp [List.filter_cons, h c, ih]

/-- C26: for a rendezvous that runs `cache_rendezvous_handler` once on each
processor of a target list `S`, from a state with the lock free: the handler
returns 0 on every processor; it runs `cache_cpu_init` on a processor exactly
when the deferred-init flag is set or the processor is not marked online; so
the rendezvous completes and its outside calls are those of `cache_cpu_init`
on every processor of `S` when the flag is set, and on exactly the processors
of `S` not marked online when the flag is clear. -/
theorem C26_rendezvous_targets (cfg : cache_ctl) (t : Topo) (S : List Nat) (st : cache_state)
    (hfree : st.cache_disable_lock = false) :
    (∀ cpu, ∃ st', cache_rendezvous_handler cfg t cpu st = some (0, st')) ∧
      (∀ cpu (st0 : cache_state) (r : Int) (st1 : cache_state),
        cache_rendezvous_handler cfg t cpu st0 = some (r, st1) → r = 0) ∧
      (∀ cpu, (st.cache_aps_delayed_init || !t.cpu_online cpu) = true →
        cache_rendezvous_handler cfg t cpu st =
          (cache_cpu_init cfg cpu st).map (fun s => ((0 : Int), s))) ∧
      (∀ cpu, (st.cache_aps_delayed_init || !t.cpu_online cpu) = false →
        cache_rendezvous_handler cfg t cpu st = some (0, st)) ∧
      ∃ st', stop_machine_run (cache_rendezvous_handler cfg t) S st = some st' ∧
        (st.cache_aps_delayed_init = true →
          st'.trace = st.trace ++ (S.map (cache_cpu_init_events cfg)).flatten) ∧
        (st.cache_aps_delayed_init = false →
          st'.trace = st.trace ++
            ((S.filter (fun c => !t.cpu_online c)).map (cache_cpu_init_events cfg)).flatten) := by
  refine ⟨?_, ?_, ?_, ?_, ?_⟩
  · intro cpu
    obtain ⟨st', h, _⟩ := cache_rendezvous_handler_spec cfg t cpu st hfree
    exact ⟨st', h⟩
  · intro cpu st0 r st1 h
    unfold cache_rendezvous_handler at h
    split at h
    · cases hc : cache_cpu_init cfg cpu st0 with
      | none =>
        rw [hc] at h
        exact absurd h (by simp)
      | some s =>
        rw [hc] at h
        injection h with h
        injection h with h _
        exact h.symm
    · injection h with h
      injection h with h _
      exact h.symm
  · intro cpu hc
    unfold cache_rendezvous_handler get_cache_aps_delayed_init
    rw [if_pos hc]
    cases cache_cpu_init cfg cpu st <;> rfl
  · intro cpu hc
    unfold cache_rendezvous_handler get_cache_aps_delayed_init
    rw [if_neg (by rw [hc]; simp)]
  · obtain ⟨st', h1, _, _, _, h5⟩ := stop_machine_run_spec cfg t S st hfree
    refine ⟨st', h1, ?_, ?_⟩
    · intro hd
      rw [h5, rendezvous_events_filter, hd]
      rw [filter_true_eq S _ (fun c => by simp)]
    · intro hd
      rw [h5, rendezvous_events_filter, hd]
      simp only [Bool.false_or]

/-- Witness for C26: targets 0, 1, 2 of which 0 and 1 are online, flag set. -/
theorem C26_rendezvous_targets_witness :
    ∃ st', stop_machine_run (cache_rendezvous_handler cfg_mtrr_pat topo_two_online) [0, 1, 2]
          cache_state_boot = some st' ∧
        (cache_state_boot.cache_aps_delayed_init = true →
          st'.trace = cache_state_boot.trace ++
            ([0, 1, 2].map (cache_cpu_init_events cfg_mtrr_pat)).flatten) ∧
        (cache_state_boot.cache_aps_delayed_init = false →
          st'.trace = cache_state_boot.trace ++
            (([0, 1, 2].filter (fun c => !topo_two_online.cpu_online c)).map
              (cache_cpu_init_events cfg_mtrr_pat)).flatten) :=
  (C26_rendezvous_targets cfg_mtrr_pat topo_two_online [0, 1, 2] cache_state_boot rfl).2.2.2.2

/-- With the flag clear and processors 0 and 1 online, a rendezvous over
0, 1, 2 runs `cache_cpu_init` on processor 2 only. -/
theorem rendezvous_flag_clear_runs_offline_only :
    rendezvous_events cfg_mtrr_pat topo_two_online false [0, 1, 2] =
      cache_cpu_init_events cfg_mtrr_pat 2 := by
  decide


/-! ## The divisors of the set-count computation of `amd_cpuid4` -/

theorem amd_cpuid4_switch_some (hw : Hw) (leaf : Nat) (g : amd_geometry)
    (hs : amd_cpuid4_switch hw leaf = .ok (some g)) :
    leaf ≤ 3 ∧ amd_geometry_reg hw leaf ≠ 0 ∧
      g.line_size = bitfield (amd_geometry_reg hw leaf) 0 8 := by
  have hle : leaf ≤ 3 := by
    by_contra hgt
    rw [amd_cpuid4_switch_beyond hw leaf (by omega)] at hs
    exact absurd hs (by simp)
  refine ⟨hle, ?_, ?_⟩
  · intro hz
    rw [(amd_cpuid4_switch_none_iff hw leaf hle).mpr hz] at hs
    exact absurd hs (by simp)
  · have hcases : leaf = 0 ∨ leaf = 1 ∨ leaf = 2 ∨ leaf = 3 := by omega
    rcases hcases with h | h | h | h
    · exact (amd_cpuid4_switch_l1 hw leaf g (Or.inl h) hs).2.1
    · exact (amd_cpuid4_switch_l1 hw leaf g (Or.inr h) hs).2.1
    · subst h
      exact (amd_cpuid4_switch_l2 hw g hs).2.1
    · subst h
      obtain ⟨a, _, _, h3, _⟩ := amd_cpuid4_switch_l3 hw g hs
      exact h3

/-- C27, as stated, fails: the L2 register `0x02006100` is non-zero, so the
early return of leaf 2 is not taken, its `line_size` field is zero, and the
set-count computation divides by zero. -/
theorem C27_line_size_zero_counterexample :
    amd_geometry_reg hw_amd_l2_no_line_size 2 = 0x02006100 ∧
      amd_geometry_reg hw_amd_l2_no_line_size 2 ≠ 0 ∧
      amd_cpuid4_switch hw_amd_l2_no_line_size 2 =
        .ok (some { assoc := 8, line_size := 0, lines_per_tag := 1, size_in_kb := 512 }) ∧
      amd_cpuid4 hw_amd_l2_no_line_size 2 = .error .divide_by_zero := by
  refine ⟨by decide, by decide, rfl, rfl⟩

/-- C27 (amended): in `amd_cpuid4`, for every leaf whose switch reaches the
`break` (leaf index 0..3, geometry register non-zero, associativity lookup
done), the divisor `ways_of_associativity + 1` lies in 1..1024 (1024 for an
unmapped associativity code, 1023 for the `0xffff` sentinel, after truncation
of `assoc - 1` to the 10-bit field), the divisor `line_size` is the 8-bit
`line_size` field of the register, and when that field is non-zero the
set-count computation does not divide by zero: the registers are returned,
with the set count computed from these two divisors. -/
theorem C27_divisors (hw : Hw) (leaf : Nat) (g : amd_geometry)
    (hs : amd_cpuid4_switch hw leaf = .ok (some g)) :
    leaf ≤ 3 ∧ amd_geometry_reg hw leaf ≠ 0 ∧
      g.line_size = bitfield (amd_geometry_reg hw leaf) 0 8 ∧
      g.line_size < 256 ∧
      1 ≤ usub32 g.assoc 1 % 2 ^ 10 + 1 ∧ usub32 g.assoc 1 % 2 ^ 10 + 1 ≤ 1024 ∧
      (g.assoc = 0 → usub32 g.assoc 1 % 2 ^ 10 + 1 = 1024) ∧
      (g.assoc = 0xffff → usub32 g.assoc 1 % 2 ^ 10 + 1 = 1023) ∧
      (g.line_size ≠ 0 →
        ∃ eax ebx ecx, amd_cpuid4 hw leaf = .ok (eax, ebx, ecx) ∧
          ebx_ways_of_associativity ebx + 1 = usub32 g.assoc 1 % 2 ^ 10 + 1 ∧
          ecx_number_of_sets ecx =
            usub32 (u32 (g.size_in_kb * 1024) / g.line_size /
              (ebx_ways_of_associativity ebx + 1)) 1) := by
  obtain ⟨hle, hreg, hline⟩ := amd_cpuid4_switch_some hw leaf g hs
  have hmod : usub32 g.assoc 1 % 2 ^ 10 < 2 ^ 10 := Nat.mod_lt _ (by decide)
  have hpow : (2 : Nat) ^ 10 = 1024 := by decide
  refine ⟨hle, hreg, hline, ?_, by omega, by omega, ?_, ?_, ?_⟩
  · rw [hline]
    exact bitfield_lt _ 0 8
  · intro h0
    rw [h0]
    decide
  · intro hf
    rw [hf]
    decide
  · intro hl
    obtain ⟨eax, ebx, ecx, h, _, _, _, _, _, _, _, hw', _, hc⟩ :=
      amd_cpuid4_present hw leaf g hs hl
    refine ⟨eax, ebx, ecx, h, by rw [hw'], ?_⟩
    rw [hc, hw']

/-- Witness for C27: leaf 2 of `hw_amd_legacy` (8 ways, 64-byte lines). -/
theorem C27_divisors_witness :
    ∃ eax ebx ecx, amd_cpuid4 hw_amd_legacy 2 = .ok (eax, ebx, ecx) ∧
      ebx_ways_of_associativity ebx + 1 = usub32 8 1 % 2 ^ 10 + 1 ∧
      ecx_number_of_sets ecx =
        usub32 (u32 (512 * 1024) / 64 / (ebx_ways_of_associativity ebx + 1)) 1 :=
  (C27_divisors hw_amd_legacy 2
    { assoc := 8, line_size := 64, lines_per_tag := 1, size_in_kb := 512 }
    rfl).2.2.2.2.2.2.2.2 (by decide)


/-! ## Round trip of the legacy emulation -/

theorem usub32_one (x : Nat) (h1 : 1 ≤ x) (h2 : x < 2 ^ 32) : usub32 x 1 = x - 1 := by
  unfold usub32 u32
  have hpow32 : (2 : Nat) ^ 32 = 4294967296 := by decide
  rw [hpow32] at h2 ⊢
  omega

/-- C28: round trip of the legacy emulation. On the legacy probe (AMD, no
TOPOEXT), for a leaf whose switch in `amd_cpuid4` leaves `line_size >= 1`,
`lines_per_tag = 1`, a way count `w` in 1..128 (after any halving) and a size
`S` in KB (after any substitution or halving) with `S * 1024` a positive
multiple of `line_size * w` below `2 ^ 32`: `cpuid4_cache_lookup_regs`
succeeds and the size it derives from the synthesized `ebx`/`ecx` fields is
`S * 1024` bytes, and the leaf built by `ci_leaf_init` reports line size
`line_size`, associativity `w`, one partition, `S * 1024 / (line_size * w)`
sets and size `S * 1024`. -/
theorem C28_legacy_round_trip (hw : Hw) (leaf : Nat) (g : amd_geometry)
    (this_leaf : _cpuid4_info_regs)
    (hboot : hw.x86_vendor = Vendor.X86_VENDOR_AMD) (htopo : hw.has_topoext = false)
    (hs : amd_cpuid4_switch hw leaf = .ok (some g))
    (hline : 1 ≤ g.line_size) (htag : g.lines_per_tag = 1)
    (hw1 : 1 ≤ g.assoc) (hw128 : g.assoc ≤ 128)
    (hpos : 0 < g.size_in_kb * 1024)
    (hdvd : g.line_size * g.assoc ∣ g.size_in_kb * 1024)
    (hlt : g.size_in_kb * 1024 < 2 ^ 32) :
    ∃ r, cpuid4_cache_lookup_regs hw leaf this_leaf = .ok (0, r) ∧
      r.size = g.size_in_kb * 1024 ∧
      (ci_leaf_init r).coherency_line_size = g.line_size ∧
      (ci_leaf_init r).ways_of_associativity = g.assoc ∧
      (ci_leaf_init r).physical_line_partition = 1 ∧
      (ci_leaf_init r).number_of_sets = g.size_in_kb * 1024 / (g.line_size * g.assoc) ∧
      (ci_leaf_init r).size = g.size_in_kb * 1024 := by
  have hpow32 : (2 : Nat) ^ 32 = 4294967296 := by decide
  have hpow12 : (2 : Nat) ^ 12 = 4096 := by decide
  have hpow10 : (2 : Nat) ^ 10 = 1024 := by decide
  obtain ⟨hle, _, hreg⟩ := amd_cpuid4_switch_some hw leaf g hs
  have hl256 : g.line_size < 256 := by
    rw [hreg]
    exact bitfield_lt _ 0 8
  have hl : g.line_size ≠ 0 := by omega
  obtain ⟨eax, ebx, ecx, h, _, hty, _, _, _, _, hcl, hways, hpart, hsets⟩ :=
    amd_cpuid4_present hw leaf g hs hl
  have htype : eax_type eax ≠ CTYPE_NULL := by
    rw [hty]
    have hcases : leaf = 0 ∨ leaf = 1 ∨ leaf = 2 ∨ leaf = 3 := by omega
    rcases hcases with h' | h' | h' | h' <;> subst h' <;> decide
  have hp : cpuid4_probe hw leaf = .ok (eax, ebx, ecx) := by
    rw [cpuid4_probe_legacy hw leaf hboot htopo, h]
  obtain ⟨r, hr, _, hebx, hecx, hsize⟩ :=
    lookup_of_probe_present hw leaf this_leaf eax ebx ecx hp htype
  -- the fields of the synthesized registers
  have e1 : ebx_coherency_line_size ebx + 1 = g.line_size := by
    rw [hcl, usub32_one _ hline (by omega), hpow12, Nat.mod_eq_of_lt (by omega)]
    omega
  have e2 : ebx_ways_of_associativity ebx + 1 = g.assoc := by
    rw [hways, usub32_one _ hw1 (by omega), hpow10, Nat.mod_eq_of_lt (by omega)]
    omega
  have e3 : ebx_physical_line_partition ebx + 1 = 1 := by
    rw [hpart, htag]
    decide
  -- the set count
  have hmpos : 0 < g.line_size * g.assoc := Nat.mul_pos (by omega) (by omega)
  have hN : g.size_in_kb * 1024 / g.line_size / g.assoc =
      g.size_in_kb * 1024 / (g.line_size * g.assoc) := Nat.div_div_eq_div_mul _ _ _
  have hmul : g.size_in_kb * 1024 / (g.line_size * g.assoc) * (g.line_size * g.assoc) =
      g.size_in_kb * 1024 := Nat.div_mul_cancel hdvd
  have hN1 : 1 ≤ g.size_in_kb * 1024 / (g.line_size * g.assoc) := by
    rw [Nat.one_le_div_iff hmpos]
    exact Nat.le_of_dvd hpos hdvd
  have hNle : g.size_in_kb * 1024 / (g.line_size * g.assoc) ≤ g.size_in_kb * 1024 :=
    Nat.div_le_self _ _
  have e4 : ecx_number_of_sets ecx + 1 = g.size_in_kb * 1024 / (g.line_size * g.assoc) := by
    have hu : u32 (g.size_in_kb * 1024) = g.size_in_kb * 1024 := Nat.mod_eq_of_lt hlt
    have hw' : usub32 g.assoc 1 % 2 ^ 10 + 1 = g.assoc := by
      rw [← hways]
      exact e2
    rw [hsets, hu, hw', hN, usub32_one _ hN1 (by omega)]
    omega
  have hu4 : u32 (ecx_number_of_sets ecx + 1) =
      g.size_in_kb * 1024 / (g.line_size * g.assoc) := by
    rw [e4]
    exact Nat.mod_eq_of_lt (by omega)
  have hsz : r.size = g.size_in_kb * 1024 := by
    rw [hsize, hu4, e1, e2, e3, Nat.mul_one, Nat.mul_assoc, hmul]
    exact Nat.mod_eq_of_lt hlt
  refine ⟨r, hr, hsz, ?_, ?_, ?_, ?_, ?_⟩
  · show ebx_coherency_line_size r.ebx + 1 = g.line_size
    rw [hebx]
    exact e1
  · show ebx_ways_of_associativity r.ebx + 1 = g.assoc
    rw [hebx]
    exact e2
  · show ebx_physical_line_partition r.ebx + 1 = 1
    rw [hebx]
    exact e3
  · show u32 (ecx_number_of_sets r.ecx + 1) = _
    rw [hecx]
    exact hu4
  · show u32 r.size = _
    rw [hsz]
    exact Nat.mod_eq_of_lt hlt

/-- Witness for C28: leaf 2 of `hw_amd_legacy`: 512 KB, 8 ways, 64-byte
lines, 1024 sets. -/
theorem C28_legacy_round_trip_witness :
    ∃ r, cpuid4_cache_lookup_regs hw_amd_legacy 2 _cpuid4_info_regs.zero = .ok (0, r) ∧
      r.size = 512 * 1024 ∧
      (ci_leaf_init r).coherency_line_size = 64 ∧
      (ci_leaf_init r).ways_of_associativity = 8 ∧
      (ci_leaf_init r).physical_line_partition = 1 ∧
      (ci_leaf_init r).number_of_sets = 512 * 1024 / (64 * 8) ∧
      (ci_leaf_init r).size = 512 * 1024 :=
  C28_legacy_round_trip hw_amd_legacy 2
    { assoc := 8, line_size := 64, lines_per_tag := 1, size_in_kb := 512 }
    _cpuid4_info_regs.zero rfl rfl rfl (by decide) rfl (by decide) (by decide) (by decide)
    (by decide) (by decide)

/-- The round trip on leaf 3 of `hw_amd_dcm`: 3072 KB and 8 ways after the
halving. -/
theorem legacy_round_trip_dcm :
    (cpuid4_cache_lookup_regs hw_amd_dcm 3 _cpuid4_info_regs.zero).map
        (fun p => (p.1, p.2.size, (ci_leaf_init p.2).ways_of_associativity,
          (ci_leaf_init p.2).coherency_line_size)) =
      .ok (0, 3072 * 1024, 8, 64) := by
  rfl

end Cacheinfo
